import Mathlib

/-!
# snapd: task engine, interface manager and boot model change

A verification development over a shallow embedding of

* `overlord/ifacestate/ifacemgr.go` (the interface manager),
* `overlord/fdestate/backend/reseal.go` (resealing of the disk encryption keys),
* the behaviour exercised by `overlord/snapstate/snapstate_install_test.go`
  and `boot/model_test.go`.

Definitions come first, theorems follow.
-/

namespace Snapd

/-! ## Part 1: definitions -/

/-! ### overlord/ifacestate/ifacemgr.go: Manager and its blocked predicate -/

namespace Ifacestate

/-- The part of `state.Task` the blocked predicate reads: `t.Kind()`. -/
structure Task where
  id : String
  kind : String
  deriving DecidableEq, Repr

/-- One registration statement of `Manager` (ifacemgr.go:99-127), in source
order.  `addHandler` is the local closure that marks the kind exclusive and
registers the handler; `runnerAddHandler` is a direct `runner.AddHandler`
call; `markExclusive` is the direct write `exclusiveTaskKinds[kind] = true`. -/
inductive Registration where
  | addHandler (kind : String)
  | markExclusive (kind : String)
  | runnerAddHandler (kind : String)
  deriving DecidableEq, Repr

/-- The registration statements of `Manager`, lines 105-127. -/
def managerRegistrations : List Registration :=
  [ .addHandler "connect",
    .addHandler "disconnect",
    .addHandler "setup-profiles",
    .addHandler "remove-profiles",
    .addHandler "discard-conns",
    .addHandler "auto-connect",
    .addHandler "auto-disconnect",
    .addHandler "hotplug-add-slot",
    .addHandler "hotplug-connect",
    .addHandler "hotplug-update-slot",
    .addHandler "hotplug-remove-slot",
    .addHandler "hotplug-disconnect",
    .addHandler "regenerate-security-profiles",
    .markExclusive "mark-preseeded",
    .runnerAddHandler "hotplug-seq-wait",
    .addHandler "transition-ubuntu-core" ]

/-- The Go map `exclusiveTaskKinds` (a `map[string]bool` whose entries are all
`true`) as the list of its keys, in insertion order. -/
abbrev KindSet := List String

/-- Effect of one registration statement on `exclusiveTaskKinds`. -/
def applyRegistration (m : KindSet) : Registration → KindSet
  | .addHandler kind => if m.contains kind then m else m ++ [kind]
  | .markExclusive kind => if m.contains kind then m else m ++ [kind]
  | .runnerAddHandler _ => m

/-- The map `exclusiveTaskKinds` as it stands when `Manager` returns. -/
def exclusiveTaskKinds : KindSet :=
  managerRegistrations.foldl applyRegistration []

/-- Map lookup `exclusiveTaskKinds[kind]`: a missing key reads `false`. -/
def lookup (m : KindSet) (kind : String) : Bool :=
  m.contains kind

/-- The loop `for _, t := range running { if exclusiveTaskKinds[t.Kind()] { return true } }`
followed by `return false` (ifacemgr.go:135-141). -/
def anyExclusiveRunning (m : KindSet) : List Task → Bool
  | [] => false
  | r :: rest => if lookup m r.kind then true else anyExclusiveRunning m rest

/-- The closure passed to `runner.AddBlocked` (ifacemgr.go:130-142), with the
captured map as first argument. -/
def blockedWith (m : KindSet) (t : Task) (running : List Task) : Bool :=
  if !lookup m t.kind then false
  else anyExclusiveRunning m running

/-- The blocked predicate that `Manager` registers. -/
def blocked (t : Task) (running : List Task) : Bool :=
  blockedWith exclusiveTaskKinds t running

end Ifacestate

/-! ### overlord/ifacestate/ifacemgr.go: ConnectionState, ConnectionStates, ResolveDisconnect -/

namespace Ifacestate

/-- A Go map with string keys as the list of its entries, in the order in
which `range` visits them; the keys of a map are distinct. -/
abbrev GoMap (β : Type) := List (String × β)

/-- The keys of a map. -/
def mapKeys {β : Type} (m : GoMap β) : List String :=
  m.map (·.1)

/-- Map lookup with presence, `v, ok := m[k]`. -/
def mapGet {β : Type} (m : GoMap β) (k : String) : Option β :=
  (m.find? fun e => e.1 == k).map (·.2)

/-- Map assignment `m[k] = v`. -/
def mapSet {β : Type} (m : GoMap β) (k : String) (v : β) : GoMap β :=
  if m.any (fun e => e.1 == k) then m.map fun e => if e.1 == k then (k, v) else e
  else m ++ [(k, v)]

/-- The exported `ConnectionState` (ifacemgr.go:367-385); `A` is the type of
the attribute maps, `map[string]any`. -/
structure ConnectionState (A : Type) where
  Auto : Bool
  ByGadget : Bool
  Interface : String
  Undesired : Bool
  StaticPlugAttrs : A
  DynamicPlugAttrs : A
  StaticSlotAttrs : A
  DynamicSlotAttrs : A
  HotplugGone : Bool
  deriving DecidableEq, Repr

/-- `ConnectionState.Active` (ifacemgr.go:389-391). -/
def ConnectionState.Active {A : Type} (c : ConnectionState A) : Bool :=
  !(c.Undesired || c.HotplugGone)

/-- The stored state of a connection, the unexported `connState`, whose
declaration is not among the source files: the nine fields that
`ConnectionStates` reads, and in `rest` whatever else the type holds. -/
structure connState (A R : Type) where
  Auto : Bool
  ByGadget : Bool
  Interface : String
  Undesired : Bool
  StaticPlugAttrs : A
  DynamicPlugAttrs : A
  StaticSlotAttrs : A
  DynamicSlotAttrs : A
  HotplugGone : Bool
  rest : R
  deriving DecidableEq, Repr

/-- `interfaces.PlugRef`, the fields read at ifacemgr.go:455 and 469. -/
structure PlugRef where
  Snap : String
  Name : String
  deriving DecidableEq, Repr

/-- `interfaces.SlotRef`, the fields read at ifacemgr.go:456 and 472. -/
structure SlotRef where
  Snap : String
  Name : String
  deriving DecidableEq, Repr

/-- `interfaces.ConnRef`. -/
structure ConnRef where
  PlugRef : PlugRef
  SlotRef : SlotRef
  deriving DecidableEq, Repr

/-- The answers of `m.repo.Connection` that ifacemgr.go:480-490 tells apart:
a nil error, an `*interfaces.NotConnectedError`, any other error. -/
inductive ConnectionAnswer (E : Type) where
  | connected
  | notConnected
  | failed (err : E)
  deriving DecidableEq, Repr

/-- What `ConnectionStates` and `ResolveDisconnect` call and the source files
do not hold, as answered for the manager at hand: `getConns(m.state)`,
`SystemSnapName()`, `(ConnRef).ID()`, `interfaces.ParseConnRef`,
`m.repo.Connection` and `m.repo.Connected`.  `E` is the type of their errors. -/
structure Env (A R E : Type) where
  getConns : Except E (GoMap (connState A R))
  SystemSnapName : String
  ID : ConnRef → String
  ParseConnRef : String → Except E ConnRef
  repoConnection : ConnRef → ConnectionAnswer E
  repoConnected : String → String → Except E (List ConnRef)

/-- `ConnectionStates` (ifacemgr.go:398-419); `.error err` is the return
`nil, err`. -/
def ConnectionStates {A R E : Type} (env : Env A R E) : Except E (GoMap (ConnectionState A)) :=
  match env.getConns with
  | .error err => .error err
  | .ok states =>
    .ok (states.foldl (fun connStateByRef e =>
      mapSet connStateByRef e.1
        { Auto := e.2.Auto
          ByGadget := e.2.ByGadget
          Interface := e.2.Interface
          Undesired := e.2.Undesired
          StaticPlugAttrs := e.2.StaticPlugAttrs
          DynamicPlugAttrs := e.2.DynamicPlugAttrs
          StaticSlotAttrs := e.2.StaticSlotAttrs
          DynamicSlotAttrs := e.2.DynamicSlotAttrs
          HotplugGone := e.2.HotplugGone }) [])

/-- The entry that `ConnectionStates` makes of a stored entry, the composite
literal of ifacemgr.go:406-416 (used in the statements). -/
def exported {A R : Type} (cstate : connState A R) : ConnectionState A :=
  { Auto := cstate.Auto
    ByGadget := cstate.ByGadget
    Interface := cstate.Interface
    Undesired := cstate.Undesired
    StaticPlugAttrs := cstate.StaticPlugAttrs
    DynamicPlugAttrs := cstate.DynamicPlugAttrs
    StaticSlotAttrs := cstate.StaticSlotAttrs
    DynamicSlotAttrs := cstate.DynamicSlotAttrs
    HotplugGone := cstate.HotplugGone }

/-- The errors `ResolveDisconnect` returns: the three it makes with
`fmt.Errorf` (ifacemgr.go:520, 523, 548) and, in `other`, the error of a
collaborator handed on as it is. -/
inductive ResolveError (E : Type) where
  | other (err : E)
  | cannotForget (plugSnapName plugName slotSnapName slotName : String)
  | cannotDisconnect (plugSnapName plugName slotSnapName slotName : String)
  | allowedForms
  deriving DecidableEq, Repr

/-- The message of an error, `err.Error()`; `render` gives the message of a
collaborator's error. -/
def ResolveError.Error {E : Type} (render : E → String) : ResolveError E → String
  | .other err => render err
  | .cannotForget plugSnapName plugName slotSnapName slotName =>
    "cannot forget connection " ++ plugSnapName ++ ":" ++ plugName ++ " from " ++ slotSnapName
      ++ ":" ++ slotName ++ ", it was not connected"
  | .cannotDisconnect plugSnapName plugName slotSnapName slotName =>
    "cannot disconnect " ++ plugSnapName ++ ":" ++ plugName ++ " from " ++ slotSnapName
      ++ ":" ++ slotName ++ ", it is not connected"
  | .allowedForms => "allowed forms are <snap>:<plug> <snap>:<slot> or <snap>:<plug or slot>"

/-- The two local closures of `ResolveDisconnect` (ifacemgr.go:445-446). -/
structure Lookups (E : Type) where
  connected : String → String → String → String → Except E Bool
  connectedPlugOrSlot : String → String → Except E (List ConnRef)

/-- The loop of `connectedPlugOrSlot` with `forget` (ifacemgr.go:464-476) over
the entries still to visit, `refs` being the slice built so far. -/
def collectRefs {β E : Type} (ParseConnRef : String → Except E ConnRef)
    (snapName plugOrSlotName : String) : GoMap β → List ConnRef → Except E (List ConnRef)
  | [], refs => .ok refs
  | (connID, _) :: rest, refs =>
    match ParseConnRef connID with
    | .error err => .error err
    | .ok cref =>
      let refs1 := if cref.PlugRef.Snap = snapName ∧ cref.PlugRef.Name = plugOrSlotName
        then refs ++ [cref] else refs
      let refs2 := if cref.SlotRef.Snap = snapName ∧ cref.SlotRef.Name = plugOrSlotName
        then refs1 ++ [cref] else refs1
      collectRefs ParseConnRef snapName plugOrSlotName rest refs2

/-- The closures of the `forget` branch (ifacemgr.go:453-477), over the stored
connections `conns`. -/
def storedLookups {A R E : Type} (env : Env A R E) (conns : GoMap (connState A R)) : Lookups E where
  connected := fun plugSn plug slotSn slot =>
    .ok (mapGet conns (env.ID ⟨⟨plugSn, plug⟩, ⟨slotSn, slot⟩⟩)).isSome
  connectedPlugOrSlot := fun snapName plugOrSlotName =>
    collectRefs env.ParseConnRef snapName plugOrSlotName conns []

/-- The closures of the other branch (ifacemgr.go:479-495), over the
repository. -/
def repoLookups {A R E : Type} (env : Env A R E) : Lookups E where
  connected := fun plugSn plug slotSn slot =>
    match env.repoConnection ⟨⟨plugSn, plug⟩, ⟨slotSn, slot⟩⟩ with
    | .notConnected => .ok false
    | .failed err => .error err
    | .connected => .ok true
  connectedPlugOrSlot := fun snapName plugOrSlotName =>
    env.repoConnected snapName plugOrSlotName

/-- The handing on of a collaborator's result, `return f(...)`. -/
def handOn {E α : Type} : Except E α → Except (ResolveError E) α
  | .ok v => .ok v
  | .error err => .error (.other err)

/-- The `switch` of `ResolveDisconnect` (ifacemgr.go:498-549) with the two
closures in hand. -/
def resolveWith {A R E : Type} (env : Env A R E) (l : Lookups E)
    (plugSnapName plugName slotSnapName slotName : String) (forget : Bool) :
    Except (ResolveError E) (List ConnRef) :=
  let coreSnapName := env.SystemSnapName
  if plugName ≠ "" ∧ slotName ≠ "" then
    let plugSnapName1 := if plugSnapName = "" then coreSnapName else plugSnapName
    let slotSnapName1 := if slotSnapName = "" then coreSnapName else slotSnapName
    match l.connected plugSnapName1 plugName slotSnapName1 slotName with
    | .error err => .error (.other err)
    | .ok isConnected =>
      if !isConnected then
        if forget then .error (.cannotForget plugSnapName1 plugName slotSnapName1 slotName)
        else .error (.cannotDisconnect plugSnapName1 plugName slotSnapName1 slotName)
      else .ok [⟨⟨plugSnapName1, plugName⟩, ⟨slotSnapName1, slotName⟩⟩]
  else if plugName ≠ "" ∧ slotName = "" ∧ slotSnapName = "" then
    let plugSnapName1 := if plugSnapName = "" then coreSnapName else plugSnapName
    handOn (l.connectedPlugOrSlot plugSnapName1 plugName)
  else if plugSnapName = "" ∧ plugName = "" ∧ slotName ≠ "" then
    let slotSnapName1 := if slotSnapName = "" then coreSnapName else slotSnapName
    handOn (l.connectedPlugOrSlot slotSnapName1 slotName)
  else .error .allowedForms

/-- `InterfaceManager.ResolveDisconnect` (ifacemgr.go:444-550); `.error err`
is the return `nil, err`. -/
def ResolveDisconnect {A R E : Type} (env : Env A R E)
    (plugSnapName plugName slotSnapName slotName : String) (forget : Bool) :
    Except (ResolveError E) (List ConnRef) :=
  if forget then
    match env.getConns with
    | .error err => .error (.other err)
    | .ok conns =>
      resolveWith env (storedLookups env conns) plugSnapName plugName slotSnapName slotName forget
  else
    resolveWith env (repoLookups env) plugSnapName plugName slotSnapName slotName forget

/-- The snap a given snap name refers to: "the snap name can be omitted to
implicitly refer to the core snap" (used in the statements only). -/
def snapOrCore {A R E : Type} (env : Env A R E) (snapName : String) : String :=
  if snapName = "" then env.SystemSnapName else snapName

/-- A manager for the examples: the core snap is "core"; the state holds the
connection of "consumer:plug" to "producer:slot", which the repository has as
well; ids are written "snap:plug snap:slot". -/
def exampleEnv : Env Unit Unit String where
  getConns := .ok [("consumer:plug producer:slot",
    { Auto := true, ByGadget := false, Interface := "network", Undesired := false,
      StaticPlugAttrs := (), DynamicPlugAttrs := (), StaticSlotAttrs := (),
      DynamicSlotAttrs := (), HotplugGone := false, rest := () })]
  SystemSnapName := "core"
  ID := fun cref => cref.PlugRef.Snap ++ ":" ++ cref.PlugRef.Name ++ " " ++ cref.SlotRef.Snap
    ++ ":" ++ cref.SlotRef.Name
  ParseConnRef := fun connID =>
    if connID = "consumer:plug producer:slot" then
      .ok ⟨⟨"consumer", "plug"⟩, ⟨"producer", "slot"⟩⟩
    else .error ("malformed connection identifier: " ++ connID)
  repoConnection := fun cref =>
    if cref = ⟨⟨"consumer", "plug"⟩, ⟨"producer", "slot"⟩⟩ then .connected else .notConnected
  repoConnected := fun snapName name =>
    if (snapName = "consumer" ∧ name = "plug") ∨ (snapName = "producer" ∧ name = "slot") then
      .ok [⟨⟨"consumer", "plug"⟩, ⟨"producer", "slot"⟩⟩]
    else .ok []

/-- A manager whose state cannot be read: `getConns` fails. -/
def unreadableEnv : Env Unit Unit String :=
  { exampleEnv with getConns := .error "cannot read connections" }

end Ifacestate

/-! ### overlord/ifacestate/ifacemgr.go: Ensure and the udev monitor

`checkSystemSnapIsPresent`, `time.Now`, `snapdenv.Preseeding` and
`createUDevMonitor` with the monitor it returns are not among the source
files; what they answer is a parameter.  A `time.Time` is a number of
nanoseconds counted from the zero `time.Time`, a `time.Duration` a number of
nanoseconds. -/

namespace Ifacestate

/-- `time.Minute`, in nanoseconds. -/
def Minute : Nat := 60 * 1000000000

/-- `udevInitRetryTimeout = time.Minute * 5` (ifacemgr.go:565). -/
def udevInitRetryTimeout : Nat := Minute * 5

/-- A `udevmonitor.Interface` as `initUDevMonitor` uses it: what `mon.Connect()`
and `mon.Run()` return, `none` for nil. -/
structure UDevMonitor (E : Type) where
  Connect : Option E
  Run : Option E
  deriving DecidableEq, Repr

/-- The fields of `InterfaceManager` (ifacemgr.go:44-76) that `Ensure` reads or
writes; `udevMon` is `none` for nil. -/
structure InterfaceManager (E : Type) where
  udevMon : Option (UDevMonitor E)
  udevRetryTimeout : Nat
  udevMonitorDisabled : Bool
  preseed : Bool
  deriving DecidableEq, Repr

/-- `Manager` (ifacemgr.go:78-97) for these fields: `preseed` is
`snapdenv.Preseeding()`, the others are left at their zero values, and so is
`udevRetryTimeout`, "so that udev is initialized on first Ensure run". -/
def Manager (E : Type) (preseeding : Bool) : InterfaceManager E :=
  { udevMon := none, udevRetryTimeout := 0, udevMonitorDisabled := false, preseed := preseeding }

/-- `initUDevMonitor` (ifacemgr.go:570-583); `mon` is what `createUDevMonitor`
returned.  The result is the manager after the call and the returned error. -/
def initUDevMonitor {E : Type} (m : InterfaceManager E) (mon : UDevMonitor E) :
    InterfaceManager E × Option E :=
  match mon.Connect with
  | some err => (m, some err)
  | none =>
    match mon.Run with
    | some err => (m, some err)
    | none => ({ m with udevMon := some mon }, none)

/-- What one call of `Ensure` finds around the manager: the answer of
`checkSystemSnapIsPresent(m.state)`, the reading of `time.Now()` and the monitor
that `createUDevMonitor` returns. -/
structure EnsureCall (E : Type) where
  systemSnapPresent : Bool
  now : Nat
  mon : UDevMonitor E
  deriving DecidableEq, Repr

/-- What one call of `Ensure` did: whether it called `m.initUDevMonitor()`, and
the error it returned, `none` for nil. -/
structure EnsureOutcome (E : Type) where
  initCalled : Bool
  err : Option E
  deriving DecidableEq, Repr

/-- `InterfaceManager.Ensure` (ifacemgr.go:276-308): the manager after the call
and what the call did.  `now.After(m.udevRetryTimeout)` is
`m.udevRetryTimeout < now`. -/
def Ensure {E : Type} (m : InterfaceManager E) (c : EnsureCall E) :
    InterfaceManager E × EnsureOutcome E :=
  if m.preseed then (m, ⟨false, none⟩)
  else if m.udevMonitorDisabled then (m, ⟨false, none⟩)
  else if m.udevMon.isSome then (m, ⟨false, none⟩)
  else if !c.systemSnapPresent then (m, ⟨false, none⟩)
  else if m.udevRetryTimeout < c.now then
    match initUDevMonitor m c.mon with
    | (m1, some err) =>
      ({ m1 with udevRetryTimeout := c.now + udevInitRetryTimeout }, ⟨true, some err⟩)
    | (m1, none) => (m1, ⟨true, none⟩)
  else (m, ⟨false, none⟩)

/-- Calls of `Ensure` one after the other: the manager after the last and what
each call did, in order. -/
def ensureCalls {E : Type} (m : InterfaceManager E) :
    List (EnsureCall E) → InterfaceManager E × List (EnsureOutcome E)
  | [] => (m, [])
  | c :: cs => ((ensureCalls (Ensure m c).1 cs).1, (Ensure m c).2 :: (ensureCalls (Ensure m c).1 cs).2)

/-- A monitor that connects and runs. -/
def goodMonitor : UDevMonitor String := { Connect := none, Run := none }

/-- A monitor whose `Connect` fails. -/
def failingMonitor : UDevMonitor String := { Connect := some "cannot connect", Run := none }

end Ifacestate

/-! ### overlord/state: keyed data, tasks, changes

The package `overlord/state` is not among the source files; its model below
follows the specification (sections 3, 4 and 6) and what the tests under
`overlord/snapstate` observe. -/

namespace Overlord

/-- Modelled from the spec: a serialised entry of the keyed data (Go
`*json.RawMessage`, package overlord/state is missing): either an encoded
value or an encoded JSON object with its members. -/
inductive Raw where
  | json (s : String)
  | object (members : List (String × String))
  deriving DecidableEq, Repr

/-- Modelled from the spec: "Free-form Data: a mapping from string key to
arbitrary serializable value" (Go `customData`, package overlord/state is
missing). -/
abbrev Data := List (String × Raw)

/-- Modelled from the spec: what makes a Go type "serializable" for `Set` and
`Get` (the json marshalling used by overlord/state is missing): encoding
followed by decoding gives the value back. -/
structure Codec (α : Type) where
  marshal : α → Raw
  unmarshal : Raw → Option α
  roundtrip : ∀ v, unmarshal (marshal v) = some v

/-- Modelled from the spec: the errors of `Get`; `noState` is the
distinguished "no state" error (`state.ErrNoState`, package overlord/state is
missing). -/
inductive Error where
  | noState (key : String)
  | errNoState
  | unmarshal (key : String)
  deriving DecidableEq, Repr

/-- Go `%q` of a string without characters that need escaping (state keys,
snap names and change kinds are such strings). -/
def quote (s : String) : String :=
  "\"" ++ s ++ "\""

/-- Modelled from the spec: the message of a state error, as matched by
`TestInstallNoRestartBoundaries` (snapstate_install_test.go:982); the error
type itself is in the missing package overlord/state. -/
def Error.message : Error → String
  | .noState key => "no state entry for key " ++ quote key
  | .errNoState => "no state entry"
  | .unmarshal key => "internal error: could not unmarshal state entry " ++ quote key

/-- Go `errors.Is(err, state.ErrNoState)`. -/
def Error.isNoState : Error → Bool
  | .noState _ => true
  | .errNoState => true
  | .unmarshal _ => false

/-- Modelled from the spec: lookup of a key in the keyed data (part of the
missing `Get`). -/
def Data.get (d : Data) (key : String) : Option Raw :=
  d.lookup key

/-- Modelled from the spec: removal of a key, what the tests do with
`Set(key, nil)` (snapstate_install_test.go:909; `Set` is missing). -/
def Data.unset (d : Data) (key : String) : Data :=
  d.filter (fun kv => kv.1 != key)

/-- Modelled from the spec: `Set(key, value)` on the keyed data for an
encoded non-nil value (package overlord/state is missing). -/
def Data.set (d : Data) (key : String) (raw : Raw) : Data :=
  (key, raw) :: d.unset key

/-- Modelled from the spec: `Get(key, &out)` of section 6, "Get on a missing
key returns a distinguished no state error" (package overlord/state is
missing). -/
def Data.getAs {α : Type} (c : Codec α) (d : Data) (key : String) : Except Error α :=
  match d.get key with
  | none => .error (.noState key)
  | some raw =>
    match c.unmarshal raw with
    | some v => .ok v
    | none => .error (.unmarshal key)

/-- Modelled from the spec: `Set(key, v)` of section 6 for a serialisable
value (package overlord/state is missing). -/
def Data.setAs {α : Type} (c : Codec α) (d : Data) (key : String) (v : α) : Data :=
  d.set key (c.marshal v)

/-- Modelled from the spec: the task statuses of section 3 (type
`state.Status` is missing). -/
inductive Status where
  | Default | Do | Doing | Done | Undo | Undoing | Undone | Error | Hold | Wait
  deriving DecidableEq, Repr

/-- Modelled from the spec: a Task of section 3 (type `state.Task` is
missing).  Tasks live in the flat collection `State.tasks` and are named by
their index there; `waitTasks` are such indices; `change` is the change the
task was added to, if any. -/
structure Task where
  kind : String
  summary : String
  status : Status
  waitTasks : List Nat
  lanes : List Nat
  atTime : Nat
  data : Data
  log : List String
  change : Option Nat
  deriving DecidableEq, Repr

/-- Modelled from the spec: a Change of section 3 (type `state.Change` is
missing); its tasks are the tasks of the state whose `change` is its index. -/
structure Change where
  kind : String
  summary : String
  data : Data
  deriving DecidableEq, Repr

/-- Modelled from the spec: the Store of section 3, "Holds all Changes,
Tasks, and arbitrary keyed application data" (type `state.State` is
missing); `lastLane` is the counter behind `NewLane`, `now` the clock the
ready-times are compared with. -/
structure State where
  data : Data
  tasks : List Task
  changes : List Change
  lastLane : Nat
  now : Nat
  deriving DecidableEq, Repr

/-- The empty store. -/
def State.empty : State :=
  { data := [], tasks := [], changes := [], lastLane := 0, now := 0 }

/-- Modelled from the spec: `State.Get`. -/
def State.get {α : Type} (c : Codec α) (st : State) (key : String) : Except Error α :=
  st.data.getAs c key

/-- Modelled from the spec: `State.Set` with a non-nil value. -/
def State.set {α : Type} (c : Codec α) (st : State) (key : String) (v : α) : State :=
  { st with data := st.data.setAs c key v }

/-- Modelled from the spec: `State.Set(key, nil)`, which the tests use to
leave a key unset. -/
def State.unset (st : State) (key : String) : State :=
  { st with data := st.data.unset key }

/-- Modelled from the spec: `Task.Get`. -/
def Task.get {α : Type} (c : Codec α) (t : Task) (key : String) : Except Error α :=
  t.data.getAs c key

/-- Modelled from the spec: `Task.Set` with a non-nil value. -/
def Task.set {α : Type} (c : Codec α) (t : Task) (key : String) (v : α) : Task :=
  { t with data := t.data.setAs c key v }

/-- Modelled from the spec: `Change.Get`. -/
def Change.get {α : Type} (c : Codec α) (chg : Change) (key : String) : Except Error α :=
  chg.data.getAs c key

/-- Modelled from the spec: `Change.Set` with a non-nil value. -/
def Change.set {α : Type} (c : Codec α) (chg : Change) (key : String) (v : α) : Change :=
  { chg with data := chg.data.setAs c key v }

/-- Encoding of a Go `bool`. -/
def boolCodec : Codec Bool where
  marshal b := .json (if b then "true" else "false")
  unmarshal
    | .json "true" => some true
    | .json "false" => some false
    | _ => none
  roundtrip b := by cases b <;> rfl

/-- Encoding of a Go `string` (the text itself stands for its JSON form). -/
def stringCodec : Codec String where
  marshal s := .json s
  unmarshal
    | .json s => some s
    | .object _ => none
  roundtrip _ := rfl

end Overlord

/-! ### overlord/state: tasks and changes in the store -/

namespace Overlord

/-- Modelled from the spec: the statuses in which a task "won't be running in
the future" (section 3: terminal or held), the base of `Change.IsReady`
(package overlord/state is missing). -/
def Status.ready : Status → Bool
  | .Done | .Undone | .Error | .Hold | .Wait => true
  | _ => false

/-- Modelled from the spec: `State.NewTask`; a new task is to be done, waits
for nothing, is in no lane and in no change (package overlord/state is
missing).  Go reports the default status of such a task as `Do`. -/
def State.NewTask (st : State) (kind summary : String) : State × Nat :=
  ({ st with tasks := st.tasks ++ [{ kind := kind, summary := summary, status := .Do,
                                     waitTasks := [], lanes := [], atTime := 0, data := [],
                                     log := [], change := none }] },
   st.tasks.length)

/-- Modelled from the spec: `State.NewChange` (package overlord/state is
missing). -/
def State.NewChange (st : State) (kind summary : String) : State × Nat :=
  ({ st with changes := st.changes ++ [{ kind := kind, summary := summary, data := [] }] },
   st.changes.length)

/-- Modelled from the spec: `State.NewLane`, a fresh lane number (package
overlord/state is missing). -/
def State.NewLane (st : State) : State × Nat :=
  ({ st with lastLane := st.lastLane + 1 }, st.lastLane + 1)

/-- Update of the task with index `id`. -/
def State.modifyTask (st : State) (id : Nat) (f : Task → Task) : State :=
  { st with tasks := st.tasks.modify f id }

/-- Modelled from the spec: `Change.AddAll(ts)` / `Change.AddTask(t)`: the
tasks become tasks of the change (package overlord/state is missing). -/
def State.AddAll (st : State) (chg : Nat) (ts : List Nat) : State :=
  { st with tasks := st.tasks.mapIdx fun i t =>
      if ts.contains i then { t with change := some chg } else t }

/-- Modelled from the spec: `Task.WaitFor(other)` (package overlord/state is
missing). -/
def State.WaitFor (st : State) (id other : Nat) : State :=
  st.modifyTask id fun t => { t with waitTasks := t.waitTasks ++ [other] }

/-- Modelled from the spec: `Task.JoinLane(lane)` (package overlord/state is
missing). -/
def State.JoinLane (st : State) (id lane : Nat) : State :=
  st.modifyTask id fun t => { t with lanes := t.lanes ++ [lane] }

/-- Modelled from the spec: `Task.Lanes()`, "lane 0, the default" for a task
that joined no lane (package overlord/state is missing). -/
def Task.Lanes (t : Task) : List Nat :=
  if t.lanes = [] then [0] else t.lanes

/-- The tasks of a change. -/
def State.changeTasks (st : State) (chg : Nat) : List Task :=
  st.tasks.filter fun t => t.change = some chg

/-- Modelled from the spec: `Change.IsReady`, "no Task is in a non-terminal,
non-held state" (package overlord/state is missing). -/
def State.IsReady (st : State) (chg : Nat) : Bool :=
  (st.changeTasks chg).all fun t => t.status.ready

/-- Status of the task with index `id`. -/
def State.statusOf (st : State) (id : Nat) : Option Status :=
  (st.tasks[id]?).map (·.status)

end Overlord

/-! ### overlord/state: the task runner

The scheduler of specification section 4.1 and the undo protocol of section
4.2 as a labelled transition system: an `Event` is one observable move (the
scheduler starts a task, a handler returns, time passes), `step` is the
effect of an enabled event, and an execution is a list of events. -/

namespace Overlord

/-- Modelled from the spec: what a handler returns (section 4.1, step 3):
nil, the "retry" signal with a delay, or any other error. -/
inductive HandlerResult where
  | ok
  | retry (after : Nat)
  | error (msg : String)
  deriving DecidableEq, Repr

/-- One move of the engine: the scheduler marks a ready task `Doing`
(`start`) or a task to undo `Undoing` (`undoStart`), a do or undo handler
returns, or the clock advances (`tick`). -/
inductive Event where
  | start (id : Nat)
  | doReturn (id : Nat) (res : HandlerResult)
  | undoStart (id : Nat)
  | undoReturn (id : Nat) (err : Option String)
  | tick
  deriving DecidableEq, Repr

/-- The results the handlers give in one run: of the do handler and of the
undo handler (an undo answer `some err` is a failure), by index of the
task. -/
structure Outcomes where
  doResult : Nat → HandlerResult
  undoResult : Nat → Option String

/-- Is the event what the handlers of a run with these results produce. -/
def Outcomes.allows (o : Outcomes) : Event → Prop
  | .doReturn id res => res = o.doResult id
  | .undoReturn id err => err = o.undoResult id
  | _ => True


/-- Modelled from the spec: the pair registered by `AddHandler(kind, doFunc,
undoFunc)`; a handler works on the keyed data of the store and on the world
outside it (`W`), "nil undoFunc means the step is irreversible/no-op on
undo". -/
structure Handler (W : Type) where
  doFn : Task → Data × W → Data × W
  undoFn : Option (Task → Data × W → Data × W)

/-- Modelled from the spec: the registrations of a `TaskRunner`: handlers by
kind and the blocked predicate of `AddBlocked` (type is missing). -/
structure TaskRunner (W : Type) where
  handlers : String → Option (Handler W)
  blocked : Task → List Task → Bool

/-- The store together with the world the handlers act on. -/
structure System (W : Type) where
  st : State
  world : W

/-- The currently-Doing tasks. -/
def State.running (st : State) : List Task :=
  st.tasks.filter fun t => t.status = .Doing

/-- Are all WaitTasks of the task `Done`. -/
def State.waitsDone (st : State) (t : Task) : Bool :=
  t.waitTasks.all fun w => st.statusOf w = some .Done

/-- Modelled from the spec: a status of a halt successor that lets a task be
undone, "have themselves been undone or were never run" (section 4.2); a
failed successor has nothing left to undo either. -/
def Status.settled : Status → Bool
  | .Undone | .Hold | .Error => true
  | _ => false

/-- Modelled from the spec: the statuses of the "mirrored reverse path taken
only on rollback" together with `Error` and `Hold`: a task in one of them is
not going forward any more. -/
def Status.backward : Status → Bool
  | .Undo | .Undoing | .Undone | .Error | .Hold => true
  | _ => false

/-- Are all tasks that wait on task `id` (its "halt" successors) settled. -/
def State.haltsSettled (st : State) (id : Nat) : Bool :=
  st.tasks.all fun u => !u.waitTasks.contains id || u.status.settled

/-- Modelled from the spec: is task `u` in a lane that the failure of
`failed` rolls back: a lane containing the failed task, or lane 0, which
"participates in every rollback"; only tasks of the same change are
concerned. -/
def affectedBy (failed u : Task) : Bool :=
  u.change == failed.change &&
    (u.Lanes.contains 0 || u.Lanes.any fun l => failed.Lanes.contains l)

/-- Modelled from the spec: what the undo trigger does to the status of a
task of an affected lane: a task that is `Done` "(or Doing, if interrupted)"
is marked `Undo`, a never-started one goes "directly to Undone/Hold without
ever invoking their do-handler". -/
def abortStatus : Status → Status
  | .Done => .Undo
  | .Doing => .Undo
  | .Do => .Hold
  | .Default => .Hold
  | s => s

/-- Is the event enabled: the guards of section 4.1 step 2 for `start`, of
section 4.2 for `undoStart`; a handler can only return for a task that is
running. -/
def enabled {W : Type} (r : TaskRunner W) (s : System W) : Event → Bool
  | .start id =>
    match s.st.tasks[id]? with
    | none => false
    | some t =>
      t.status == .Do && t.change.isSome && (r.handlers t.kind).isSome &&
        s.st.waitsDone t && decide (t.atTime ≤ s.st.now) && !r.blocked t s.st.running
  | .doReturn id _ => s.st.statusOf id == some .Doing
  | .undoStart id => s.st.statusOf id == some .Undo && s.st.haltsSettled id
  | .undoReturn id _ => s.st.statusOf id == some .Undoing
  | .tick => true

/-- What an event does to the task with index `i` (section 4.1 step 3 and
section 4.2): the task of the event changes status; a do-error also triggers
the undo of the affected lanes of its change. -/
def updTask (st : State) : Event → Nat → Task → Task
  | .start id, i, t => if i = id then { t with status := .Doing } else t
  | .doReturn id .ok, i, t => if i = id then { t with status := .Done } else t
  | .doReturn id (.retry after), i, t =>
    if i = id then { t with status := .Do, atTime := st.now + after } else t
  | .doReturn id (.error msg), i, t =>
    if i = id then { t with status := .Error, log := t.log ++ [msg] }
    else
      match st.tasks[id]? with
      | some failed => if affectedBy failed t then { t with status := abortStatus t.status } else t
      | none => t
  | .undoStart id, i, t => if i = id then { t with status := .Undoing } else t
  | .undoReturn id none, i, t => if i = id then { t with status := .Undone } else t
  | .undoReturn id (some msg), i, t =>
    if i = id then { t with status := .Error, log := t.log ++ [msg] } else t
  | .tick, _, t => t

/-- What an event does to the keyed data and the world: a do handler that
returns nil and an undo handler that returns nil have had their effect. -/
def effect {W : Type} (r : TaskRunner W) (s : System W) : Event → Data × W
  | .doReturn id .ok =>
    match s.st.tasks[id]? with
    | some t =>
      match r.handlers t.kind with
      | some h => h.doFn t (s.st.data, s.world)
      | none => (s.st.data, s.world)
    | none => (s.st.data, s.world)
  | .undoReturn id none =>
    match s.st.tasks[id]? with
    | some t =>
      match r.handlers t.kind with
      | some h =>
        match h.undoFn with
        | some undo => undo t (s.st.data, s.world)
        | none => (s.st.data, s.world)
      | none => (s.st.data, s.world)
    | none => (s.st.data, s.world)
  | _ => (s.st.data, s.world)

/-- Is the task with index `i` hit by the undo trigger of the event: it is
the task whose do handler returned an error, or a task of a lane this
failure rolls back. -/
def hit (st : State) (e : Event) (i : Nat) (t : Task) : Bool :=
  match e with
  | .doReturn id (.error _) =>
    decide (i = id) ||
      (match st.tasks[id]? with
       | some failed => affectedBy failed t
       | none => false)
  | _ => false

/-- One step of the engine: the effect of an enabled event, none for an
event that is not enabled. -/
def step {W : Type} (r : TaskRunner W) (s : System W) (e : Event) : Option (System W) :=
  if enabled r s e then
    some { st := { s.st with tasks := s.st.tasks.mapIdx (updTask s.st e),
                             data := (effect r s e).1,
                             now := if e = .tick then s.st.now + 1 else s.st.now },
           world := (effect r s e).2 }
  else none

/-- An execution: the events are taken one after the other; none when one of
them is not enabled. -/
def run {W : Type} (r : TaskRunner W) (s : System W) : List Event → Option (System W)
  | [] => some s
  | e :: es =>
    match step r s e with
    | none => none
    | some s1 => run r s1 es

/-- Modelled from the spec: the error of a change, "the concatenation of its
failed Tasks' recorded error strings" (`Change.Err`; none without a failed
task). -/
def State.Err (st : State) (chg : Nat) : Option (List String) :=
  let failed := (st.changeTasks chg).filter fun t => t.status = .Error
  if failed.isEmpty then none else some (failed.map fun t => String.join t.log)

end Overlord

/-! ### overlord/state: well-formed changes and what holds all along a run -/

namespace Overlord

/-- The shape of the changes the run-through theorems are about: every task
is a task of the change `chg`, waits only for tasks created before it that
are in the same lanes (as the tasks of a TaskSet do), and has a handler
registered for its kind. -/
structure WellFormed {W : Type} (r : TaskRunner W) (chg : Nat) (st : State) : Prop where
  change : ∀ (i : Nat) (t : Task), st.tasks[i]? = some t → t.change = some chg
  waits : ∀ (i : Nat) (t : Task), st.tasks[i]? = some t → ∀ w ∈ t.waitTasks,
    w < i ∧ ∃ tw, st.tasks[w]? = some tw ∧ tw.Lanes = t.Lanes
  handlers : ∀ (i : Nat) (t : Task), st.tasks[i]? = some t → (r.handlers t.kind).isSome = true

/-- A change nothing of which has run yet: every task is to be done and its
ready-time has come. -/
def Fresh (st : State) : Prop :=
  ∀ (i : Nat) (t : Task), st.tasks[i]? = some t → t.status = .Do ∧ t.atTime ≤ st.now

/-- What holds of the tasks all along a run of a well-formed change without
retries: no task is in the statuses `Default` or `Wait`, the tasks of the
same lanes go in the same direction, and every ready-time has come. -/
structure Inv {W : Type} (r : TaskRunner W) (chg : Nat) (st : State) : Prop where
  wf : WellFormed r chg st
  life : ∀ (i : Nat) (t : Task), st.tasks[i]? = some t → t.status ≠ .Default ∧ t.status ≠ .Wait
  lanes : ∀ (i j : Nat) (ti tj : Task), st.tasks[i]? = some ti → st.tasks[j]? = some tj →
    ti.Lanes = tj.Lanes → ti.status.backward = tj.status.backward
  time : ∀ (i : Nat) (t : Task), st.tasks[i]? = some t → t.atTime ≤ st.now

/-- How far a status is from the end of the lifecycle: every move other than
a retry brings the status of a task nearer to it. -/
def Status.weight : Status → Nat
  | .Default => 5
  | .Do => 5
  | .Doing => 4
  | .Done => 3
  | .Undo => 2
  | .Undoing => 1
  | _ => 0

/-- The measure of a store: the sum of the weights of its tasks; it bounds
the number of moves a run without retries and ticks can still make. -/
def State.measure (st : State) : Nat :=
  (st.tasks.map fun t => t.status.weight).sum

/-- What holds all along a run whose events are what the handlers' results
`o` say: a task is `Done` only if its do handler returns nil, and as soon as
a task goes backward some task has failed. -/
structure Sound (o : Outcomes) (st : State) : Prop where
  done : ∀ (i : Nat) (t : Task), st.tasks[i]? = some t → t.status = .Done → o.doResult i = .ok
  failed : (∃ (i : Nat) (t : Task), st.tasks[i]? = some t ∧ t.status.backward = true) →
    ∃ (j : Nat) (f : Task), st.tasks[j]? = some f ∧ f.status = .Error

/-- What holds all along a run in which only the do handler of the task
`fid` returns an error: a task goes backward only if it is that task or in a
lane its failure rolls back, and once that task has failed every task of
these lanes goes backward. -/
structure Confined (fid : Nat) (st : State) : Prop where
  cause : ∀ (i : Nat) (t : Task), st.tasks[i]? = some t → t.status.backward = true →
    i = fid ∨ ∃ f, st.tasks[fid]? = some f ∧ affectedBy f t = true
  spread : ∀ (f : Task), st.tasks[fid]? = some f → f.status.backward = true →
    ∀ (i : Nat) (t : Task), st.tasks[i]? = some t → affectedBy f t = true →
      t.status.backward = true

/-- The part of a task no step of the engine changes. -/
def Task.static (t : Task) : String × List Nat × List Nat × Option Nat × Data :=
  (t.kind, t.waitTasks, t.lanes, t.change, t.data)

/-- Is the event the return of a do handler with the "retry" signal. -/
def Event.isRetry : Event → Bool
  | .doReturn _ (.retry _) => true
  | _ => false

end Overlord

/-! ### overlord/snapstate: admission of install operations

`snapstate.Install`, `InstallPath`, `InstallMany` and `InstallPathMany` are not
among the source files; only their tests are.  The functions below model them
from the specification (section 4.3) and the tests. -/

namespace Snapstate

open Overlord

/-- Modelled from the spec: the part of `snapstate.SnapSetup` that names the
snap and the revision a task works on (type is missing), stored under
"snap-setup". -/
structure SnapSetup where
  instanceName : String
  revision : String
  deriving DecidableEq, Repr

/-- Encoding of a `SnapSetup` as a JSON object. -/
def snapSetupCodec : Codec SnapSetup where
  marshal s := .object [("name", s.instanceName), ("revision", s.revision)]
  unmarshal
    | .json _ => none
    | .object members =>
      match members.lookup "name", members.lookup "revision" with
      | some n, some r => some ⟨n, r⟩
      | _, _ => none
  roundtrip _ := rfl

/-- Modelled from the spec: the part of `snapstate.SnapState` the tests
read, the current revision (type is missing). -/
structure SnapState where
  current : String
  deriving DecidableEq, Repr

/-- Lookup of a snap in the keyed data: the per-snap states are the members
of the entry "snaps", and a snap without a member yields the no-state
error. -/
def getSnap (d : Data) (name : String) : Except Error SnapState :=
  match d.get "snaps" with
  | none => .error (.noState "snaps")
  | some (.json _) => .error (.unmarshal "snaps")
  | some (.object members) =>
    match members.lookup name with
    | none => .error .errNoState
    | some raw => .ok ⟨raw⟩

/-- Modelled from the spec: `snapstate.Get(st, name, &snapst)` (function is
missing, see the assertions `snapstate.Get(...)`, `testutil.ErrorIs,
state.ErrNoState` of the tests). -/
def Get (st : State) (name : String) : Except Error SnapState :=
  getSnap st.data name

/-- The members of the entry "snaps" (none when the entry is unset). -/
def snapsOf (d : Data) : List (String × String) :=
  match d.get "snaps" with
  | some (.object members) => members
  | _ => []

/-- Update of a snap in the keyed data; a nil state removes the member. -/
def setSnap (d : Data) (name : String) (snapst : Option SnapState) : Data :=
  let others := (snapsOf d).filter fun kv => kv.1 != name
  match snapst with
  | none => d.set "snaps" (.object others)
  | some s => d.set "snaps" (.object ((name, s.current) :: others))

/-- Modelled from the spec: `snapstate.Set(st, name, snapst)`; a nil
`snapst` removes the snap's member (function is missing; the tests call
`snapstate.Set(s.state, "core", nil)` to have a snap not installed). -/
def Set (st : State) (name : String) (snapst : Option SnapState) : State :=
  { st with data := setSnap st.data name snapst }

/-- Modelled from the spec: the typed conflict error of section 4.3
(`snapstate.ChangeConflictError`, type is missing). -/
structure ChangeConflictError where
  snap : String
  changeKind : String
  message : String
  changeID : Option Nat
  deriving DecidableEq, Repr

/-- Modelled from the spec: the message of a conflict error, as matched by
`TestInstallConflict`, `TestInstallStateConflict` and `TestInstallTooEarly`
(method `Error` is missing). -/
def ChangeConflictError.Error (e : ChangeConflictError) : String :=
  if e.message ≠ "" then e.message
  else if e.changeKind ≠ "" then
    "snap " ++ quote e.snap ++ " has " ++ quote e.changeKind ++ " change in progress"
  else "snap " ++ quote e.snap ++ " has changes in progress"

/-- Modelled from the spec: the errors with which admission of an install
fails (section 7; the error types are missing). -/
inductive InstallError where
  | changeConflict (e : ChangeConflictError)
  | alreadyInstalled (snap : String)
  | snapNotFound (snap : String)
  | laneWithoutTransaction
  | state (e : Overlord.Error)
  deriving DecidableEq, Repr

/-- Go `errors.Is(err, &snapstate.ChangeConflictError{})`. -/
def InstallError.isChangeConflict : InstallError → Bool
  | .changeConflict _ => true
  | _ => false

/-- The message of an admission error. -/
def InstallError.Error : InstallError → String
  | .changeConflict e => e.Error
  | .alreadyInstalled snap => "snap " ++ quote snap ++ " is already installed"
  | .snapNotFound snap => "snap " ++ quote snap ++ " not found"
  | .laneWithoutTransaction =>
    "cannot specify a lane without setting transaction to \"all-snaps\""
  | .state e => e.message

/-- Modelled from the spec: the collaborators consulted at admission: the
device model (nil until acknowledged, `snapstatetest.MockDeviceModel`) and the
store, which answers the revision it offers for a snap name. -/
structure Env where
  deviceModel : Option String
  store : String → Option String

/-- The message of the unmet seeding precondition, as matched by
`TestInstallTooEarly` (snapstate_install_test.go:913). -/
def tooEarly : String :=
  "too early for operation, device not yet seeded or device model not acknowledged"

/-- Modelled from the spec: the precondition "device not yet seeded / model
not acknowledged", "itself modeled as a conflict error" (section 4.3;
`snapstate.DevicePastSeeding` is missing). -/
def DevicePastSeeding (env : Env) (st : State) : Except InstallError String :=
  match st.get boolCodec "seeded" with
  | .error (.unmarshal key) => .error (.state (.unmarshal key))
  | r =>
    let seeded := match r with
      | .ok b => b
      | .error _ => false
    match env.deviceModel with
    | some model =>
      if seeded then .ok model
      else .error (.changeConflict
        { snap := "", changeKind := "seed", changeID := none,
          message := tooEarly })
    | none => .error (.changeConflict
        { snap := "", changeKind := "seed", changeID := none,
          message := tooEarly })

/-- Modelled from the spec: the snaps a task works on, read from its
"snap-setup" (helper of the missing conflict check). -/
def affectedSnaps (t : Task) : List String :=
  match t.get snapSetupCodec "snap-setup" with
  | .ok s => [s.instanceName]
  | .error _ => []

/-- Conflict found at one task: the task belongs to a change that is not
ready and works on one of the snaps. -/
def conflictAt (st : State) (names : List String) (t : Task) : Option ChangeConflictError :=
  match t.change with
  | none => none
  | some chg =>
    if st.IsReady chg then none
    else
      match (affectedSnaps t).find? fun n => names.contains n with
      | none => none
      | some n =>
        some { snap := n, changeKind := ((st.changes[chg]?).map (·.kind)).getD "",
               message := "", changeID := some chg }

/-- Modelled from the spec: the conflict predicate of section 4.3, which
"inspects in-flight Changes for overlapping resource keys"
(`snapstate.CheckChangeConflictMany` is missing). -/
def CheckChangeConflictMany (st : State) (names : List String) : Option ChangeConflictError :=
  st.tasks.findSome? (conflictAt st names)

/-- Flags of the test helper `expectedDoInstallTasks`
(snapstate_install_test.go:72) that matter for a snap of type app without
components. -/
structure InstallOpts where
  localSnap : Bool := false
  localRevision : Bool := false
  unlinkBefore : Bool := false
  preferInstalled : Bool := false
  noConfigure : Bool := false
  runCoreConfigure : Bool := false
  cleanupAfter : Bool := false
  discards : Nat := 0

/-- The kinds of the tasks of an install TaskSet, `expectedDoInstallTasks`
(snapstate_install_test.go:72-214) for `snap.TypeApp`, no components, nil
`startTasks` and no filter. -/
def expectedDoInstallTasks (o : InstallOpts) : List String :=
  (if o.localSnap then ["prerequisites", "prepare-snap", "mount-snap"]
   else if o.localRevision then ["prerequisites", "prepare-snap"]
   else ["prerequisites", "download-snap", "validate-snap", "mount-snap"])
  ++ (if o.unlinkBefore then
        ["run-hook[pre-refresh]", "stop-snap-services", "remove-aliases", "unlink-current-snap"]
      else [])
  ++ ["copy-snap-data", "setup-profiles", "link-snap", "auto-connect",
      "set-auto-aliases", "setup-aliases"]
  ++ (if o.preferInstalled then ["prefer-aliases"] else [])
  ++ (if o.unlinkBefore then ["run-hook[post-refresh]"] else ["run-hook[install]"])
  ++ (if !o.unlinkBefore && !(o.noConfigure || o.runCoreConfigure) then
        ["run-hook[default-configure]"] else [])
  ++ ["start-snap-services"]
  ++ (List.replicate o.discards ["clear-snap", "discard-snap"]).flatten
  ++ (if o.cleanupAfter then ["cleanup"] else [])
  ++ (if !o.noConfigure then ["run-hook[configure]"] else [])
  ++ ["run-hook[check-health]"]

/-- A TaskSet: the indices of its tasks, in order. -/
abbrev TaskSet := List Nat

/-- One task of an install TaskSet: it works on the snap, waits for the task
before it and is in the given lanes. -/
def addInstallTask (snapsup : SnapSetup) (lanes : List Nat) (acc : State × TaskSet)
    (kind : String) : State × TaskSet :=
  let id := acc.1.tasks.length
  let t : Task :=
    { kind := kind, summary := kind ++ " " ++ quote snapsup.instanceName, status := .Do,
      waitTasks := acc.2.getLast?.toList, lanes := lanes, atTime := 0,
      data := Data.setAs snapSetupCodec [] "snap-setup" snapsup, log := [], change := none }
  ({ acc.1 with tasks := acc.1.tasks ++ [t] }, acc.2 ++ [id])

/-- Modelled from the spec: the TaskSet of one install (`snapstate.doInstall`
is missing); its kinds are those `verifyInstallTasks` asserts. -/
def doInstall (st : State) (snapsup : SnapSetup) (lanes : List Nat) (o : InstallOpts) :
    State × TaskSet :=
  (expectedDoInstallTasks o).foldl (addInstallTask snapsup lanes) (st, [])

/-- The revision to install: the one the store offers, or the local
revision `x1` of a snap installed from a file (the tests name the mount
directory of such a snap `other-snap/x1`, snapstate_install_test.go:5628). -/
def revisionOf (env : Env) (name : String) (fromFile : Bool) : String :=
  if fromFile then "x1" else (env.store name).getD ""

/-- Modelled from the spec: `client.TransactionType`. -/
inductive Transaction where
  | unset | perSnap | allSnaps
  deriving DecidableEq, Repr

/-- Modelled from the spec: the fields of `snapstate.Flags` the tests set
for lanes. -/
structure Flags where
  transaction : Transaction := .unset
  lane : Nat := 0

/-- Is the snap installed, i.e. has it a member in "snaps". -/
def isInstalled (st : State) (name : String) : Bool :=
  match Get st name with
  | .ok _ => true
  | .error _ => false

/-- Modelled from the spec: admission of the install of one snap, from the
store (`snapstate.Install`) or from a file (`snapstate.InstallPath`,
`fromFile`): the seeding precondition; for an install from the store the snap
not being installed yet (`TestInstallAlreadyInstalled`,
snapstate_install_test.go:337-355) and the store's answer, which is asked
before the state is checked for conflicts (`TestInstallStateConflict`,
snapstate_install_test.go:1157-1166); then the conflict check "at
Change-construction time", and only then the tasks.  A snap that is installed
may be installed again from a file, with the tasks of a refresh
(`TestInstallHookNotRunForInstalledSnap`, snapstate_install_test.go:637-665).
The functions are missing. -/
def installOne (env : Env) (st : State) (name : String) (fromFile : Bool) :
    State × Except InstallError TaskSet :=
  match DevicePastSeeding env st with
  | .error e => (st, .error e)
  | .ok _ =>
    if !fromFile && isInstalled st name then (st, .error (.alreadyInstalled name))
    else if !fromFile && (env.store name).isNone then (st, .error (.snapNotFound name))
    else
      match CheckChangeConflictMany st [name] with
      | some e => (st, .error (.changeConflict e))
      | none =>
        let r := doInstall st ⟨name, revisionOf env name fromFile⟩ []
          { localSnap := fromFile, unlinkBefore := isInstalled st name }
        (r.1, .ok r.2)

/-- Modelled from the spec: `snapstate.Install`. -/
def Install (env : Env) (st : State) (name : String) : State × Except InstallError TaskSet :=
  installOne env st name false

/-- Modelled from the spec: `snapstate.InstallPath`. -/
def InstallPath (env : Env) (st : State) (name : String) : State × Except InstallError TaskSet :=
  installOne env st name true

/-- TaskSets of several installs, each snap in a lane of its own (fresh from
`NewLane`) or, with `shared`, all in the one given lane. -/
def installTaskSets (env : Env) (fromFile : Bool) (shared : Option Nat) :
    State → List String → State × List TaskSet
  | st, [] => (st, [])
  | st, name :: rest =>
    let (st1, lane) := match shared with
      | some l => (st, l)
      | none => st.NewLane
    let (st2, ts) := doInstall st1 ⟨name, revisionOf env name fromFile⟩ [lane]
      { localSnap := fromFile }
    let (st3, tss) := installTaskSets env fromFile shared st2 rest
    (st3, ts :: tss)

/-- The lane shared by a transactional operation: the one of `Flags.Lane`, or
a fresh one; none for an operation that is not transactional. -/
def transactionLane (st : State) (flags : Flags) : State × Option Nat :=
  if flags.transaction = .allSnaps then
    if flags.lane ≠ 0 then (st, some flags.lane)
    else (st.NewLane.1, some st.NewLane.2)
  else (st, none)

/-- Admission of several installs once the lane is settled: the seeding
precondition, the store's answers and the conflict check, then one TaskSet
per snap. -/
def installManyFrom (env : Env) (st : State) (shared : Option Nat) (names : List String)
    (fromFile : Bool) : State × Except InstallError (List String × List TaskSet) :=
  match DevicePastSeeding env st with
  | .error e => (st, .error e)
  | .ok _ =>
    match names.find? fun n => !fromFile && (env.store n).isNone with
    | some n => (st, .error (.snapNotFound n))
    | none =>
      match CheckChangeConflictMany st names with
      | some e => (st, .error (.changeConflict e))
      | none =>
        let r := installTaskSets env fromFile shared st names
        (r.1, .ok (names, r.2))

/-- Modelled from the spec: admission of several installs
(`snapstate.InstallMany`, and with `fromFile` `snapstate.InstallPathMany`;
both are missing): the lane of a transactional operation, the seeding
precondition, the store's answers and the conflict check first, then one
TaskSet per snap, in separate lanes "unless the whole operation was
explicitly marked transactional, in which case every Task shares one Lane". -/
def installMany (env : Env) (st : State) (names : List String) (flags : Flags)
    (fromFile : Bool) : State × Except InstallError (List String × List TaskSet) :=
  if flags.lane ≠ 0 && flags.transaction ≠ .allSnaps then (st, .error .laneWithoutTransaction)
  else
    installManyFrom env (transactionLane st flags).1 (transactionLane st flags).2 names fromFile

/-- Modelled from the spec: `snapstate.InstallMany`. -/
def InstallMany (env : Env) (st : State) (names : List String) (flags : Flags) :
    State × Except InstallError (List String × List TaskSet) :=
  installMany env st names flags false

/-- Modelled from the spec: `snapstate.InstallPathMany`. -/
def InstallPathMany (env : Env) (st : State) (names : List String) (flags : Flags) :
    State × Except InstallError (List String × List TaskSet) :=
  installMany env st names flags true

end Snapstate

/-! ### overlord/snapstate: the install handlers and a deterministic driver -/

namespace Overlord

/-- The move a sequential driver makes next: for the first task that can
move, its start, the return of its running handler, the start of its undo or
the return of its running undo handler. -/
def nextEvent {W : Type} (r : TaskRunner W) (o : Outcomes) (s : System W) : Option Event :=
  (List.range s.st.tasks.length).findSome? fun i =>
    match s.st.tasks[i]? with
    | none => none
    | some t =>
      if enabled r s (.start i) then some (.start i)
      else if t.status = .Doing then some (.doReturn i (o.doResult i))
      else if enabled r s (.undoStart i) then some (.undoStart i)
      else if t.status = .Undoing then some (.undoReturn i (o.undoResult i))
      else none

/-- The events of a sequential run until nothing can move (the tests'
`settle`), at most `fuel` of them. -/
def settleTrace {W : Type} (r : TaskRunner W) (o : Outcomes) : Nat → System W → List Event
  | 0, _ => []
  | fuel + 1, s =>
    match nextEvent r o s with
    | none => []
    | some e =>
      match step r s e with
      | none => []
      | some s1 => e :: settleTrace r o fuel s1

/-- The system after a sequential run of at most `fuel` events. -/
def settle {W : Type} (r : TaskRunner W) (o : Outcomes) : Nat → System W → System W
  | 0, s => s
  | fuel + 1, s =>
    match nextEvent r o s with
    | none => s
    | some e =>
      match step r s e with
      | none => s
      | some s1 => settle r o fuel s1

end Overlord

namespace Snapstate

open Overlord

/-- The world of the install handlers: the operations recorded by the fake
backend of the tests (`fakeOps`), oldest first. -/
abbrev FakeOps := List String

/-- The snap a task works on, `TaskSnapSetup(t)`. -/
def taskSnapSetup (t : Task) : Option SnapSetup :=
  match t.get snapSetupCodec "snap-setup" with
  | .ok s => some s
  | .error _ => none

/-- A handler that only records backend operations. -/
def opsHandler (doOps undoOps : List String) : Handler FakeOps :=
  { doFn := fun _ dw => (dw.1, dw.2 ++ doOps),
    undoFn := some fun _ dw => (dw.1, dw.2 ++ undoOps) }

/-- Modelled from the spec: the handler of "link-snap": doing it records the
snap in the state with its revision current, undoing the link of a first
install removes it again (`doLinkSnap`/`undoLinkSnap` are missing; the
operations are those of `TestInstallUndoRunThroughJustOneSnap`). -/
def linkSnapHandler : Handler FakeOps :=
  { doFn := fun t dw =>
      match taskSnapSetup t with
      | some snapsup =>
        (setSnap dw.1 snapsup.instanceName (some ⟨snapsup.revision⟩),
         dw.2 ++ ["candidate", "link-snap", "maybe-set-next-boot"])
      | none => dw,
    undoFn := some fun t dw =>
      match taskSnapSetup t with
      | some snapsup =>
        (setSnap dw.1 snapsup.instanceName none, dw.2 ++ ["discard-namespace", "unlink-snap"])
      | none => dw }

/-- A handler without effect that cannot be undone, for the tasks the tests
make fail. -/
def failingHandler : Handler FakeOps :=
  { doFn := fun _ dw => dw, undoFn := none }

/-- Modelled from the spec: the handlers registered for the task kinds of an
install, with the backend operations each records when done and when undone,
as the expected `fakeOps` of `TestInstallUndoRunThroughJustOneSnap`
(snapstate_install_test.go:1810-1940) list them; "error-trigger" and "fail"
are the failing handlers the tests add (the handlers themselves are
missing). -/
def handlerTable : List (String × Handler FakeOps) :=
  [ ("prerequisites", opsHandler [] []),
    ("download-snap", opsHandler ["storesvc-download"] []),
    ("validate-snap", opsHandler ["validate-snap:Doing"] []),
    ("prepare-snap", opsHandler [] []),
    ("mount-snap", opsHandler ["current", "open-snap-file", "setup-snap"]
      ["undo-setup-snap", "remove-snap-dir"]),
    ("copy-snap-data", opsHandler ["copy-data", "setup-snap-save-data"]
      ["undo-copy-snap-data", "undo-setup-snap-save-data", "remove-snap-data-dir"]),
    ("setup-profiles", opsHandler ["setup-profiles:Doing"] ["setup-profiles:Undoing"]),
    ("link-snap", linkSnapHandler),
    ("auto-connect", opsHandler ["auto-connect:Doing"] ["auto-connect:Undoing"]),
    ("set-auto-aliases", opsHandler [] []),
    ("setup-aliases", opsHandler ["update-aliases"] ["update-aliases"]),
    ("run-hook[install]", opsHandler [] []),
    ("run-hook[default-configure]", opsHandler [] []),
    ("start-snap-services", opsHandler [] []),
    ("run-hook[configure]", opsHandler [] []),
    ("run-hook[check-health]", opsHandler [] []),
    ("error-trigger", failingHandler),
    ("fail", failingHandler) ]

/-- The handler registered for a kind, if any. -/
def installHandlers (kind : String) : Option (Handler FakeOps) :=
  handlerTable.lookup kind

/-- The task runner of the install tests: the install handlers and no
blocked predicate. -/
def installRunner : TaskRunner FakeOps :=
  { handlers := installHandlers, blocked := fun _ _ => false }

/-- The results of the handlers in the tests that provoke an undo: the do
handlers of "error-trigger" and "fail" return an error, every other handler
returns nil. -/
def failTriggers (st : State) : Outcomes :=
  { doResult := fun i =>
      match st.tasks[i]? with
      | some t =>
        if t.kind = "error-trigger" then .error "error out"
        else if t.kind = "fail" then .error "expected"
        else .ok
      | none => .ok,
    undoResult := fun _ => none }

end Snapstate

namespace Snapstate

open Overlord

/-- Is the task a "link-snap" task of the snap. -/
def linksSnap (t : Task) (name : String) : Prop :=
  t.kind = "link-snap" ∧ (taskSnapSetup t).map (·.instanceName) = some name

instance (t : Task) (name : String) : Decidable (linksSnap t name) := by
  unfold linksSnap
  infer_instance

/-- The snap is not in the state: `snapstate.Get` answers a no-state
error. -/
def absent (d : Data) (name : String) : Prop :=
  ∃ e, getSnap d name = .error e ∧ e.isNoState = true

/-- The snap is in the state: `snapstate.Get` answers its state. -/
def installed (d : Data) (name : String) : Prop :=
  ∃ snapst, getSnap d name = .ok snapst

/-- What a handler of the install runner that returned nil has done to the
keyed data: only "link-snap" writes, the state of its snap when done and its
removal when undone. -/
def linkEffect (undo : Bool) (t : Task) (d : Data) : Data :=
  if t.kind = "link-snap" then
    match taskSnapSetup t with
    | some snapsup =>
      setSnap d snapsup.instanceName (if undo then none else some ⟨snapsup.revision⟩)
    | none => d
  else d

/-- The statuses in which the link of a snap is in effect or about to be
undone. -/
def linkActive : Status → Bool
  | .Done | .Undo | .Undoing => true
  | _ => false

/-- The keyed data after a step of the install runner. -/
def dataAfter (st : State) : Event → Data
  | .doReturn id .ok =>
    match st.tasks[id]? with
    | some t => linkEffect false t st.data
    | none => st.data
  | .undoReturn id none =>
    match st.tasks[id]? with
    | some t => linkEffect true t st.data
    | none => st.data
  | _ => st.data

/-- What holds of a snap all along a run without failing undo: it is absent
from the state unless a "link-snap" task of it is done and not yet undone. -/
def Tracked (name : String) (st : State) : Prop :=
  absent st.data name ∨
    ∃ (i : Nat) (t : Task), st.tasks[i]? = some t ∧ linksSnap t name ∧ linkActive t.status = true

/-- What holds of a snap with a single "link-snap" task all along a run: it
is in the state while that task is `Done`. -/
def Linked (name : String) (st : State) : Prop :=
  ∀ (i : Nat) (t : Task), st.tasks[i]? = some t → linksSnap t name → t.status = .Done →
    installed st.data name

/-- At most one task links the snap. -/
def LinkedOnce (name : String) (st : State) : Prop :=
  ∀ (i j : Nat) (ti tj : Task), st.tasks[i]? = some ti → st.tasks[j]? = some tj →
    linksSnap ti name → linksSnap tj name → i = j

end Snapstate

namespace Snapstate

open Overlord

/-- The outcome of a failed transactional install, as the claim states it:
the change has an error and no snap that was absent before is in the state
(`snapstate.Get` answers the no-state error for it). -/
def NothingInstalled (chg : Nat) (st0 st : State) : Prop :=
  st.Err chg ≠ none ∧ ∀ name, absent st0.data name → absent st.data name

/-- The outcome of a failure confined to the lanes of the task `fid` (`f0`),
as the claim states it: every task outside these lanes (and lane 0) is
`Done`, every task inside them is rolled back (undone, held before it ever
ran, or failed), and of the snaps that were absent before and have one
"link-snap" task, those linked outside the lanes are in the state and those
linked inside are absent again. -/
def LaneOutcome (fid : Nat) (f0 : Task) (st0 st : State) : Prop :=
  ∀ (i : Nat) (t : Task), st.tasks[i]? = some t →
    (i ≠ fid → affectedBy f0 t = false → t.status = .Done) ∧
    (i = fid ∨ affectedBy f0 t = true → t.status.settled = true) ∧
    ∀ name, linksSnap t name → LinkedOnce name st0 → absent st0.data name →
      (i ≠ fid → affectedBy f0 t = false → installed st.data name) ∧
      (i = fid ∨ affectedBy f0 t = true → absent st.data name)

end Snapstate

/-! ### The scenarios of the install tests -/

namespace Snapstate

open Overlord

/-- The collaborators as the test suite sets them up: a device model is
mocked and the fake store offers revision 11 of every snap. -/
def testEnv : Env :=
  { deviceModel := some "my-model", store := fun _ => some "11" }

/-- The state the tests start from: seeded, nothing installed. -/
def seededState : State :=
  State.empty.set boolCodec "seeded" true

/-- The TaskSet of a successful admission (empty after a failure). -/
def taskSetOf (r : State × Except InstallError TaskSet) : TaskSet :=
  match r.2 with
  | .ok ts => ts
  | .error _ => []

/-- The state of `TestInstallConflict` (snapstate_install_test.go:916) before
the second `Install`: the tasks of a first install of "some-snap" were added
to a new change of kind "install". -/
def installInFlight : State :=
  let first := Install testEnv seededState "some-snap"
  let chg := first.1.NewChange "install" "..."
  chg.1.AddAll chg.2 (taskSetOf first)

/-- Handlers that all return nil. -/
def allOk : Outcomes :=
  { doResult := fun _ => .ok, undoResult := fun _ => none }

/-- The install of `TestInstallConflict` further in flight: its first seven
tasks, up to "link-snap", have run and are done, the tasks after them are
still to do. -/
def installLinked : State :=
  (settle installRunner allOk 14 { st := installInFlight, world := [] }).st

/-- The install of `TestInstallConflict` in flight on a device that is not
seeded: `s.state.Set("seeded", nil)`, as in `TestInstallTooEarly`
(snapstate_install_test.go:909). -/
def installInFlightUnseeded : State :=
  installInFlight.unset "seeded"

/-- Collaborators with a store that knows no snap: what is installed comes
from files. -/
def emptyStoreEnv : Env :=
  { deviceModel := some "my-model", store := fun _ => none }

/-- An install of "some-snap" from a file in flight, as in
`TestInstallConflict`: the tasks of `InstallPath` were added to a new change
of kind "install". -/
def installPathInFlight : State :=
  let first := InstallPath emptyStoreEnv seededState "some-snap"
  let chg := first.1.NewChange "install" "..."
  chg.1.AddAll chg.2 (taskSetOf first)

end Snapstate

namespace Snapstate

open Overlord

/-- The change of `TestInstallUndoRunThroughJustOneSnap`
(snapstate_install_test.go:1777-1796): the TaskSet of an install of
"some-snap" and a task "error-trigger" that waits for its last task and joins
its lane, all added to a change "install"; the store query of the admission
is already on record. -/
def undoRunThrough : System FakeOps :=
  let inst := Install testEnv seededState "some-snap"
  let ts := taskSetOf inst
  let last := ts.getLast?.getD 0
  let chg := inst.1.NewChange "install" "install a snap"
  let st1 := chg.1.AddAll chg.2 ts
  let terr := st1.NewTask "error-trigger" "provoking total undo"
  let st2 := terr.1.WaitFor terr.2 last
  let lane := (((st2.tasks[last]?).map Task.Lanes).getD []).headD 0
  let st3 := st2.JoinLane terr.2 lane
  { st := st3.AddAll chg.2 [terr.2],
    world := ["storesvc-snap-action", "storesvc-snap-action:action"] }

/-- The TaskSets of a successful admission of several installs. -/
def taskSetsOf (r : State × Except InstallError (List String × List TaskSet)) : List TaskSet :=
  match r.2 with
  | .ok x => x.2
  | .error _ => []

/-- The change of `TestInstallPathManyWithOneFailing`
(snapstate_install_test.go:5507-5543): two snaps installed from files in
separate lanes, and a task "fail" that joins the lanes of the second snap's
first task and is added with the second TaskSet. -/
def manyWithOneFailing : System FakeOps :=
  let inst := InstallPathMany testEnv seededState ["some-snap", "other-snap"] {}
  let tss := taskSetsOf inst
  let failing := inst.1.NewTask "fail" "expected failure"
  let first := ((tss[1]?).getD []).headD 0
  let lanes := ((failing.1.tasks[first]?).map Task.Lanes).getD []
  let st1 := lanes.foldl (fun st lane => st.JoinLane failing.2 lane) failing.1
  let chg := st1.NewChange "install" "install local snaps"
  { st := chg.1.AddAll chg.2 (tss.flatten ++ [failing.2]), world := [] }

/-- The change of `TestInstallPathManyTransactionallyWithOneFailing`
(snapstate_install_test.go:5610-5636): two snaps installed from files in one
transaction; the link of "other-snap" is made to fail. -/
def manyTransactionally : System FakeOps :=
  let inst := InstallPathMany testEnv seededState ["some-snap", "other-snap"]
    { transaction := .allSnaps }
  let chg := inst.1.NewChange "install" "install local snaps"
  { st := chg.1.AddAll chg.2 (taskSetsOf inst).flatten, world := [] }

/-- The results of the handlers in
`TestInstallPathManyTransactionallyWithOneFailing`: linking "other-snap"
fails (`linkSnapFailTrigger`), every other handler returns nil. -/
def linkOtherSnapFails (st : State) : Outcomes :=
  { doResult := fun i =>
      match st.tasks[i]? with
      | some t =>
        if t.kind = "link-snap" ∧
            (taskSnapSetup t).map (·.instanceName) = some "other-snap" then .error "fail"
        else .ok
      | none => .ok,
    undoResult := fun _ => none }

end Snapstate

/-! ### Checks of a concrete change and the operations of the undo test -/

namespace Overlord

/-- Does the check hold of every task (with its index) of the store. -/
def State.allTasks (st : State) (p : Nat → Task → Bool) : Bool :=
  (List.range st.tasks.length).all fun i =>
    match st.tasks[i]? with
    | some t => p i t
    | none => true

/-- The check behind `WellFormed`. -/
def wellFormedCheck {W : Type} (r : TaskRunner W) (chg : Nat) (st : State) : Bool :=
  st.allTasks fun i t =>
    t.change == some chg &&
    t.waitTasks.all (fun w => decide (w < i) && (st.tasks[w]?).map Task.Lanes == some t.Lanes) &&
    (r.handlers t.kind).isSome

/-- The check behind `Fresh`. -/
def freshCheck (st : State) : Bool :=
  st.allTasks fun _ t => t.status == .Do && decide (t.atTime ≤ st.now)

/-- The tasks whose do handler returned nil, in that order. -/
def doneOrder (trace : List Event) : List Nat :=
  trace.filterMap fun e =>
    match e with
    | .doReturn id .ok => some id
    | _ => none

/-- The tasks whose undo handler returned nil, in that order. -/
def undoneOrder (trace : List Event) : List Nat :=
  trace.filterMap fun e =>
    match e with
    | .undoReturn id none => some id
    | _ => none

/-- The statuses past the do handler: the task is done, or its undo is due,
under way or over. -/
def Status.pastDo : Status → Bool
  | .Done | .Undo | .Undoing | .Undone => true
  | _ => false

/-- What holds of the tasks after the events `trace` of a run in which no
undo handler fails: a task is in `Error` only if its do handler returns an
error, and a task whose do handler has returned nil is past its do
handler. -/
structure Traced (o : Outcomes) (trace : List Event) (st : State) : Prop where
  error : ∀ (i : Nat) (t : Task), st.tasks[i]? = some t → t.status = .Error →
    ∃ msg, o.doResult i = .error msg
  done : ∀ (i : Nat) (t : Task), st.tasks[i]? = some t → i ∈ doneOrder trace →
    t.status.pastDo = true

/-- The handler returns of an execution that had an effect, in order: the
task whose do handler returned nil (`false`) or whose undo handler returned
nil (`true`). -/
def effects (trace : List Event) : List (Bool × Nat) :=
  trace.filterMap fun e =>
    match e with
    | .doReturn id .ok => some (false, id)
    | .undoReturn id none => some (true, id)
    | _ => none

/-- A chain of `n` tasks and a last one: every task but the first waits for
the task before it, and the failure of any of them rolls back all of them. -/
structure Chain (n : Nat) (st : State) : Prop where
  size : st.tasks.length = n + 1
  waits : ∀ (i : Nat) (t : Task), st.tasks[i + 1]? = some t → i ∈ t.waitTasks
  lanes : ∀ (i j : Nat) (ti tj : Task), st.tasks[i]? = some ti → st.tasks[j]? = some tj →
    affectedBy ti tj = true

/-- A chain on its way forward: the first `k` tasks are done, in order, task
`k` is to be done or running, the tasks after it are to be done. -/
def Forward (n k : Nat) (effs : List (Bool × Nat)) (st : State) : Prop :=
  k ≤ n ∧ effs = (List.range k).map (Prod.mk false) ∧
    ∀ (i : Nat) (t : Task), st.tasks[i]? = some t →
      (i < k → t.status = .Done) ∧ (k < i → t.status = .Do) ∧
      (i = k → t.status = .Do ∨ t.status = .Doing)

/-- A chain on its way back after its last task failed: the `n` tasks before
it were done in order, those from `m` on are undone, last first, task `m - 1`
is to be undone or being undone, the tasks before it are to be undone. -/
def Backward (n m : Nat) (effs : List (Bool × Nat)) (st : State) : Prop :=
  m ≤ n ∧
    effs = (List.range n).map (Prod.mk false) ++
      (List.range' m (n - m)).reverse.map (Prod.mk true) ∧
    ∀ (i : Nat) (t : Task), st.tasks[i]? = some t →
      (i = n → t.status = .Error) ∧ (m ≤ i → i < n → t.status = .Undone) ∧
      (i < m → t.status = .Undo ∨ (i + 1 = m ∧ t.status = .Undoing))

/-- The effect of one handler return on the keyed data and the world: of the
do handler (`false`) or of the undo handler (`true`) of the task with that
index among `tasks`. -/
def applyEffect {W : Type} (r : TaskRunner W) (tasks : List Task) (dw : Data × W)
    (p : Bool × Nat) : Data × W :=
  match tasks[p.2]? with
  | some t =>
    match r.handlers t.kind with
    | some h =>
      if p.1 then
        match h.undoFn with
        | some undo => undo t dw
        | none => dw
      else h.doFn t dw
    | none => dw
  | none => dw

/-- The handlers take from a task only what no step of the engine changes. -/
def StaticHandlers {W : Type} (r : TaskRunner W) : Prop :=
  ∀ (kind : String) (h : Handler W), r.handlers kind = some h →
    ∀ (t u : Task), t.static = u.static →
      h.doFn t = h.doFn u ∧ ∀ (f g : Task → Data × W → Data × W),
        h.undoFn = some f → h.undoFn = some g → f t = g u

end Overlord

namespace Snapstate

open Overlord

/-- The check behind `LinkedOnce`. -/
def linkedOnceCheck (name : String) (st : State) : Bool :=
  st.allTasks fun i ti => st.allTasks fun j tj =>
    !(decide (linksSnap ti name) && decide (linksSnap tj name)) || i == j

/-- The `op` fields of the operations `TestInstallUndoRunThroughJustOneSnap`
expects of the fake backend, in order (snapstate_install_test.go:1810-1940). -/
def expectedUndoRunThroughOps : FakeOps :=
  [ "storesvc-snap-action", "storesvc-snap-action:action", "storesvc-download",
    "validate-snap:Doing", "current", "open-snap-file", "setup-snap", "copy-data",
    "setup-snap-save-data", "setup-profiles:Doing", "candidate", "link-snap",
    "maybe-set-next-boot", "auto-connect:Doing", "update-aliases", "update-aliases",
    "auto-connect:Undoing", "discard-namespace", "unlink-snap", "setup-profiles:Undoing",
    "undo-copy-snap-data", "undo-setup-snap-save-data", "remove-snap-data-dir",
    "undo-setup-snap", "remove-snap-dir" ]

/-- The operation of the backend that undoes its setup, copy or link
operation ("setup-snap", "copy-data", "link-snap"), as the expected operations
of `TestInstallUndoRunThroughJustOneSnap` name them. -/
def undoOf (op : String) : Option String :=
  if op = "setup-snap" then some "undo-setup-snap"
  else if op = "copy-data" then some "undo-copy-snap-data"
  else if op = "link-snap" then some "unlink-snap"
  else none

/-- The setup, copy and link operations among the recorded operations, in the
order in which they ran. -/
def forwardOps (ops : FakeOps) : FakeOps :=
  ops.filter fun op => (undoOf op).isSome

/-- The operations that undo a setup, copy or link operation, in the order in
which they ran. -/
def undoOps (ops : FakeOps) : FakeOps :=
  ops.filter fun op =>
    ["undo-setup-snap", "undo-copy-snap-data", "unlink-snap"].contains op

/-- The claim about the operations: the setup, copy and link operations are
undone in the exact reverse of the order in which they ran forward. -/
def undoneInExactReverse (ops : FakeOps) : Prop :=
  undoOps ops = (forwardOps ops).reverse.filterMap undoOf

instance (ops : FakeOps) : Decidable (undoneInExactReverse ops) := by
  unfold undoneInExactReverse
  infer_instance

/-- The backend operations the handler of a task records when it is done
(`false`) or undone (`true`). -/
def opsOf (t : Task) (undo : Bool) : FakeOps :=
  match installHandlers t.kind with
  | some h =>
    if undo then
      match h.undoFn with
      | some f => (f t ([], [])).2
      | none => []
    else (h.doFn t ([], [])).2
  | none => []

/-- A task of the kind that works on some snap. -/
def probe (kind : String) : Task :=
  { kind := kind, summary := "", status := .Do, waitTasks := [], lanes := [], atTime := 0,
    data := Data.setAs snapSetupCodec [] "snap-setup" ⟨"snap", "1"⟩, log := [], change := none }

/-- The backend operations of the tasks of these kinds, all of them working
on a snap, when they are done in order and then undone in the reverse
order. -/
def runThroughOps (kinds : List String) : FakeOps :=
  (kinds.map fun k => opsOf (probe k) false).flatten ++
    (kinds.reverse.map fun k => opsOf (probe k) true).flatten

/-- The outcome of an install that ran through and was then rolled back, as
the claim states it: the tasks of the install were done in order and then
undone in the exact reverse order, nothing else had an effect, the backend
recorded after `before` the operations the test expects, among them the setup,
copy and link operations undone in the exact reverse of the order in which
they ran, the last operation is "remove-snap-dir", the change has an error and
no snap that was absent before is in the state. -/
def RunThrough (chg : Nat) (before : FakeOps) (st0 : State) (trace : List Event)
    (s : System FakeOps) : Prop :=
  doneOrder trace = List.range (expectedDoInstallTasks {}).length ∧
  undoneOrder trace = (List.range (expectedDoInstallTasks {}).length).reverse ∧
  effects trace = (doneOrder trace).map (Prod.mk false) ++ (undoneOrder trace).map (Prod.mk true) ∧
  s.world = before ++ expectedUndoRunThroughOps.drop 2 ∧
  undoneInExactReverse (s.world.drop before.length) ∧
  s.world.getLast? = some "remove-snap-dir" ∧
  NothingInstalled chg st0 s.st

/-- The rollback of a failure confined to the lanes of the task `fid` (`f0`),
after the events `trace`: the failed task is in `Error`, every other task of
these lanes (and lane 0) is undone or held, and it is undone when its do
handler had returned nil. -/
def RolledBack (fid : Nat) (f0 : Task) (trace : List Event) (st : State) : Prop :=
  ∀ (i : Nat) (t : Task), st.tasks[i]? = some t →
    (i = fid → t.status = .Error) ∧
    (i ≠ fid → affectedBy f0 t = true →
      (t.status = .Undone ∨ t.status = .Hold) ∧ (i ∈ doneOrder trace → t.status = .Undone))

/-- The task "fail" of `TestInstallPathManyWithOneFailing`, as it is in the
change. -/
def failingTask : Task :=
  (manyWithOneFailing.st.tasks[28]?).getD
    { kind := "", summary := "", status := .Do, waitTasks := [], lanes := [], atTime := 0,
      data := [], log := [], change := none }

end Snapstate

/-! ### boot: change of the device model

`boot.DeviceChange` (boot/model.go) is not among the source files; only
`boot/model_test.go` is.  The model below follows the specification (sections
4.4 and 7) and what the tests observe at every reseal call and at every write
of the model file. -/

namespace Boot

/-- The identity of a model assertion that sealing depends on: the fields
`boot.ModelUniqueID` prints (model_test.go checks them as
`canonical/my-model-uc20,dangerous,<key>`). -/
structure Model where
  brandID : String
  model : String
  grade : String
  signKeyID : String
  deriving DecidableEq, Repr

/-- Modelled from the spec: `boot.ModelUniqueID`, `<brand>/<model>,<grade>,<key>`
(function is missing; the tests compare its result). -/
def modelUniqueID (m : Model) : String :=
  m.brandID ++ "/" ++ m.model ++ "," ++ m.grade ++ "," ++ m.signKeyID

/-- The cleared try model, whose unique id reads `/,,` in the tests. -/
def noModel : Model :=
  { brandID := "", model := "", grade := "", signKeyID := "" }

/-- Modelled from the spec: the sealing-related part of `boot.Modeenv`, the
"durable environment state" holding the current model and the "try model
marker" (type is missing). -/
structure Modeenv where
  model : Model
  tryModel : Model
  deriving DecidableEq, Repr

/-- Modelled from the spec: `Modeenv.setModel`. -/
def Modeenv.setModel (m : Modeenv) (model : Model) : Modeenv :=
  { m with model := model }

/-- Modelled from the spec: `Modeenv.setTryModel`. -/
def Modeenv.setTryModel (m : Modeenv) (model : Model) : Modeenv :=
  { m with tryModel := model }

/-- Modelled from the spec: `Modeenv.clearTryModel`. -/
def Modeenv.clearTryModel (m : Modeenv) : Modeenv :=
  { m with tryModel := noModel }

/-- Modelled from the spec: a `snap.Device` as `DeviceChange` uses it. -/
structure Device where
  model : Model
  hasModeenv : Bool
  deriving DecidableEq, Repr

/-- What a call of the (mocked) `ResealKeyForBootChains` does: return nil,
return an error, or abort the process (the tests' `panic`, a mock reboot). -/
inductive ResealResult where
  | ok
  | error (msg : String)
  | panic (msg : String)
  deriving DecidableEq, Repr

/-- The collaborators of `DeviceChange`, each answering by the number of the
call, as the mocks of model_test.go do: resealing, writing the model file to
ubuntu-boot and writing the modeenv (an answer `some err` is a failure). -/
structure Env where
  reseal : Nat → ResealResult
  writeModel : Nat → Option String
  writeModeenv : Nat → Option String

/-- The durable state and the call counters the tests keep. -/
structure World where
  sealedKeys : Bool
  modeenv : Modeenv
  modelFile : Model
  resealCalls : Nat
  writeModelCalls : Nat
  modeenvWrites : Nat
  resealLog : List (List String)
  deriving DecidableEq, Repr

/-- How a call of `DeviceChange` ends: it returns (nil or an error), or the
process is aborted inside it. -/
inductive Outcome where
  | returned (err : Option String)
  | aborted (msg : String)
  deriving DecidableEq, Repr

/-- Modelled from the spec: `Modeenv.Write`, persisting the in-memory modeenv
(function is missing). -/
def Modeenv.Write (env : Env) (w : World) (m : Modeenv) : World × Option String :=
  match env.writeModeenv (w.modeenvWrites + 1) with
  | none => ({ w with modeenvWrites := w.modeenvWrites + 1, modeenv := m }, none)
  | some err => ({ w with modeenvWrites := w.modeenvWrites + 1 }, some err)

/-- Modelled from the spec: `boot.WriteModelToUbuntuBoot` (the tests mock it
through `MockWriteModelToUbuntuBoot`; the function is missing). -/
def writeModelToUbuntuBoot (env : Env) (w : World) (model : Model) : World × Option String :=
  match env.writeModel (w.writeModelCalls + 1) with
  | none => ({ w with writeModelCalls := w.writeModelCalls + 1, modelFile := model }, none)
  | some err => ({ w with writeModelCalls := w.writeModelCalls + 1 }, some err)

/-- The models a reseal covers: the current one and, when set, the try one
(the tests find one boot chain per model in the reseal parameters). -/
def modelsForSealing (m : Modeenv) : List String :=
  if modelUniqueID m.tryModel = modelUniqueID noModel then [modelUniqueID m.model]
  else [modelUniqueID m.model, modelUniqueID m.tryModel]

/-- Modelled from the spec: `resealKeyToModeenv`: on a system with sealed keys
one call of `ResealKeyForBootChains`, for the models of the in-memory modeenv
(function is missing). -/
def resealKeyToModeenv (env : Env) (w : World) (m : Modeenv) : World × ResealResult :=
  if !w.sealedKeys then (w, .ok)
  else
    ({ w with resealCalls := w.resealCalls + 1,
              resealLog := w.resealLog ++ [modelsForSealing m] },
     env.reseal (w.resealCalls + 1))

/-- The start of `DeviceChange`: the try model is set to the new model and
the current model to the old one, unless they already are; the flag tells
whether the modeenv was modified and has to be written. -/
def prepareModeenv (m : Modeenv) (oldModel newModel : Model) : Modeenv × Bool :=
  let tryDiffers := decide (modelUniqueID m.tryModel ≠ modelUniqueID newModel)
  let m1 := if tryDiffers then m.setTryModel newModel else m
  let modelDiffers := decide (modelUniqueID m1.model ≠ modelUniqueID oldModel)
  let m2 := if modelDiffers then m1.setModel oldModel else m1
  (m2, tryDiffers || modelDiffers)

/-- Handling of a failed second reseal: both models go back into the
modeenv, the old model file is restored, then the try model is dropped. -/
def restoreAfterSecondReseal (env : Env) (w : World) (m : Modeenv) (oldModel newModel : Model)
    (err : String) : World × Outcome :=
  let m1 := (m.setModel oldModel).setTryModel newModel
  match Modeenv.Write env w m1 with
  | (w1, some mErr) => (w1, .returned (some (err ++ " (writing modeenv failed: " ++ mErr ++ ")")))
  | (w1, none) =>
    match writeModelToUbuntuBoot env w1 oldModel with
    | (w2, some rErr) =>
      (w2, .returned (some (err ++ " (restoring model failed: " ++ rErr ++ ")")))
    | (w2, none) =>
      match Modeenv.Write env w2 m1.clearTryModel with
      | (w3, some mErr) =>
        (w3, .returned (some (err ++ " (restoring modeenv failed: " ++ mErr ++ ")")))
      | (w3, none) => (w3, .returned (some err))

/-- The part of `DeviceChange` after the first reseal succeeded: the new model
file is written (the commit point), the modeenv is switched to the new model
alone, and the keys are resealed for it. -/
def commitNewModel (env : Env) (w : World) (m : Modeenv) (oldModel newModel : Model) :
    World × Outcome :=
  match writeModelToUbuntuBoot env w newModel with
  | (w1, some wErr) =>
    let err := "cannot write new model file: " ++ wErr
    match Modeenv.Write env w1 m.clearTryModel with
    | (w2, some mErr) =>
      (w2, .returned (some (err ++ " (restoring modeenv failed: " ++ mErr ++ ")")))
    | (w2, none) => (w2, .returned (some err))
  | (w1, none) =>
    let m1 := (m.setModel newModel).clearTryModel
    match Modeenv.Write env w1 m1 with
    | (w2, some err) =>
      match writeModelToUbuntuBoot env w2 oldModel with
      | (w3, some rErr) =>
        (w3, .returned (some (err ++ " (restoring model failed: " ++ rErr ++ ")")))
      | (w3, none) => (w3, .returned (some err))
    | (w2, none) =>
      match resealKeyToModeenv env w2 m1 with
      | (w3, .panic msg) => (w3, .aborted msg)
      | (w3, .error err) => restoreAfterSecondReseal env w3 m1 oldModel newModel err
      | (w3, .ok) => (w3, .returned none)

/-- Modelled from the spec: `boot.DeviceChange(from, to, unlocker)`
(boot/model.go is missing).  The try model is persisted first, "so that a
reboot between two required reseal operations can be detected"; the keys are
resealed for both models; the model file is swapped; the keys are resealed for
the new model alone; a failure on the way "attempts to restore prior durable
state". -/
def DeviceChange (env : Env) (fromDev toDev : Device) (w : World) : World × Outcome :=
  if !toDev.hasModeenv then (w, .returned none)
  else
    let m := (prepareModeenv w.modeenv fromDev.model toDev.model).1
    let modified := (prepareModeenv w.modeenv fromDev.model toDev.model).2
    let written := if modified then Modeenv.Write env w m else (w, none)
    match written with
    | (w1, some err) => (w1, .returned (some err))
    | (w1, none) =>
      match resealKeyToModeenv env w1 m with
      | (w2, .panic msg) => (w2, .aborted msg)
      | (w2, .error err) =>
        match Modeenv.Write env w2 m.clearTryModel with
        | (w3, some mErr) =>
          (w3, .returned (some (err ++ " (restoring modeenv failed: " ++ mErr ++ ")")))
        | (w3, none) => (w3, .returned (some err))
      | (w2, .ok) => commitNewModel env w2 m fromDev.model toDev.model

end Boot

/-! ### The scenarios of the boot tests -/

namespace Boot

/-- The old device of `modelSuite.SetUpTest` (model_test.go:102). -/
def oldUc20dev : Device :=
  { model := { brandID := "canonical", model := "my-model-uc20", grade := "dangerous",
               signKeyID := "key-id" },
    hasModeenv := true }

/-- The new device of `modelSuite.SetUpTest` (model_test.go:103). -/
def newUc20dev : Device :=
  { model := { brandID := "canonical", model := "my-new-model-uc20", grade := "secured",
               signKeyID := "key-id" },
    hasModeenv := true }

/-- The durable state the `DeviceChange` tests start from: sealed keys are
stamped, modeenv and model file hold the old model, no call was made yet. -/
def initialWorld : World :=
  { sealedKeys := true, modeenv := { model := oldUc20dev.model, tryModel := noModel },
    modelFile := oldUc20dev.model, resealCalls := 0, writeModelCalls := 0, modeenvWrites := 0,
    resealLog := [] }

/-- The mock of `TestDeviceChangeRebootBeforeNewModel`: the first reseal call
panics, every other call and every write succeeds. -/
def rebootInFirstReseal : Env :=
  { reseal := fun n => if n = 1 then .panic "mock reboot after first complete reseal" else .ok,
    writeModel := fun _ => none, writeModeenv := fun _ => none }

/-- The mock of `TestDeviceChangeUnhappySecondReseal`: the second reseal call
fails, every other call and every write succeeds. -/
def failSecondReseal : Env :=
  { reseal := fun n => if n = 2 then .error "fail on second try" else .ok,
    writeModel := fun _ => none, writeModeenv := fun _ => none }

end Boot

/-! ### overlord/fdestate/backend/reseal.go

The functions of reseal.go call the manager (`Update`, `Get`, `Unlock` and the
returned relock function), package boot (`IsResealNeeded`, `SealKeyModelParams`,
`WriteBootChains`) and secboot.  None of these is among the source files; they
are parameters, and every call is put on record, in order. -/

namespace Fdestate

/-- `device.SealingMethod` with the three constants that reseal.go names; any
other value is `other`, with its text. -/
inductive SealingMethod where
  | FDESetupHook
  | TPM
  | LegacyTPM
  | other (name : String)
  deriving DecidableEq, Repr

/-- `SealingParameters` (reseal.go:67-71); `M` is `secboot.ModelForSealing`,
bytes are numbers. -/
structure SealingParameters (M : Type) where
  BootModes : List String
  Models : List M
  TpmPCRProfile : List Nat
  deriving DecidableEq, Repr

/-- `secboot.SealKeyModelParams`: the two fields reseal.go reads or writes and
in `rest` whatever else the type holds. -/
structure SealKeyModelParams (M X : Type) where
  Model : M
  EFISignatureDbxUpdate : List Nat
  rest : X
  deriving DecidableEq, Repr

/-- `secboot.KeyDataLocation`. -/
structure KeyDataLocation where
  DevicePath : String
  SlotName : String
  KeyFile : String
  deriving DecidableEq, Repr

/-- `secboot.ResealKeysParams`, the fields set at reseal.go:172-176. -/
structure ResealKeysParams where
  PCRProfile : List Nat
  Keys : List KeyDataLocation
  TPMPolicyAuthKeyFile : String
  deriving DecidableEq, Repr

/-- `boot.ResealKeyForBootChainsParams`, the fields reseal.go reads; `BC` is
`boot.BootChain`, `RM` the map `map[bootloader.Role]string`. -/
structure ResealKeyForBootChainsParams (BC RM : Type) where
  RunModeBootChains : List BC
  RecoveryBootChainsForRunKey : List BC
  RecoveryBootChains : List BC
  RoleToBlName : RM

/-- `resealInputs` (reseal.go:470-473). -/
structure resealInputs (BC RM : Type) where
  bootChains : ResealKeyForBootChainsParams BC RM
  signatureDBUpdate : List Nat := []

/-- `resealOptions` (reseal.go:475-478). -/
structure resealOptions where
  ExpectReseal : Bool := false
  Force : Bool := false
  deriving DecidableEq, Repr

/-- `comparableModel` (reseal.go:86-93). -/
structure comparableModel where
  BrandID : String
  SignKeyID : String
  Model : String
  Classic : Bool
  Grade : String
  Series : String
  deriving DecidableEq, Repr

/-- A call to a collaborator, with its arguments; `PBC` is
`boot.PredictableBootChains`.  `unlock` is `manager.Unlock()`, `relock` the
call of the function it returned. -/
inductive Event (PBC RM M X : Type) where
  | isResealNeeded (pbc : PBC) (file : String) (expectReseal : Bool)
  | sealKeyModelParams (pbc : PBC) (roleToBlName : RM)
  | unlock
  | relock
  | buildPCRProtectionProfile (modelParams : List (SealKeyModelParams M X))
  | update (role containerRole : String) (parameters : SealingParameters M)
  | writeBootChains (pbc : PBC) (path : String) (count : Int)
  | get (role containerRole : String)
  | resealKeys (params : ResealKeysParams)
  | resealKeysWithFDESetupHook (keys : List KeyDataLocation) (primaryKeyFile : String)
      (models : List M)

/-- What a call is, without its data arguments. -/
inductive Call where
  | IsResealNeeded (file : String)
  | SealKeyModelParams
  | Unlock
  | relock
  | BuildPCRProtectionProfile
  | Update (role containerRole : String)
  | WriteBootChains (path : String)
  | Get (role containerRole : String)
  | ResealKeys
  | ResealKeysWithFDESetupHook
  deriving DecidableEq, Repr

/-- The call of an event. -/
def Event.call {PBC RM M X : Type} : Event PBC RM M X → Call
  | .isResealNeeded _ file _ => .IsResealNeeded file
  | .sealKeyModelParams _ _ => .SealKeyModelParams
  | .unlock => .Unlock
  | .relock => .relock
  | .buildPCRProtectionProfile _ => .BuildPCRProtectionProfile
  | .update role containerRole _ => .Update role containerRole
  | .writeBootChains _ path _ => .WriteBootChains path
  | .get role containerRole => .Get role containerRole
  | .resealKeys _ => .ResealKeys
  | .resealKeysWithFDESetupHook _ _ _ => .ResealKeysWithFDESetupHook

/-- Does the caller hold the state lock after the calls, holding it before
them (reseal.go is entered with the lock held): `Unlock` releases it, the
relock function takes it again. -/
def lockHeld (calls : List Call) : Bool :=
  calls.foldl (fun held c =>
    match c with
    | .Unlock => false
    | .relock => true
    | _ => held) true

/-- The errors of reseal.go: those made with `fmt.Errorf` and, in `other`, the
error of a collaborator handed on as it is. -/
inductive ResealError (E : Type) where
  | other (err : E)
  | cannotPrepare (err : E)
  | cannotPrepareFallback (err : E)
  | noModelParams
  | unexpectedProfileLength
  | cannotReseal (err : E)
  | cannotResealFallback (err : E)
  | unknownMethod (method : SealingMethod)
  deriving DecidableEq, Repr

/-- The collaborators of reseal.go.  Those that act or read the system answer
after the calls made so far (first argument), so that an answer may depend on
what was done before; an error-only result is `none` for nil.  The rest are the
path and conversion helpers of packages backend, boot, device and dirs that
are not among the source files. -/
structure Env (BC PBC RM M X E : Type) where
  IsResealNeeded : List (Event PBC RM M X) → PBC → String → Bool → Except E (Bool × Int)
  BuildPCRProtectionProfile : List (Event PBC RM M X) → List (SealKeyModelParams M X) →
    Except E (List Nat)
  SealKeyModelParams : List (Event PBC RM M X) → PBC → RM →
    Except E (List (SealKeyModelParams M X))
  Update : List (Event PBC RM M X) → String → String → SealingParameters M → Option E
  Get : List (Event PBC RM M X) → String → String → Except E (Option (SealingParameters M))
  WriteBootChains : List (Event PBC RM M X) → PBC → String → Int → Option E
  ResealKeys : List (Event PBC RM M X) → ResealKeysParams → Option E
  ResealKeysWithFDESetupHook : List (Event PBC RM M X) → List KeyDataLocation → String →
    List M → Option E
  ToPredictableBootChains : List BC → PBC
  ModelForSealing : BC → M
  modelMethods : M → comparableModel
  rangeModels : List (comparableModel × M) → List (comparableModel × M)
  BootChainsFileUnder : String → String
  RecoveryBootChainsFileUnder : String → String
  DataSealedKey : String
  FallbackDataSealedKey : String
  FallbackSaveSealedKey : String
  primaryKeyFile : String
  authKeyFile : String → String

/-- A piece of reseal.go: given the calls made before it, the calls it makes,
in order, and what it returns. -/
def Calls (Ev Err α : Type) : Type :=
  List Ev → List Ev × Except Err α

/-- Returning without a call. -/
def Calls.ret {Ev Err α : Type} (r : Except Err α) : Calls Ev Err α :=
  fun _ => ([], r)

/-- One call of a collaborator, which answers after the calls made before. -/
def Calls.call {Ev Err α : Type} (ev : Ev) (answer : List Ev → Except Err α) : Calls Ev Err α :=
  fun before => ([ev], answer before)

/-- Sequencing with `if err != nil { return err }`. -/
def Calls.andThen {Ev Err α β : Type} (x : Calls Ev Err α) (f : α → Calls Ev Err β) :
    Calls Ev Err β :=
  fun before =>
    match x before with
    | (evs, .error err) => (evs, .error err)
    | (evs, .ok a) => (evs ++ (f a (before ++ evs)).1, (f a (before ++ evs)).2)

/-- The statement `defer f()` before `body`: the deferred call is made when
the body returns, whatever it returns. -/
def Calls.deferring {Ev Err α : Type} (ev : Ev) (body : Calls Ev Err α) : Calls Ev Err α :=
  fun before => ((body before).1 ++ [ev], (body before).2)

/-- An error-only result `if err := f(); err != nil { return wrap(err) }`. -/
def check {E Err : Type} (wrap : E → Err) : Option E → Except Err Unit
  | none => .ok ()
  | some err => .error (wrap err)

/-- A result with error, `v, err := f(); if err != nil { return wrap(err) }`. -/
def checked {E Err α : Type} (wrap : E → Err) : Except E α → Except Err α
  | .ok v => .ok v
  | .error err => .error (wrap err)

end Fdestate

namespace Fdestate

/-- Assignment `m[k] = v` to a Go map held as the list of its entries. -/
def assign {κ β : Type} [DecidableEq κ] (m : List (κ × β)) (k : κ) (v : β) : List (κ × β) :=
  if m.any (fun e => e.1 = k) then m.map fun e => if e.1 = k then (k, v) else e
  else m ++ [(k, v)]

/-- `toComparable` (reseal.go:95-104); `env.modelMethods` answers the six
methods of the model. -/
def toComparable {BC PBC RM M X E : Type} (env : Env BC PBC RM M X E) (m : M) : comparableModel :=
  { BrandID := (env.modelMethods m).BrandID
    SignKeyID := (env.modelMethods m).SignKeyID
    Model := (env.modelMethods m).Model
    Classic := (env.modelMethods m).Classic
    Grade := (env.modelMethods m).Grade
    Series := (env.modelMethods m).Series }

/-- `getUniqueModels` (reseal.go:106-120); `env.rangeModels` is the order in
which `range` visits the map. -/
def getUniqueModels {BC PBC RM M X E : Type} (env : Env BC PBC RM M X E) (bootChains : List BC) :
    List M :=
  let uniqueModels := bootChains.foldl (fun uniqueModels bc =>
    assign uniqueModels (toComparable env (env.ModelForSealing bc)) (env.ModelForSealing bc)) []
  (env.rangeModels uniqueModels).map (·.2)

/-- `attachSignatureDbxUpdate` (reseal.go:502-510). -/
def attachSignatureDbxUpdate {M X : Type} (params : List (SealKeyModelParams M X))
    (update : List Nat) : List (SealKeyModelParams M X) :=
  if update.length = 0 then params
  else params.map fun p => { p with EFISignatureDbxUpdate := update }

/-- `updateRunProtectionProfile` (reseal.go:281-371). -/
def updateRunProtectionProfile {BC PBC RM M X E : Type} (env : Env BC PBC RM M X E)
    (pbcRunOnly pbcWithRecovery : PBC) (sigDbxUpdate : List Nat) (roleToBlName : RM) :
    Calls (Event PBC RM M X) (ResealError E) Unit :=
  .andThen (.call (.sealKeyModelParams pbcWithRecovery roleToBlName) fun before =>
    checked .cannotPrepare (env.SealKeyModelParams before pbcWithRecovery roleToBlName))
  fun modelParams0 =>
  .andThen (.call (.sealKeyModelParams pbcRunOnly roleToBlName) fun before =>
    checked .cannotPrepare (env.SealKeyModelParams before pbcRunOnly roleToBlName))
  fun modelParamsRunOnly0 =>
  if modelParams0.length < 1 ∨ modelParamsRunOnly0.length < 1 then .ret (.error .noModelParams)
  else
    let modelParams := if sigDbxUpdate.length > 0
      then attachSignatureDbxUpdate modelParams0 sigDbxUpdate else modelParams0
    let modelParamsRunOnly := if sigDbxUpdate.length > 0
      then attachSignatureDbxUpdate modelParamsRunOnly0 sigDbxUpdate else modelParamsRunOnly0
    .andThen
      (.andThen (.call .unlock fun _ => .ok ()) fun _ =>
        .deferring .relock
          (.andThen (.call (.buildPCRProtectionProfile modelParams) fun before =>
            checked .other (env.BuildPCRProtectionProfile before modelParams))
          fun pcrProfile =>
          .andThen (.call (.buildPCRProtectionProfile modelParamsRunOnly) fun before =>
            checked .other (env.BuildPCRProtectionProfile before modelParamsRunOnly))
          fun pcrProfileRunOnly =>
          .ret (.ok (pcrProfile, pcrProfileRunOnly))))
    fun profiles =>
    if profiles.1.length = 0 then .ret (.error .unexpectedProfileLength)
    else
      let runParams : SealingParameters M :=
        { BootModes := ["run", "recover"]
          Models := modelParams.map (·.Model)
          TpmPCRProfile := profiles.1 }
      .andThen (.call (.update "run+recover" "all" runParams) fun before =>
        check .other (env.Update before "run+recover" "all" runParams))
      fun _ =>
      let runOnlyParams : SealingParameters M :=
        { BootModes := ["run"]
          Models := modelParamsRunOnly.map (·.Model)
          TpmPCRProfile := profiles.2 }
      .andThen (.call (.update "run" "all" runOnlyParams) fun before =>
        check .other (env.Update before "run" "all" runOnlyParams))
      fun _ => .ret (.ok ())

/-- `updateFallbackProtectionProfile` (reseal.go:373-435). -/
def updateFallbackProtectionProfile {BC PBC RM M X E : Type} (env : Env BC PBC RM M X E)
    (pbc : PBC) (sigDbxUpdate : List Nat) (roleToBlName : RM) :
    Calls (Event PBC RM M X) (ResealError E) Unit :=
  .andThen (.call (.sealKeyModelParams pbc roleToBlName) fun before =>
    checked .cannotPrepareFallback (env.SealKeyModelParams before pbc roleToBlName))
  fun modelParams0 =>
  if modelParams0.length < 1 then .ret (.error .noModelParams)
  else
    let modelParams := if sigDbxUpdate.length > 0
      then attachSignatureDbxUpdate modelParams0 sigDbxUpdate else modelParams0
    .andThen
      (.andThen (.call .unlock fun _ => .ok ()) fun _ =>
        .deferring .relock
          (.andThen (.call (.buildPCRProtectionProfile modelParams) fun before =>
            checked .other (env.BuildPCRProtectionProfile before modelParams))
          fun pcrProfile => .ret (.ok pcrProfile)))
    fun pcrProfile =>
    if pcrProfile.length = 0 then .ret (.error .unexpectedProfileLength)
    else
      let params : SealingParameters M :=
        { BootModes := ["recover", "factory-reset"]
          Models := modelParams.map (·.Model)
          TpmPCRProfile := pcrProfile }
      .andThen (.call (.update "recover" "system-save" params) fun before =>
        check .other (env.Update before "recover" "system-save" params))
      fun _ => .ret (.ok ())

/-- `recalculateParamatersFDEHook` (reseal.go:198-220). -/
def recalculateParamatersFDEHook {BC PBC RM M X E : Type} (env : Env BC PBC RM M X E)
    (inputs : resealInputs BC RM) : Calls (Event PBC RM M X) (ResealError E) Unit :=
  let params := inputs.bootChains
  let runModels := getUniqueModels env
    (params.RunModeBootChains ++ params.RecoveryBootChainsForRunKey)
  let recoveryModels := getUniqueModels env params.RecoveryBootChains
  let runParams : SealingParameters M :=
    { BootModes := ["run", "recover"], Models := runModels, TpmPCRProfile := [] }
  .andThen (.call (.update "run+recover" "all" runParams) fun before =>
    check .other (env.Update before "run+recover" "all" runParams))
  fun _ =>
  let recoveryParams : SealingParameters M :=
    { BootModes := ["recover", "factory-reset"], Models := recoveryModels, TpmPCRProfile := [] }
  .andThen (.call (.update "recover" "system-save" recoveryParams) fun before =>
    check .other (env.Update before "recover" "system-save" recoveryParams))
  fun _ => .ret (.ok ())

/-- `recalculateParamatersTPM` (reseal.go:222-279). -/
def recalculateParamatersTPM {BC PBC RM M X E : Type} (env : Env BC PBC RM M X E)
    (rootdir : String) (inputs : resealInputs BC RM) (opts : resealOptions) :
    Calls (Event PBC RM M X) (ResealError E) Unit :=
  let params := inputs.bootChains
  let pbc := env.ToPredictableBootChains
    (params.RunModeBootChains ++ params.RecoveryBootChainsForRunKey)
  .andThen (.call (.isResealNeeded pbc (env.BootChainsFileUnder rootdir) opts.ExpectReseal)
    fun before => checked .other
      (env.IsResealNeeded before pbc (env.BootChainsFileUnder rootdir) opts.ExpectReseal))
  fun answer =>
  .andThen
    (if answer.1 || opts.Force then
      let runOnlyPbc := env.ToPredictableBootChains params.RunModeBootChains
      .andThen (updateRunProtectionProfile env runOnlyPbc pbc inputs.signatureDBUpdate
        params.RoleToBlName)
      fun _ =>
      .call (.writeBootChains pbc (env.BootChainsFileUnder rootdir) answer.2) fun before =>
        check .other (env.WriteBootChains before pbc (env.BootChainsFileUnder rootdir) answer.2)
    else .ret (.ok ()))
  fun _ =>
  let rpbc := env.ToPredictableBootChains params.RecoveryBootChains
  .andThen (.call (.isResealNeeded rpbc (env.RecoveryBootChainsFileUnder rootdir)
      opts.ExpectReseal)
    fun before => checked .other
      (env.IsResealNeeded before rpbc (env.RecoveryBootChainsFileUnder rootdir)
        opts.ExpectReseal))
  fun fallbackAnswer =>
  .andThen
    (if fallbackAnswer.1 || opts.Force then
      .andThen (updateFallbackProtectionProfile env rpbc inputs.signatureDBUpdate
        params.RoleToBlName)
      fun _ =>
      .call (.writeBootChains rpbc (env.RecoveryBootChainsFileUnder rootdir) fallbackAnswer.2)
        fun before => check .other
          (env.WriteBootChains before rpbc (env.RecoveryBootChainsFileUnder rootdir)
            fallbackAnswer.2)
    else .ret (.ok ()))
  fun _ => .ret (.ok ())

/-- The keys `runKeys` of `doReseal` (reseal.go:133-139). -/
def runKeys {BC PBC RM M X E : Type} (env : Env BC PBC RM M X E) : List KeyDataLocation :=
  [{ DevicePath := "/dev/disk/by-partlabel/ubuntu-data", SlotName := "default",
     KeyFile := env.DataSealedKey }]

/-- The keys `recoveryKeys` of `doReseal` (reseal.go:141-152). -/
def recoveryKeys {BC PBC RM M X E : Type} (env : Env BC PBC RM M X E) : List KeyDataLocation :=
  [{ DevicePath := "/dev/disk/by-partlabel/ubuntu-data", SlotName := "default-fallback",
     KeyFile := env.FallbackDataSealedKey },
   { DevicePath := "/dev/disk/by-partlabel/ubuntu-save", SlotName := "default-fallback",
     KeyFile := env.FallbackSaveSealedKey }]

/-- `doReseal` (reseal.go:122-196); a nil `*SealingParameters` is `none`. -/
def doReseal {BC PBC RM M X E : Type} (env : Env BC PBC RM M X E) (method : SealingMethod)
    (rootdir : String) : Calls (Event PBC RM M X) (ResealError E) Unit :=
  .andThen (.call (.get "run+recover" "all") fun before =>
    checked .other (env.Get before "run+recover" "all"))
  fun runParams =>
  .andThen (.call (.get "recover" "system-save") fun before =>
    checked .other (env.Get before "recover" "system-save"))
  fun recoveryParams =>
  match method with
  | .FDESetupHook =>
    .andThen
      (match runParams with
       | some p =>
         .call (.resealKeysWithFDESetupHook (runKeys env) env.primaryKeyFile p.Models)
           fun before => check .other
             (env.ResealKeysWithFDESetupHook before (runKeys env) env.primaryKeyFile p.Models)
       | none => .ret (.ok ()))
    fun _ =>
    .andThen
      (match recoveryParams with
       | some p =>
         .call (.resealKeysWithFDESetupHook (recoveryKeys env) env.primaryKeyFile p.Models)
           fun before => check .other
             (env.ResealKeysWithFDESetupHook before (recoveryKeys env) env.primaryKeyFile
               p.Models)
       | none => .ret (.ok ()))
    fun _ => .ret (.ok ())
  | .TPM | .LegacyTPM =>
    .andThen
      (match runParams with
       | some p =>
         .call (.resealKeys ⟨p.TpmPCRProfile, runKeys env, env.authKeyFile rootdir⟩)
           fun before => check .cannotReseal
             (env.ResealKeys before ⟨p.TpmPCRProfile, runKeys env, env.authKeyFile rootdir⟩)
       | none => .ret (.ok ()))
    fun _ =>
    .andThen
      (match recoveryParams with
       | some p =>
         .call (.resealKeys ⟨p.TpmPCRProfile, recoveryKeys env, env.authKeyFile rootdir⟩)
           fun before => check .cannotResealFallback
             (env.ResealKeys before
               ⟨p.TpmPCRProfile, recoveryKeys env, env.authKeyFile rootdir⟩)
       | none => .ret (.ok ()))
    fun _ => .ret (.ok ())
  | .other name => .ret (.error (.unknownMethod (.other name)))

/-- `resealKeys` (reseal.go:480-500). -/
def resealKeys {BC PBC RM M X E : Type} (env : Env BC PBC RM M X E) (method : SealingMethod)
    (rootdir : String) (inputs : resealInputs BC RM) (opts : resealOptions) :
    Calls (Event PBC RM M X) (ResealError E) Unit :=
  .andThen
    (match method with
     | .FDESetupHook => recalculateParamatersFDEHook env inputs
     | .TPM | .LegacyTPM => recalculateParamatersTPM env rootdir inputs opts
     | .other name => .ret (.error (.unknownMethod (.other name))))
  fun _ => doReseal env method rootdir

/-- `ResealKeyForBootChains` (reseal.go:438-446). -/
def ResealKeyForBootChains {BC PBC RM M X E : Type} (env : Env BC PBC RM M X E)
    (method : SealingMethod) (rootdir : String) (params : ResealKeyForBootChainsParams BC RM)
    (expectReseal : Bool) : Calls (Event PBC RM M X) (ResealError E) Unit :=
  resealKeys env method rootdir { bootChains := params } { ExpectReseal := expectReseal }

/-- `ResealKeysForSignaturesDBUpdate` (reseal.go:450-468). -/
def ResealKeysForSignaturesDBUpdate {BC PBC RM M X E : Type} (env : Env BC PBC RM M X E)
    (method : SealingMethod) (rootdir : String) (params : ResealKeyForBootChainsParams BC RM)
    (dbUpdate : List Nat) : Calls (Event PBC RM M X) (ResealError E) Unit :=
  resealKeys env method rootdir { bootChains := params, signatureDBUpdate := dbUpdate }
    { ExpectReseal := true, Force := true }

end Fdestate

namespace Fdestate

/-- The calls a piece of reseal.go makes after the calls `before`, without
their data arguments. -/
def callsOf {PBC RM M X Err α : Type} (x : Calls (Event PBC RM M X) Err α)
    (before : List (Event PBC RM M X)) : List Call :=
  (x before).1.map Event.call

/-- The unlock/relock pattern of a list of calls.  At every call of
`secbootBuildPCRProtectionProfile` the lock is not held, `Unlock` was called
exactly once before it and the relock function not yet, and after it `Unlock`
is not called again and the relock function is called exactly once.  At every
call of `manager.Update` the lock is held again, the relock function having
been called before it (exactly once, as `Unlock`). -/
def UnlockRelockPattern (calls : List Call) : Prop :=
  (∀ pre post, calls = pre ++ .BuildPCRProtectionProfile :: post →
    lockHeld pre = false ∧ pre.count .Unlock = 1 ∧ pre.count .relock = 0 ∧
      post.count .Unlock = 0 ∧ post.count .relock = 1) ∧
  (∀ pre role containerRole post, calls = pre ++ .Update role containerRole :: post →
    lockHeld pre = true ∧ pre.count .Unlock = 1 ∧ pre.count .relock = 1)

/-- All the ways to write a list as `pre ++ e :: post`. -/
def splits {α : Type} : List α → List (List α × α × List α)
  | [] => []
  | x :: l => ([], x, l) :: (splits l).map fun s => (x :: s.1, s.2.1, s.2.2)

/-- The unlock/relock pattern, checked split by split. -/
def patternCheck (calls : List Call) : Bool :=
  (splits calls).all fun s =>
    match s.2.1 with
    | .BuildPCRProtectionProfile =>
      !lockHeld s.1 && s.1.count .Unlock == 1 && s.1.count .relock == 0 &&
        s.2.2.count .Unlock == 0 && s.2.2.count .relock == 1
    | .Update _ _ => lockHeld s.1 && s.1.count .Unlock == 1 && s.1.count .relock == 1
    | _ => true

/-- Every call list of the piece, whatever was called before and whatever the
collaborators answer, is one of `S`. -/
def Calls.CallsIn {PBC RM M X Err α : Type} (x : Calls (Event PBC RM M X) Err α)
    (S : List (List Call)) : Prop :=
  ∀ before, callsOf x before ∈ S

/-- The call lists of a sequence: those of the first piece alone (it returned
an error) and those of the first followed by those of the second. -/
def seqCalls (S T : List (List Call)) : List (List Call) :=
  S ++ S.flatMap fun s => T.map fun t => s ++ t

/-- Every call list of a run of the piece that returns without error is one
of `S`. -/
def Calls.OkCallsIn {PBC RM M X Err α : Type} (x : Calls (Event PBC RM M X) Err α)
    (S : List (List Call)) : Prop :=
  ∀ before b, (x before).2 = .ok b → callsOf x before ∈ S

/-- The call lists of a sequence of two pieces that both return without
error. -/
def thenCalls (S T : List (List Call)) : List (List Call) :=
  S.flatMap fun s => T.map fun t => s ++ t

/-- The calls of a reseal that is carried out in full with a TPM sealing
method, up to the reading of the stored parameters by `doReseal`; `runFile`
and `recoveryFile` are the two boot-chains files. -/
def fullResealCalls (runFile recoveryFile : String) : List Call :=
  [.IsResealNeeded runFile, .SealKeyModelParams, .SealKeyModelParams, .Unlock,
   .BuildPCRProtectionProfile, .BuildPCRProtectionProfile, .relock,
   .Update "run+recover" "all", .Update "run" "all", .WriteBootChains runFile,
   .IsResealNeeded recoveryFile, .SealKeyModelParams, .Unlock, .BuildPCRProtectionProfile,
   .relock, .Update "recover" "system-save", .WriteBootChains recoveryFile,
   .Get "run+recover" "all", .Get "recover" "system-save"]

/-- The latest parameters that the calls on record have given to
`manager.Update` for a role. -/
def lastUpdate {PBC RM M X : Type} (role containerRole : String) :
    List (Event PBC RM M X) → Option (SealingParameters M)
  | [] => none
  | e :: rest =>
    match lastUpdate role containerRole rest with
    | some p => some p
    | none =>
      match e with
      | .update r c p => if r = role ∧ c = containerRole then some p else none
      | _ => none

/-- A system for the examples, with boot chains that are unchanged
(`IsResealNeeded` answers false) and collaborators that all succeed; boot
chains and models are names.  The manager starts with the parameters `stored`
for every role and afterwards answers `Get` with the latest `Update`. -/
def exampleEnv (stored : Option (SealingParameters String)) :
    Env String (List String) Unit String Unit String where
  IsResealNeeded := fun _ _ _ _ => .ok (false, 1)
  BuildPCRProtectionProfile := fun _ modelParams => .ok (modelParams.map fun _ => 7)
  SealKeyModelParams := fun _ pbc _ => .ok (pbc.map fun bc => ⟨bc, [], ()⟩)
  Update := fun _ _ _ _ => none
  Get := fun before role containerRole =>
    match lastUpdate role containerRole before with
    | some p => .ok (some p)
    | none => .ok stored
  WriteBootChains := fun _ _ _ _ => none
  ResealKeys := fun _ _ => none
  ResealKeysWithFDESetupHook := fun _ _ _ _ => none
  ToPredictableBootChains := fun bootChains => bootChains
  ModelForSealing := fun bc => bc
  modelMethods := fun m => ⟨"canonical", "key", m, false, "secured", "16"⟩
  rangeModels := fun ms => ms
  BootChainsFileUnder := fun rootdir => rootdir ++ "/boot-chains"
  RecoveryBootChainsFileUnder := fun rootdir => rootdir ++ "/recovery-boot-chains"
  DataSealedKey := "/run/ubuntu-data.sealed-key"
  FallbackDataSealedKey := "/seed/ubuntu-data.recovery.sealed-key"
  FallbackSaveSealedKey := "/seed/ubuntu-save.recovery.sealed-key"
  primaryKeyFile := "/save/aux-key"
  authKeyFile := fun rootdir => rootdir ++ "/save/tpm-policy-auth-key"

/-- The system of the examples, but the second PCR profile build fails. -/
def failingBuildEnv : Env String (List String) Unit String Unit String :=
  { exampleEnv none with
    BuildPCRProtectionProfile := fun before modelParams =>
      if before.any (fun e => e.call = .BuildPCRProtectionProfile) then
        .error "cannot build profile"
      else .ok (modelParams.map fun _ => 7) }

/-- Boot chains for the examples. -/
def exampleParams : ResealKeyForBootChainsParams String Unit where
  RunModeBootChains := ["run-chain"]
  RecoveryBootChainsForRunKey := ["recovery-chain"]
  RecoveryBootChains := ["recovery-chain"]
  RoleToBlName := ()

/-- Sealing parameters that a manager has stored after an earlier reseal. -/
def storedParams : SealingParameters String where
  BootModes := ["run", "recover"]
  Models := ["run-chain"]
  TpmPCRProfile := [7]

end Fdestate

namespace Snapstate

open Overlord

/-- Every task of the TaskSet is in exactly the one lane `lane`, by
`Task.Lanes()`. -/
def LanesAt (st : State) (ts : TaskSet) (lane : Nat) : Prop :=
  ∀ id ∈ ts, ∃ t, st.tasks[id]? = some t ∧ t.Lanes = [lane]

/-- What `Task.Lanes()` answers for the tasks of a TaskSet, in order. -/
def taskSetLanes (st : State) (ts : TaskSet) : List (List Nat) :=
  ts.map fun id => ((st.tasks[id]?).map Task.Lanes).getD []

/-- The state of `TestInstallManyTransactionalWithLane`
(snapstate_install_test.go:6158) after `s.state.NewLane()`: seeded, nothing
installed, one lane allocated. -/
def oneLaneState : State :=
  seededState.NewLane.1

end Snapstate

/-! ## Part 2: theorems -/

namespace Ifacestate

theorem anyExclusiveRunning_iff (m : KindSet) (running : List Task) :
    anyExclusiveRunning m running = true ↔ ∃ r ∈ running, lookup m r.kind = true := by
  induction running with
  | nil => simp [anyExclusiveRunning]
  | cons r rest ih =>
    unfold anyExclusiveRunning
    by_cases h : lookup m r.kind = true
    · simp [h]
    · simp [h, ih]

/-- The kinds that are exclusive when `Manager` returns. -/
theorem exclusiveTaskKinds_eq :
    exclusiveTaskKinds =
      ["connect", "disconnect", "setup-profiles", "remove-profiles", "discard-conns",
       "auto-connect", "auto-disconnect", "hotplug-add-slot", "hotplug-connect",
       "hotplug-update-slot", "hotplug-remove-slot", "hotplug-disconnect",
       "regenerate-security-profiles", "mark-preseeded", "transition-ubuntu-core"] := by
  decide

/-- C1: the blocked predicate registered by `ifacestate.Manager` returns true
for a candidate task and a list of running tasks exactly when the candidate's
kind is exclusive and some running task has an exclusive kind; in every other
case (non-exclusive candidate, no exclusive running task, empty running list)
it returns false. -/
theorem blocked_true_iff (t : Task) (running : List Task) :
    (blocked t running = true ↔
      (lookup exclusiveTaskKinds t.kind = true ∧
        ∃ r ∈ running, lookup exclusiveTaskKinds r.kind = true)) ∧
    (blocked t running = false ↔
      (lookup exclusiveTaskKinds t.kind = false ∨
        ∀ r ∈ running, lookup exclusiveTaskKinds r.kind = false)) ∧
    blocked t [] = false := by
  have key : blocked t running = true ↔
      (lookup exclusiveTaskKinds t.kind = true ∧
        ∃ r ∈ running, lookup exclusiveTaskKinds r.kind = true) := by
    unfold blocked blockedWith
    by_cases h : lookup exclusiveTaskKinds t.kind = true
    · simp [h, anyExclusiveRunning_iff]
    · simp [h]
  refine ⟨key, ?_, ?_⟩
  · constructor
    · intro hb
      by_cases h : lookup exclusiveTaskKinds t.kind = true
      · right
        intro r hr
        by_contra hne
        have : blocked t running = true := key.mpr ⟨h, r, hr, by simpa using hne⟩
        simp [hb] at this
      · left
        simpa using h
    · intro h
      by_contra hb
      have hb2 : blocked t running = true := by simpa using hb
      obtain ⟨h1, r, hr, h2⟩ := key.mp hb2
      rcases h with h | h
      · simp [h1] at h
      · have := h r hr
        simp [h2] at this
  · unfold blocked blockedWith
    by_cases h : lookup exclusiveTaskKinds t.kind = true <;> simp [h, anyExclusiveRunning]

end Ifacestate

namespace Overlord

theorem Data.get_set (d : Data) (key : String) (raw : Raw) :
    (d.set key raw).get key = some raw := by
  simp [Data.set, Data.get, List.lookup]

theorem Data.get_unset (d : Data) (key : String) :
    (d.unset key).get key = none := by
  simp only [Data.unset, Data.get]
  induction d with
  | nil => rfl
  | cons kv rest ih =>
    obtain ⟨k, r⟩ := kv
    by_cases h : k = key
    · subst h
      simpa [List.filter_cons] using ih
    · have h2 : (key == k) = false := by
        simpa using fun h3 : key = k => h h3.symm
      simp only [List.filter_cons, bne_iff_ne, ne_eq, h, not_false_eq_true, ↓reduceIte,
        List.lookup_cons, h2]
      exact ih

theorem Data.getAs_setAs {α : Type} (c : Codec α) (d : Data) (key : String) (v : α) :
    (d.setAs c key v).getAs c key = .ok v := by
  simp [Data.setAs, Data.getAs, Data.get_set, c.roundtrip]

theorem Data.getAs_of_get_none {α : Type} (c : Codec α) (d : Data) (key : String)
    (h : d.get key = none) : d.getAs c key = .error (.noState key) := by
  simp [Data.getAs, h]

/-- C9: on a Task, a Change and the State alike, `Set(key, v)` followed by
`Get(key, &out)` yields `out == v` for every serialisable value, and `Get` of
a key that was never set (or was unset) fails with the no-state error, whose
message is `no state entry for key "<key>"`, never answering a value. -/
theorem set_get_roundtrip {α : Type} (c : Codec α) (key : String) (v : α)
    (t : Task) (chg : Change) (st : State) :
    (t.set c key v).get c key = .ok v ∧
    (chg.set c key v).get c key = .ok v ∧
    (st.set c key v).get c key = .ok v ∧
    (t.data.get key = none → t.get c key = .error (.noState key)) ∧
    (chg.data.get key = none → chg.get c key = .error (.noState key)) ∧
    (st.data.get key = none → st.get c key = .error (.noState key)) ∧
    (st.unset key).get c key = .error (.noState key) ∧
    (Error.noState key).message = "no state entry for key \"" ++ key ++ "\"" ∧
    (Error.noState key).isNoState = true := by
  refine ⟨?_, ?_, ?_, ?_, ?_, ?_, ?_, ?_, rfl⟩
  · exact Data.getAs_setAs c t.data key v
  · exact Data.getAs_setAs c chg.data key v
  · exact Data.getAs_setAs c st.data key v
  · exact Data.getAs_of_get_none c t.data key
  · exact Data.getAs_of_get_none c chg.data key
  · exact Data.getAs_of_get_none c st.data key
  · exact Data.getAs_of_get_none c _ key (Data.get_unset st.data key)
  · show "no state entry for key " ++ ("\"" ++ key ++ "\"") = _
    rw [← String.append_assoc, ← String.append_assoc]
    rfl

/-- Witness of C9 on the empty store: "seeded" set to true reads back true,
and the unset key "restart-boundary" yields the no-state error. -/
theorem set_get_roundtrip_witness :
    (State.empty.set boolCodec "seeded" true).get boolCodec "seeded" = .ok true ∧
    State.empty.data.get "restart-boundary" = none ∧
    State.empty.get boolCodec "restart-boundary" = .error (.noState "restart-boundary") :=
  ⟨(set_get_roundtrip boolCodec "seeded" true
      { kind := "link-snap", summary := "", status := .Do, waitTasks := [], lanes := [],
        atTime := 0, data := [], log := [], change := none }
      { kind := "install", summary := "", data := [] } State.empty).2.2.1,
   rfl,
   (set_get_roundtrip boolCodec "restart-boundary" true
      { kind := "link-snap", summary := "", status := .Do, waitTasks := [], lanes := [],
        atTime := 0, data := [], log := [], change := none }
      { kind := "install", summary := "", data := [] } State.empty).2.2.2.2.2.1 rfl⟩

end Overlord

namespace Snapstate

open Overlord

theorem DevicePastSeeding_unseeded (env : Env) (st : State)
    (h : st.data.get "seeded" = none) :
    ∃ e, DevicePastSeeding env st = .error (.changeConflict e) ∧ e.Error = tooEarly := by
  have hget : st.get boolCodec "seeded" = .error (.noState "seeded") :=
    Data.getAs_of_get_none boolCodec st.data "seeded" h
  unfold DevicePastSeeding
  rw [hget]
  cases env.deviceModel with
  | none => exact ⟨_, rfl, by decide⟩
  | some m => exact ⟨_, rfl, by decide⟩

theorem transactionLane_data (st : State) (flags : Flags) :
    (transactionLane st flags).1.data = st.data := by
  unfold transactionLane
  split
  · split <;> rfl
  · rfl

theorem transactionLane_tasks (st : State) (flags : Flags) :
    (transactionLane st flags).1.tasks = st.tasks := by
  unfold transactionLane
  split
  · split <;> rfl
  · rfl

/-- C10: with the state key "seeded" unset, `snapstate.Install` and
`snapstate.InstallMany` (and their from-file variants) fail with an error
that is a `ChangeConflictError` and whose message is `too early for
operation, device not yet seeded or device model not acknowledged`; no task is
added. -/
theorem install_too_early (env : Env) (st : State) (name : String) (names : List String)
    (flags : Flags) (fromFile : Bool)
    (hseeded : st.data.get "seeded" = none)
    (hflags : flags.lane = 0 ∨ flags.transaction = .allSnaps) :
    (∃ e, (installOne env st name fromFile).2 = .error e ∧ e.isChangeConflict = true ∧
        e.Error = tooEarly ∧ (installOne env st name fromFile).1 = st) ∧
    (∃ e, (installMany env st names flags fromFile).2 = .error e ∧ e.isChangeConflict = true ∧
        e.Error = tooEarly ∧ (installMany env st names flags fromFile).1.tasks = st.tasks) := by
  constructor
  · obtain ⟨e, he, hmsg⟩ := DevicePastSeeding_unseeded env st hseeded
    refine ⟨.changeConflict e, ?_, rfl, hmsg, ?_⟩ <;> simp [installOne, he]
  · have hl : ¬ (¬ flags.lane = 0 ∧ ¬ flags.transaction = .allSnaps) := by
      rcases hflags with h | h <;> simp [h]
    obtain ⟨e, he, hmsg⟩ := DevicePastSeeding_unseeded env (transactionLane st flags).1
      (by rw [transactionLane_data]; exact hseeded)
    refine ⟨.changeConflict e, ?_, rfl, hmsg, ?_⟩
    · simp [installMany, hl, installManyFrom, he]
    · simp [installMany, hl, installManyFrom, he, transactionLane_tasks]

/-- Witness of C10: `TestInstallTooEarly` and `TestInstallManyTooEarly` on the
store with "seeded" unset. -/
theorem install_too_early_witness :
    State.empty.data.get "seeded" = none ∧
    (∃ e, (installOne testEnv State.empty "some-snap" false).2 = .error e ∧
        e.isChangeConflict = true ∧ e.Error = tooEarly ∧
        (installOne testEnv State.empty "some-snap" false).1 = State.empty) ∧
    (∃ e, (installMany testEnv State.empty ["one", "two"] {} false).2 = .error e ∧
        e.isChangeConflict = true ∧ e.Error = tooEarly ∧
        (installMany testEnv State.empty ["one", "two"] {} false).1.tasks = State.empty.tasks) :=
  ⟨rfl, install_too_early testEnv State.empty "some-snap" ["one", "two"] {} false rfl
    (Or.inl rfl)⟩

theorem conflictAt_some (st : State) (names : List String) (t : Task) (e : ChangeConflictError)
    (h : conflictAt st names t = some e) :
    ∃ chg, t.change = some chg ∧ st.IsReady chg = false ∧ e.snap ∈ affectedSnaps t ∧
      e.snap ∈ names ∧ e.message = "" ∧
      e.changeKind = ((st.changes[chg]?).map (·.kind)).getD "" := by
  unfold conflictAt at h
  split at h
  · exact absurd h (by simp)
  · rename_i chg hc
    split at h
    · exact absurd h (by simp)
    · rename_i hr
      split at h
      · exact absurd h (by simp)
      · rename_i n hf
        simp only [Option.some.injEq] at h
        subst h
        have hmem := List.mem_of_find?_eq_some hf
        have hp := List.find?_some hf
        exact ⟨chg, hc, by simpa using hr, hmem, by simpa using hp, rfl, rfl⟩

theorem conflictAt_isSome (st : State) (name : String) (t : Task) (chg : Nat)
    (hc : t.change = some chg) (hr : st.IsReady chg = false) (ha : name ∈ affectedSnaps t) :
    (conflictAt st [name] t).isSome = true := by
  unfold conflictAt
  simp only [hc, hr, Bool.false_eq_true, ↓reduceIte]
  cases hf : (affectedSnaps t).find? fun n => [name].contains n with
  | none =>
    have := List.find?_eq_none.mp hf name ha
    simp at this
  | some n => rfl

set_option maxRecDepth 100000 in
/-- C2 (as stated, refuted): three states in which install tasks of
"some-snap" are part of a change "install" in flight, the conflict check
finding them, and `snapstate.Install` of "some-snap" fails with another error,
because its earlier admission checks answer first.  With "link-snap" of the
install in flight done, the snap is in the state and the error is "already
installed", which is no `ChangeConflictError`.  On a device that is not seeded
the error is the conflict error "too early for operation", with another
message.  With the install in flight made from a file and a store that does
not know the snap, the error is "not found".  No task is added in any of
them. -/
theorem install_conflict_counterexample :
    ((CheckChangeConflictMany installLinked ["some-snap"]).isSome = true ∧
      installLinked.IsReady 0 = false ∧
      (Install testEnv installLinked "some-snap").2 = .error (.alreadyInstalled "some-snap") ∧
      (InstallError.alreadyInstalled "some-snap").isChangeConflict = false ∧
      (InstallError.alreadyInstalled "some-snap").Error
        = "snap \"some-snap\" is already installed" ∧
      (Install testEnv installLinked "some-snap").1 = installLinked) ∧
    ((CheckChangeConflictMany installInFlightUnseeded ["some-snap"]).isSome = true ∧
      installInFlightUnseeded.IsReady 0 = false ∧
      (∃ e, (Install testEnv installInFlightUnseeded "some-snap").2 = .error e ∧
        e.Error = tooEarly ∧
        e.Error ≠ "snap \"some-snap\" has \"install\" change in progress") ∧
      (Install testEnv installInFlightUnseeded "some-snap").1 = installInFlightUnseeded) ∧
    ((CheckChangeConflictMany installPathInFlight ["some-snap"]).isSome = true ∧
      installPathInFlight.IsReady 0 = false ∧
      (Install emptyStoreEnv installPathInFlight "some-snap").2
        = .error (.snapNotFound "some-snap") ∧
      (InstallError.snapNotFound "some-snap").isChangeConflict = false ∧
      (Install emptyStoreEnv installPathInFlight "some-snap").1 = installPathInFlight) := by
  refine ⟨⟨by decide, by decide, rfl, rfl, by decide, rfl⟩,
    ⟨by decide, by decide, ⟨_, rfl, by decide, by decide⟩, rfl⟩,
    ⟨by decide, by decide, rfl, rfl, rfl⟩⟩

/-- C2 (amended): for every snap name, when install tasks for the snap are
part of a change of kind "install" that is in flight (not ready), the device
is seeded with its model acknowledged and, for an install from the store, the
snap is not yet in the state and the store offers it, `snapstate.Install` and
`snapstate.InstallPath` for that snap fail at once with a
`ChangeConflictError` whose message is `snap "<name>" has "install" change in
progress`, and the state, its tasks included, is left as it was. -/
theorem install_conflict (env : Env) (st : State) (name : String) (fromFile : Bool)
    (model : String)
    (hpast : DevicePastSeeding env st = .ok model)
    (hnew : fromFile = true ∨ isInstalled st name = false)
    (hstore : fromFile = true ∨ (env.store name).isSome = true)
    (hinflight : ∃ t ∈ st.tasks, ∃ chg, t.change = some chg ∧ st.IsReady chg = false ∧
      name ∈ affectedSnaps t)
    (hkind : ∀ t ∈ st.tasks, ∀ chg, t.change = some chg → st.IsReady chg = false →
      name ∈ affectedSnaps t → (st.changes[chg]?).map (·.kind) = some "install") :
    ∃ e, installOne env st name fromFile = (st, .error (.changeConflict e)) ∧
      (InstallError.changeConflict e).isChangeConflict = true ∧
      e.Error = "snap \"" ++ name ++ "\" has \"install\" change in progress" ∧
      (installOne env st name fromFile).1.tasks = st.tasks := by
  obtain ⟨t, ht, chg, hc, hr, ha⟩ := hinflight
  have hsome : (CheckChangeConflictMany st [name]).isSome = true := by
    unfold CheckChangeConflictMany
    rw [List.findSome?_isSome_iff]
    exact ⟨t, ht, conflictAt_isSome st name t chg hc hr ha⟩
  obtain ⟨e, he⟩ := Option.isSome_iff_exists.mp hsome
  have hst : ¬ (!fromFile && (env.store name).isNone) = true := by
    rcases hstore with h | h
    · simp [h]
    · cases hs : env.store name with
      | none => simp [hs] at h
      | some r => simp
  have hnw : ¬ (!fromFile && isInstalled st name) = true := by
    rcases hnew with h | h <;> simp [h]
  have hrun : installOne env st name fromFile = (st, .error (.changeConflict e)) := by
    unfold installOne
    simp only [hpast, hnw, Bool.false_eq_true, ↓reduceIte, hst, he]
  refine ⟨e, hrun, rfl, ?_, by rw [hrun]⟩
  obtain ⟨t2, ht2, h2⟩ := List.exists_of_findSome?_eq_some he
  obtain ⟨chg2, hc2, hr2, ha2, hn2, hm2, hk2⟩ := conflictAt_some st [name] t2 e h2
  have hsnap : e.snap = name := by simpa using hn2
  have hkind2 := hkind t2 ht2 chg2 hc2 hr2 (hsnap ▸ ha2)
  have hk : e.changeKind = "install" := by rw [hk2, hkind2]; rfl
  unfold ChangeConflictError.Error
  rw [hm2, hk, hsnap]
  simp only [ne_eq, not_true_eq_false, ↓reduceIte]
  show (if ¬ ("install" = "") then _ else _) = _
  rw [if_pos (by decide)]
  unfold quote
  simp only [String.append_assoc]
  rfl

/-- Witness of C2 (amended): `TestInstallConflict`, the second `Install` of
"some-snap" while the first one is in flight. -/
theorem install_conflict_witness :
    ∃ e, installOne testEnv installInFlight "some-snap" false
        = (installInFlight, .error (.changeConflict e)) ∧
      (InstallError.changeConflict e).isChangeConflict = true ∧
      e.Error = "snap \"some-snap\" has \"install\" change in progress" ∧
      (installOne testEnv installInFlight "some-snap" false).1.tasks = installInFlight.tasks :=
  install_conflict testEnv installInFlight "some-snap" false "my-model" rfl (Or.inr rfl)
    (Or.inr rfl)
    ⟨_, List.mem_of_mem_head? (show installInFlight.tasks.head? = some _ from rfl), 0,
      rfl, by decide, by decide⟩
    (fun t ht chg hc _ _ => by
      have hall : ∀ t ∈ installInFlight.tasks, t.change = some 0 := by decide
      have h0 : chg = 0 := by
        have := hall t ht
        rw [hc] at this
        exact Option.some.inj this
      subst h0
      decide)

end Snapstate

namespace Boot

/-- A run in which no write fails and the two reseal calls succeed. -/
theorem DeviceChange_completes (env : Env) (fromDev toDev : Device) (w : World)
    (hsealed : w.sealedKeys = true) (hm : toDev.hasModeenv = true)
    (hw : ∀ n, env.writeModel n = none) (hwm : ∀ n, env.writeModeenv n = none)
    (h1 : env.reseal (w.resealCalls + 1) = .ok)
    (h2 : env.reseal (w.resealCalls + 1 + 1) = .ok) :
    (DeviceChange env fromDev toDev w).2 = .returned none ∧
    (DeviceChange env fromDev toDev w).1.resealCalls = w.resealCalls + 2 ∧
    (DeviceChange env fromDev toDev w).1.modeenv = ⟨toDev.model, noModel⟩ ∧
    (DeviceChange env fromDev toDev w).1.modelFile = toDev.model := by
  unfold DeviceChange
  cases hmod : (prepareModeenv w.modeenv fromDev.model toDev.model).2 <;>
    simp [hm, hmod, Modeenv.Write, hwm, resealKeyToModeenv, hsealed, h1, h2, commitNewModel,
      writeModelToUbuntuBoot, hw, Modeenv.setModel, Modeenv.clearTryModel]

/-- A run aborted inside the first reseal call. -/
theorem DeviceChange_abort_first (env : Env) (fromDev toDev : Device) (w : World) (msg : String)
    (hsealed : w.sealedKeys = true) (hm : toDev.hasModeenv = true)
    (hwm : ∀ n, env.writeModeenv n = none)
    (h1 : env.reseal (w.resealCalls + 1) = .panic msg) :
    (DeviceChange env fromDev toDev w).2 = .aborted msg ∧
    (DeviceChange env fromDev toDev w).1.resealCalls = w.resealCalls + 1 ∧
    (DeviceChange env fromDev toDev w).1.sealedKeys = true := by
  unfold DeviceChange
  cases hmod : (prepareModeenv w.modeenv fromDev.model toDev.model).2 <;>
    simp [hm, hmod, Modeenv.Write, hwm, resealKeyToModeenv, hsealed, h1]

/-- A run aborted inside the second reseal call. -/
theorem DeviceChange_abort_second (env : Env) (fromDev toDev : Device) (w : World)
    (msg : String)
    (hsealed : w.sealedKeys = true) (hm : toDev.hasModeenv = true)
    (hw : ∀ n, env.writeModel n = none) (hwm : ∀ n, env.writeModeenv n = none)
    (h1 : env.reseal (w.resealCalls + 1) = .ok)
    (h2 : env.reseal (w.resealCalls + 1 + 1) = .panic msg) :
    (DeviceChange env fromDev toDev w).2 = .aborted msg ∧
    (DeviceChange env fromDev toDev w).1.resealCalls = w.resealCalls + 2 ∧
    (DeviceChange env fromDev toDev w).1.sealedKeys = true := by
  unfold DeviceChange
  cases hmod : (prepareModeenv w.modeenv fromDev.model toDev.model).2 <;>
    simp [hm, hmod, Modeenv.Write, hwm, resealKeyToModeenv, hsealed, h1, h2, commitNewModel,
      writeModelToUbuntuBoot, hw]

/-- C7: `boot.DeviceChange` is resumable after an abort inside a reseal call.
On a system with sealed keys where no write fails, if the process is aborted
during the first (`k = 1`) or the second (`k = 2`) reseal call of a run, then
running `DeviceChange` again with the same old and new device returns no error
after exactly 2 more reseal calls, and ends with the new model alone current
for sealing, the try model cleared in the modeenv and the new model in the
ubuntu-boot model file. -/
theorem deviceChange_resumable (env : Env) (fromDev toDev : Device) (w : World) (k : Nat)
    (msg : String)
    (hk : k = 1 ∨ k = 2)
    (hsealed : w.sealedKeys = true) (hm : toDev.hasModeenv = true)
    (hw : ∀ n, env.writeModel n = none) (hwm : ∀ n, env.writeModeenv n = none)
    (hpanic : env.reseal (w.resealCalls + k) = .panic msg)
    (hothers : ∀ n, n ≠ w.resealCalls + k → env.reseal n = .ok) :
    (DeviceChange env fromDev toDev w).2 = .aborted msg ∧
    (DeviceChange env fromDev toDev w).1.resealCalls = w.resealCalls + k ∧
    (DeviceChange env fromDev toDev (DeviceChange env fromDev toDev w).1).2 = .returned none ∧
    (DeviceChange env fromDev toDev (DeviceChange env fromDev toDev w).1).1.resealCalls
      = w.resealCalls + k + 2 ∧
    (DeviceChange env fromDev toDev (DeviceChange env fromDev toDev w).1).1.modeenv.model
      = toDev.model ∧
    (DeviceChange env fromDev toDev (DeviceChange env fromDev toDev w).1).1.modeenv.tryModel
      = noModel ∧
    modelsForSealing (DeviceChange env fromDev toDev (DeviceChange env fromDev toDev w).1).1.modeenv
      = [modelUniqueID toDev.model] ∧
    (DeviceChange env fromDev toDev (DeviceChange env fromDev toDev w).1).1.modelFile
      = toDev.model := by
  have hfirst : (DeviceChange env fromDev toDev w).2 = .aborted msg ∧
      (DeviceChange env fromDev toDev w).1.resealCalls = w.resealCalls + k ∧
      (DeviceChange env fromDev toDev w).1.sealedKeys = true := by
    rcases hk with rfl | rfl
    · exact DeviceChange_abort_first env fromDev toDev w msg hsealed hm hwm hpanic
    · exact DeviceChange_abort_second env fromDev toDev w msg hsealed hm hw hwm
        (hothers _ (by omega)) hpanic
  obtain ⟨ha, hc, hs⟩ := hfirst
  have hsecond := DeviceChange_completes env fromDev toDev (DeviceChange env fromDev toDev w).1
    hs hm hw hwm (hothers _ (by omega)) (hothers _ (by omega))
  obtain ⟨hr, hcalls, hmodeenv, hfile⟩ := hsecond
  refine ⟨ha, hc, hr, by rw [hcalls, hc], by rw [hmodeenv], by rw [hmodeenv], ?_, hfile⟩
  rw [hmodeenv]
  simp [modelsForSealing]

/-- C8: when the first (`k = 1`) or the second (`k = 2`) reseal call of
`boot.DeviceChange` returns an error, on a system with sealed keys that runs
the old model and where no write fails, `DeviceChange` returns that error,
makes no further reseal call (the first call was for the old and the new
model, the second for the new model only) and restores the prior durable
state: the ubuntu-boot model file holds the old model, the modeenv has the old
model current and the try model cleared. -/
theorem deviceChange_reseal_error (env : Env) (fromDev toDev : Device) (w : World) (k : Nat)
    (err : String)
    (hk : k = 1 ∨ k = 2)
    (hsealed : w.sealedKeys = true) (hm : toDev.hasModeenv = true)
    (hreal : modelUniqueID toDev.model ≠ modelUniqueID noModel)
    (hprior : w.modeenv = ⟨fromDev.model, noModel⟩) (hfile : w.modelFile = fromDev.model)
    (hw : ∀ n, env.writeModel n = none) (hwm : ∀ n, env.writeModeenv n = none)
    (herr : env.reseal (w.resealCalls + k) = .error err)
    (hbefore : ∀ n, n < w.resealCalls + k → env.reseal n = .ok) :
    (DeviceChange env fromDev toDev w).2 = .returned (some err) ∧
    (DeviceChange env fromDev toDev w).1.resealCalls = w.resealCalls + k ∧
    (DeviceChange env fromDev toDev w).1.resealLog = w.resealLog ++
      (if k = 1 then [[modelUniqueID fromDev.model, modelUniqueID toDev.model]]
       else [[modelUniqueID fromDev.model, modelUniqueID toDev.model],
             [modelUniqueID toDev.model]]) ∧
    (DeviceChange env fromDev toDev w).1.modelFile = fromDev.model ∧
    (DeviceChange env fromDev toDev w).1.modeenv.model = fromDev.model ∧
    (DeviceChange env fromDev toDev w).1.modeenv.tryModel = noModel ∧
    (DeviceChange env fromDev toDev w).1.modeenv = w.modeenv := by
  have hreal2 : ¬ modelUniqueID noModel = modelUniqueID toDev.model := fun h => hreal h.symm
  have hprep : (prepareModeenv w.modeenv fromDev.model toDev.model)
      = (⟨fromDev.model, toDev.model⟩, true) := by
    simp [prepareModeenv, hprior, Modeenv.setTryModel, Modeenv.setModel, hreal2]
  have hprep2 := hprep
  rw [hprior] at hprep2
  rcases hk with rfl | rfl
  · unfold DeviceChange
    simp [hm, hprep, hprep2, Modeenv.Write, hwm, resealKeyToModeenv, hsealed, herr,
      Modeenv.clearTryModel, hfile, hprior, modelsForSealing, hreal]
  · have h1 : env.reseal (w.resealCalls + 1) = .ok := hbefore _ (by omega)
    unfold DeviceChange
    simp [hm, hprep, hprep2, Modeenv.Write, hwm, resealKeyToModeenv, hsealed, herr, h1,
      commitNewModel, writeModelToUbuntuBoot, hw, restoreAfterSecondReseal,
      Modeenv.clearTryModel, Modeenv.setModel, Modeenv.setTryModel, hprior, modelsForSealing,
      hreal]

/-- Witness of C7: `TestDeviceChangeRebootBeforeNewModel`, a mock reboot
inside the first reseal call and the second run of `DeviceChange`. -/
theorem deviceChange_resumable_witness :
    (DeviceChange rebootInFirstReseal oldUc20dev newUc20dev initialWorld).2
      = .aborted "mock reboot after first complete reseal" ∧
    (DeviceChange rebootInFirstReseal oldUc20dev newUc20dev
      (DeviceChange rebootInFirstReseal oldUc20dev newUc20dev initialWorld).1).2
      = .returned none ∧
    (DeviceChange rebootInFirstReseal oldUc20dev newUc20dev
      (DeviceChange rebootInFirstReseal oldUc20dev newUc20dev initialWorld).1).1.resealCalls
      = 3 :=
  have h := deviceChange_resumable rebootInFirstReseal oldUc20dev newUc20dev initialWorld 1
    "mock reboot after first complete reseal" (Or.inl rfl) rfl rfl (fun _ => rfl)
    (fun _ => rfl) rfl (fun _ hn => if_neg hn)
  ⟨h.1, h.2.2.1, h.2.2.2.1⟩

/-- Witness of C8: `TestDeviceChangeUnhappySecondReseal`, the second reseal
call fails. -/
theorem deviceChange_reseal_error_witness :
    (DeviceChange failSecondReseal oldUc20dev newUc20dev initialWorld).2
      = .returned (some "fail on second try") ∧
    (DeviceChange failSecondReseal oldUc20dev newUc20dev initialWorld).1.resealCalls = 2 ∧
    (DeviceChange failSecondReseal oldUc20dev newUc20dev initialWorld).1.modelFile
      = oldUc20dev.model ∧
    (DeviceChange failSecondReseal oldUc20dev newUc20dev initialWorld).1.modeenv
      = initialWorld.modeenv :=
  have h := deviceChange_reseal_error failSecondReseal oldUc20dev newUc20dev initialWorld 2
    "fail on second try" (Or.inr rfl) rfl rfl (by decide) rfl rfl (fun _ => rfl) (fun _ => rfl)
    rfl (fun _ hn => if_neg (Nat.ne_of_lt (show _ < 2 from hn)))
  ⟨h.1, h.2.1, h.2.2.2.1, h.2.2.2.2.2.2⟩

end Boot

namespace Overlord

variable {W : Type}

theorem step_eq_some {r : TaskRunner W} {s s1 : System W} {e : Event}
    (h : step r s e = some s1) :
    enabled r s e = true ∧ s1.st.tasks = s.st.tasks.mapIdx (updTask s.st e) ∧
      s1.st.changes = s.st.changes := by
  unfold step at h
  split at h
  · rename_i hen
    simp only [Option.some.injEq] at h
    subst h
    exact ⟨hen, rfl, rfl⟩
  · exact absurd h (by simp)

theorem updTask_waitTasks (st : State) (e : Event) (i : Nat) (t : Task) :
    (updTask st e i t).waitTasks = t.waitTasks := by
  unfold updTask
  split <;> (try split) <;> (try split) <;> (try split) <;> rfl

theorem updTask_lanes (st : State) (e : Event) (i : Nat) (t : Task) :
    (updTask st e i t).lanes = t.lanes := by
  unfold updTask
  split <;> (try split) <;> (try split) <;> (try split) <;> rfl

theorem updTask_change (st : State) (e : Event) (i : Nat) (t : Task) :
    (updTask st e i t).change = t.change := by
  unfold updTask
  split <;> (try split) <;> (try split) <;> (try split) <;> rfl

theorem updTask_kind (st : State) (e : Event) (i : Nat) (t : Task) :
    (updTask st e i t).kind = t.kind := by
  unfold updTask
  split <;> (try split) <;> (try split) <;> (try split) <;> rfl

theorem updTask_data (st : State) (e : Event) (i : Nat) (t : Task) :
    (updTask st e i t).data = t.data := by
  unfold updTask
  split <;> (try split) <;> (try split) <;> (try split) <;> rfl

theorem step_getElem? {r : TaskRunner W} {s s1 : System W} {e : Event}
    (h : step r s e = some s1) (i : Nat) :
    s1.st.tasks[i]? = (s.st.tasks[i]?).map (updTask s.st e i) := by
  rw [(step_eq_some h).2.1, List.getElem?_mapIdx]

theorem step_statusOf {r : TaskRunner W} {s s1 : System W} {e : Event}
    (h : step r s e = some s1) (i : Nat) :
    s1.st.statusOf i = (s.st.tasks[i]?).map fun t => (updTask s.st e i t).status := by
  simp only [State.statusOf, step_getElem? h, Option.map_map]
  rfl

theorem run_append (r : TaskRunner W) (s : System W) (es fs : List Event) :
    run r s (es ++ fs) = (run r s es).bind fun s1 => run r s1 fs := by
  induction es generalizing s with
  | nil => rfl
  | cons e es ih =>
    simp only [List.cons_append, run]
    cases step r s e with
    | none => rfl
    | some s1 => exact ih s1

theorem run_snoc {r : TaskRunner W} {s s2 : System W} {es : List Event} {e : Event}
    (h : run r s (es ++ [e]) = some s2) :
    ∃ s1, run r s es = some s1 ∧ step r s1 e = some s2 := by
  rw [run_append] at h
  cases h1 : run r s es with
  | none => simp [h1] at h
  | some s1 =>
    refine ⟨s1, rfl, ?_⟩
    simp only [h1, Option.some_bind, run] at h
    cases h2 : step r s1 e with
    | none => simp [h2] at h
    | some s3 => simpa [h2] using h

/-- The static part of a task (waits) is the same all along an execution. -/
theorem run_waitTasks {r : TaskRunner W} {s s1 : System W} {es : List Event}
    (h : run r s es = some s1) (i : Nat) :
    (s1.st.tasks[i]?).map (·.waitTasks) = (s.st.tasks[i]?).map (·.waitTasks) := by
  induction es generalizing s with
  | nil =>
    simp only [run, Option.some.injEq] at h
    subst h
    rfl
  | cons e es ih =>
    simp only [run] at h
    cases h2 : step r s e with
    | none => simp [h2] at h
    | some s2 =>
      rw [h2] at h
      rw [ih h, step_getElem? h2]
      cases s.st.tasks[i]? with
      | none => rfl
      | some t => simp [updTask_waitTasks]

/-- A task that is not the one of the event and is waiting (`Do`) or held
stays waiting or held. -/
theorem step_keeps_waiting {r : TaskRunner W} {s s1 : System W} {e : Event}
    (h : step r s e = some s1) (b : Nat) (hne : e ≠ .start b)
    (hb : s.st.statusOf b = some .Do ∨ s.st.statusOf b = some .Hold) :
    s1.st.statusOf b = some .Do ∨ s1.st.statusOf b = some .Hold := by
  have hen := (step_eq_some h).1
  rw [step_statusOf h]
  simp only [State.statusOf] at hb hen ⊢
  cases ht : s.st.tasks[b]? with
  | none => simp [ht] at hb
  | some t =>
    simp only [ht, Option.map_some', Option.some.injEq] at hb ⊢
    cases e with
    | start id =>
      have : b ≠ id := fun hc => hne (by rw [hc])
      simpa [updTask, this] using hb
    | doReturn id res =>
      by_cases hid : b = id
      · subst hid
        simp [enabled, State.statusOf, ht] at hen
        rcases hb with hb | hb <;> simp [hb] at hen
      · cases res with
        | ok => simpa [updTask, hid] using hb
        | retry after => simpa [updTask, hid] using hb
        | error msg =>
          simp only [updTask, hid, ↓reduceIte]
          split
          · split
            · rcases hb with hb | hb <;> simp [hb, abortStatus]
            · exact hb
          · exact hb
    | undoStart id =>
      by_cases hid : b = id
      · subst hid
        simp [enabled, State.statusOf, ht] at hen
        rcases hb with hb | hb <;> simp [hb] at hen
      · simpa [updTask, hid] using hb
    | undoReturn id err =>
      by_cases hid : b = id
      · subst hid
        simp [enabled, State.statusOf, ht] at hen
        rcases hb with hb | hb <;> simp [hb] at hen
      · cases err <;> simpa [updTask, hid] using hb
    | tick => simpa [updTask] using hb

/-- C5: for all tasks A and B where B waits on A, for every handler registry
and blocked predicate, every execution that begins with B still to be done
and reaches a state in which B is `Doing` has passed through an earlier state
in which A was `Done` while B was still `Do`: B never reaches `Doing` before
A has reached `Done`. -/
theorem waits_done_before_doing (r : TaskRunner W) (s0 s : System W) (trace : List Event)
    (a b : Nat) (tb : Task)
    (hb : s0.st.tasks[b]? = some tb) (hwait : a ∈ tb.waitTasks)
    (hinit : tb.status = .Do)
    (hrun : run r s0 trace = some s)
    (hdoing : s.st.statusOf b = some .Doing) :
    ∃ before after s1, trace = before ++ after ∧ run r s0 before = some s1 ∧
      s1.st.statusOf a = some .Done ∧ s1.st.statusOf b = some .Do := by
  have key : ∀ (trace : List Event) (s : System W), run r s0 trace = some s →
      (s.st.statusOf b = some .Do ∨ s.st.statusOf b = some .Hold) ∨
      ∃ before after s1, trace = before ++ after ∧ run r s0 before = some s1 ∧
        s1.st.statusOf a = some .Done ∧ s1.st.statusOf b = some .Do := by
    intro trace
    induction trace using List.reverseRecOn with
    | nil =>
      intro s hs
      simp only [run, Option.some.injEq] at hs
      subst hs
      left; left
      simp [State.statusOf, hb, hinit]
    | append_singleton es e ih =>
      intro s2 hs2
      obtain ⟨s1, hs1, hstep⟩ := run_snoc hs2
      rcases ih s1 hs1 with hw | ⟨before, after, s3, htr, hr3, ha, hb3⟩
      · by_cases he : e = .start b
        · subst he
          right
          refine ⟨es, [.start b], s1, rfl, hs1, ?_, ?_⟩
          · have hen := (step_eq_some hstep).1
            have hwt := run_waitTasks hs1 b
            simp only [hb, Option.map_some'] at hwt
            cases ht : s1.st.tasks[b]? with
            | none => simp [ht] at hwt
            | some t =>
              simp only [ht, Option.map_some', Option.some.injEq] at hwt
              simp only [enabled, ht, Bool.and_eq_true, State.waitsDone, List.all_eq_true,
                decide_eq_true_eq] at hen
              exact hen.1.1.2 a (hwt ▸ hwait)
          · have hen := (step_eq_some hstep).1
            cases ht : s1.st.tasks[b]? with
            | none => simp [enabled, ht] at hen
            | some t =>
              simp only [enabled, ht, Bool.and_eq_true, beq_iff_eq] at hen
              simp [State.statusOf, ht, hen.1.1.1.1.1]
        · left
          exact step_keeps_waiting hstep b he hw
      · right
        exact ⟨before, after ++ [e], s3, by rw [htr, List.append_assoc], hr3, ha, hb3⟩
  rcases key trace s hrun with hw | h
  · rcases hw with hw | hw <;> simp [hw] at hdoing
  · exact h

end Overlord

namespace Overlord

variable {W : Type}

theorem enabled_start {r : TaskRunner W} {s : System W} {id : Nat}
    (h : enabled r s (.start id) = true) :
    ∃ t, s.st.tasks[id]? = some t ∧ t.status = .Do ∧ t.change.isSome = true ∧
      (r.handlers t.kind).isSome = true ∧ s.st.waitsDone t = true ∧ t.atTime ≤ s.st.now ∧
      r.blocked t s.st.running = false := by
  unfold enabled at h
  cases ht : s.st.tasks[id]? with
  | none => simp [ht] at h
  | some t =>
    simp only [ht, Bool.and_eq_true, beq_iff_eq, decide_eq_true_eq, Bool.not_eq_true'] at h
    exact ⟨t, rfl, h.1.1.1.1.1, h.1.1.1.1.2, h.1.1.1.2, h.1.1.2, h.1.2, h.2⟩

theorem enabled_doReturn {r : TaskRunner W} {s : System W} {id : Nat} {res : HandlerResult}
    (h : enabled r s (.doReturn id res) = true) :
    ∃ t, s.st.tasks[id]? = some t ∧ t.status = .Doing := by
  simp only [enabled, State.statusOf, beq_iff_eq] at h
  cases ht : s.st.tasks[id]? with
  | none => simp [ht] at h
  | some t => exact ⟨t, rfl, by simpa [ht] using h⟩

theorem enabled_undoStart {r : TaskRunner W} {s : System W} {id : Nat}
    (h : enabled r s (.undoStart id) = true) :
    ∃ t, s.st.tasks[id]? = some t ∧ t.status = .Undo ∧ s.st.haltsSettled id = true := by
  simp only [enabled, State.statusOf, Bool.and_eq_true, beq_iff_eq] at h
  cases ht : s.st.tasks[id]? with
  | none => simp [ht] at h
  | some t => exact ⟨t, rfl, by simpa [ht] using h.1, h.2⟩

theorem enabled_undoReturn {r : TaskRunner W} {s : System W} {id : Nat} {err : Option String}
    (h : enabled r s (.undoReturn id err) = true) :
    ∃ t, s.st.tasks[id]? = some t ∧ t.status = .Undoing := by
  simp only [enabled, State.statusOf, beq_iff_eq] at h
  cases ht : s.st.tasks[id]? with
  | none => simp [ht] at h
  | some t => exact ⟨t, rfl, by simpa [ht] using h⟩

theorem abortStatus_backward (st : Status) (h : st ≠ .Wait) :
    (abortStatus st).backward = true := by
  cases st <;> simp_all [abortStatus, Status.backward]

/-- The direction of a task after a step: it is going backward when it
already was, or when the undo trigger of the event hit it. -/
theorem updTask_backward {r : TaskRunner W} {s : System W} {e : Event} {i : Nat} {t : Task}
    (hen : enabled r s e = true) (ht : s.st.tasks[i]? = some t) (hnw : t.status ≠ .Wait) :
    (updTask s.st e i t).status.backward = (t.status.backward || hit s.st e i t) := by
  cases e with
  | start id =>
    obtain ⟨t1, ht1, hs, -⟩ := enabled_start hen
    by_cases hid : i = id
    · subst hid
      rw [ht] at ht1
      cases ht1
      simp [updTask, hit, hs, Status.backward]
    · simp [updTask, hit, hid]
  | doReturn id res =>
    obtain ⟨t1, ht1, hs⟩ := enabled_doReturn hen
    by_cases hid : i = id
    · subst hid
      rw [ht] at ht1
      cases ht1
      cases res <;> simp [updTask, hit, hs, Status.backward]
    · cases res with
      | ok => simp [updTask, hit, hid]
      | retry after => simp [updTask, hit, hid]
      | error msg =>
        simp only [updTask, hid, ↓reduceIte, hit, decide_False, Bool.false_or, ht1]
        by_cases ha : affectedBy t1 t = true
        · simp [ha, abortStatus_backward _ hnw]
        · simp [ha]
  | undoStart id =>
    obtain ⟨t1, ht1, hs, -⟩ := enabled_undoStart hen
    by_cases hid : i = id
    · subst hid
      rw [ht] at ht1
      cases ht1
      simp [updTask, hit, hs, Status.backward]
    · simp [updTask, hit, hid]
  | undoReturn id err =>
    obtain ⟨t1, ht1, hs⟩ := enabled_undoReturn hen
    by_cases hid : i = id
    · subst hid
      rw [ht] at ht1
      cases ht1
      cases err <;> simp [updTask, hit, hs, Status.backward]
    · cases err <;> simp [updTask, hit, hid]
  | tick => simp [updTask, hit]

/-- No step brings a task into the statuses `Default` or `Wait`. -/
theorem updTask_noDefaultWait (st : State) (e : Event) (i : Nat) (t : Task)
    (h : t.status ≠ .Default ∧ t.status ≠ .Wait) :
    (updTask st e i t).status ≠ .Default ∧ (updTask st e i t).status ≠ .Wait := by
  have hab : abortStatus t.status ≠ .Default ∧ abortStatus t.status ≠ .Wait := by
    cases hs : t.status <;> simp_all [abortStatus]
  unfold updTask
  split <;> (try split) <;> (try split) <;> (try split) <;> simp_all

end Overlord

namespace Overlord

variable {W : Type}

theorem step_getElem?_some {r : TaskRunner W} {s s1 : System W} {e : Event}
    (h : step r s e = some s1) {i : Nat} {t1 : Task} (ht : s1.st.tasks[i]? = some t1) :
    ∃ t, s.st.tasks[i]? = some t ∧ t1 = updTask s.st e i t := by
  rw [step_getElem? h] at ht
  cases h0 : s.st.tasks[i]? with
  | none => simp [h0] at ht
  | some t =>
    refine ⟨t, rfl, ?_⟩
    simpa [h0] using ht.symm

theorem step_now {r : TaskRunner W} {s s1 : System W} {e : Event}
    (h : step r s e = some s1) : s.st.now ≤ s1.st.now := by
  unfold step at h
  split at h
  · simp only [Option.some.injEq] at h
    subst h
    simp only
    split <;> omega
  · exact absurd h (by simp)

theorem updTask_atTime (st : State) (e : Event) (i : Nat) (t : Task)
    (hnr : e.isRetry = false) : (updTask st e i t).atTime = t.atTime := by
  unfold updTask
  split <;> (try split) <;> (try split) <;> (try split) <;> first | rfl | simp [Event.isRetry] at hnr

theorem Task.Lanes_ne_nil (t : Task) : t.Lanes ≠ [] := by
  unfold Task.Lanes
  split
  · simp
  · assumption

theorem updTask_Lanes (st : State) (e : Event) (i : Nat) (t : Task) :
    (updTask st e i t).Lanes = t.Lanes := by
  simp [Task.Lanes, updTask_lanes]

theorem affectedBy_congr (f t u : Task) (hl : t.Lanes = u.Lanes) (hc : t.change = u.change) :
    affectedBy f t = affectedBy f u := by
  simp [affectedBy, hl, hc]

theorem affectedBy_same (f t : Task) (hL : t.Lanes = f.Lanes) (hc : t.change = f.change) :
    affectedBy f t = true := by
  have hne := Task.Lanes_ne_nil f
  simp only [affectedBy, hc, beq_self_eq_true, hL, Bool.true_and, Bool.or_eq_true,
    List.any_eq_true]
  right
  cases hf : f.Lanes with
  | nil => exact absurd hf hne
  | cons l ls => exact ⟨l, by simp, by simp⟩

theorem step_wellFormed {r : TaskRunner W} {s s1 : System W} {e : Event} {chg : Nat}
    (h : step r s e = some s1) (hw : WellFormed r chg s.st) : WellFormed r chg s1.st := by
  constructor
  · intro i t1 ht1
    obtain ⟨t, ht, rfl⟩ := step_getElem?_some h ht1
    rw [updTask_change]
    exact hw.change i t ht
  · intro i t1 ht1 w hwm
    obtain ⟨t, ht, rfl⟩ := step_getElem?_some h ht1
    rw [updTask_waitTasks] at hwm
    obtain ⟨hlt, tw, htw, hl⟩ := hw.waits i t ht w hwm
    refine ⟨hlt, updTask s.st e w tw, ?_, ?_⟩
    · rw [step_getElem? h, htw]; rfl
    · rw [updTask_Lanes, updTask_Lanes, hl]
  · intro i t1 ht1
    obtain ⟨t, ht, rfl⟩ := step_getElem?_some h ht1
    rw [updTask_kind]
    exact hw.handlers i t ht

/-- The invariant of a run is kept by every step that is not a retry. -/
theorem step_inv {r : TaskRunner W} {s s1 : System W} {e : Event} {chg : Nat}
    (h : step r s e = some s1) (hnr : e.isRetry = false) (hi : Inv r chg s.st) :
    Inv r chg s1.st := by
  have hen := (step_eq_some h).1
  constructor
  · exact step_wellFormed h hi.wf
  · intro i t1 ht1
    obtain ⟨t, ht, rfl⟩ := step_getElem?_some h ht1
    exact updTask_noDefaultWait _ _ _ _ (hi.life i t ht)
  · intro i j ti1 tj1 hti1 htj1 hl
    obtain ⟨ti, hti, rfl⟩ := step_getElem?_some h hti1
    obtain ⟨tj, htj, rfl⟩ := step_getElem?_some h htj1
    rw [updTask_Lanes, updTask_Lanes] at hl
    rw [updTask_backward hen hti (hi.life i ti hti).2, updTask_backward hen htj (hi.life j tj htj).2,
      hi.lanes i j ti tj hti htj hl]
    congr 1
    have hci := hi.wf.change i ti hti
    have hcj := hi.wf.change j tj htj
    cases e with
    | doReturn id res =>
      cases res with
      | error msg =>
        obtain ⟨f, hf, -⟩ := enabled_doReturn hen
        have hcf := hi.wf.change id f hf
        simp only [hit, hf]
        by_cases hii : i = id
        · subst hii
          rw [hti] at hf
          cases hf
          simp [affectedBy_same ti tj hl.symm (by rw [hci, hcj])]
        · by_cases hjj : j = id
          · subst hjj
            rw [htj] at hf
            cases hf
            simp [affectedBy_same tj ti hl (by rw [hci, hcj])]
          · simp [hii, hjj, affectedBy_congr f ti tj hl (by rw [hci, hcj])]
      | ok => rfl
      | retry after => rfl
    | start id => rfl
    | undoStart id => rfl
    | undoReturn id err => rfl
    | tick => rfl
  · intro i t1 ht1
    obtain ⟨t, ht, rfl⟩ := step_getElem?_some h ht1
    rw [updTask_atTime _ _ _ _ hnr]
    exact le_trans (hi.time i t ht) (step_now h)

theorem inv_of_fresh {r : TaskRunner W} {st : State} {chg : Nat}
    (hw : WellFormed r chg st) (hf : Fresh st) : Inv r chg st := by
  refine ⟨hw, ?_, ?_, ?_⟩
  · intro i t ht
    simp [(hf i t ht).1]
  · intro i j ti tj hti htj _
    rw [(hf i ti hti).1, (hf j tj htj).1]
  · intro i t ht
    exact (hf i t ht).2

/-- The invariant holds all along a run without retries. -/
theorem run_inv {r : TaskRunner W} {chg : Nat} (es : List Event) :
    ∀ (s s1 : System W), run r s es = some s1 → (∀ e ∈ es, e.isRetry = false) →
      Inv r chg s.st → Inv r chg s1.st := by
  induction es with
  | nil =>
    intro s s1 h _ hi
    simp only [run, Option.some.injEq] at h
    subst h
    exact hi
  | cons e es ih =>
    intro s s1 h hnr hi
    simp only [run] at h
    cases h2 : step r s e with
    | none => simp [h2] at h
    | some s2 =>
      rw [h2] at h
      exact ih s2 s1 h (fun e1 he1 => hnr e1 (List.mem_cons_of_mem _ he1))
        (step_inv h2 (hnr e (List.mem_cons_self _ _)) hi)

end Overlord

namespace Overlord

variable {W : Type}

theorem sum_mapIdx_le {α : Type} (w : α → Nat) :
    ∀ (l : List α) (f : Nat → α → α), (∀ i a, l[i]? = some a → w (f i a) ≤ w a) →
      ((l.mapIdx f).map w).sum ≤ (l.map w).sum := by
  intro l
  induction l with
  | nil => intro f _; simp
  | cons a l ih =>
    intro f hle
    rw [List.mapIdx_cons]
    simp only [List.map_cons, List.sum_cons]
    have h0 := hle 0 a (by simp)
    have ht := ih (fun i => f (i + 1)) (fun i b hb => hle (i + 1) b (by simpa using hb))
    omega

theorem sum_mapIdx_lt {α : Type} (w : α → Nat) :
    ∀ (l : List α) (f : Nat → α → α) (k : Nat) (a : α),
      (∀ i a, l[i]? = some a → w (f i a) ≤ w a) → l[k]? = some a → w (f k a) < w a →
      ((l.mapIdx f).map w).sum < (l.map w).sum := by
  intro l
  induction l with
  | nil => intro f k a _ hk; simp at hk
  | cons b l ih =>
    intro f k a hle hk hlt
    rw [List.mapIdx_cons]
    simp only [List.map_cons, List.sum_cons]
    have h0 := hle 0 b (by simp)
    have hle2 : ∀ i c, l[i]? = some c → w (f (i + 1) c) ≤ w c :=
      fun i c hc => hle (i + 1) c (by simpa using hc)
    cases k with
    | zero =>
      simp only [List.getElem?_cons_zero, Option.some.injEq] at hk
      subst hk
      have ht := sum_mapIdx_le w l (fun i => f (i + 1)) hle2
      omega
    | succ k =>
      have ht := ih (fun i => f (i + 1)) k a hle2 (by simpa using hk) hlt
      omega

theorem abortStatus_weight (st : Status) : (abortStatus st).weight ≤ st.weight := by
  cases st <;> simp [abortStatus, Status.weight]

theorem updTask_weight_le {r : TaskRunner W} {s : System W} {e : Event}
    (hen : enabled r s e = true) (hnr : e.isRetry = false) (i : Nat) (t : Task)
    (ht : s.st.tasks[i]? = some t) :
    (updTask s.st e i t).status.weight ≤ t.status.weight := by
  cases e with
  | start id =>
    obtain ⟨t1, ht1, hs, -⟩ := enabled_start hen
    by_cases hid : i = id
    · subst hid
      rw [ht] at ht1; cases ht1
      simp [updTask, hs, Status.weight]
    · simp [updTask, hid]
  | doReturn id res =>
    obtain ⟨t1, ht1, hs⟩ := enabled_doReturn hen
    by_cases hid : i = id
    · subst hid
      rw [ht] at ht1; cases ht1
      cases res <;> simp_all [updTask, Status.weight, Event.isRetry]
    · cases res with
      | ok => simp [updTask, hid]
      | retry after => simp [updTask, hid]
      | error msg =>
        simp only [updTask, hid, ↓reduceIte, ht1]
        split
        · exact abortStatus_weight _
        · exact le_refl _
  | undoStart id =>
    obtain ⟨t1, ht1, hs, -⟩ := enabled_undoStart hen
    by_cases hid : i = id
    · subst hid
      rw [ht] at ht1; cases ht1
      simp [updTask, hs, Status.weight]
    · simp [updTask, hid]
  | undoReturn id err =>
    obtain ⟨t1, ht1, hs⟩ := enabled_undoReturn hen
    by_cases hid : i = id
    · subst hid
      rw [ht] at ht1; cases ht1
      cases err <;> simp [updTask, hs, Status.weight]
    · cases err <;> simp [updTask, hid]
  | tick => simp [updTask]

/-- Every step other than a retry and a tick brings the store nearer to the
end: its measure decreases. -/
theorem step_measure {r : TaskRunner W} {s s1 : System W} {e : Event}
    (h : step r s e = some s1) (hnr : e.isRetry = false) (hnt : e ≠ .tick) :
    s1.st.measure < s.st.measure := by
  obtain ⟨hen, htasks, -⟩ := step_eq_some h
  unfold State.measure
  rw [htasks]
  have hle := fun i t ht => updTask_weight_le hen hnr i t ht
  cases e with
  | start id =>
    obtain ⟨t1, ht1, hs, -⟩ := enabled_start hen
    exact sum_mapIdx_lt _ _ _ id t1 hle ht1 (by simp [updTask, hs, Status.weight])
  | doReturn id res =>
    obtain ⟨t1, ht1, hs⟩ := enabled_doReturn hen
    refine sum_mapIdx_lt _ _ _ id t1 hle ht1 ?_
    cases res <;> simp_all [updTask, Status.weight, Event.isRetry]
  | undoStart id =>
    obtain ⟨t1, ht1, hs, -⟩ := enabled_undoStart hen
    exact sum_mapIdx_lt _ _ _ id t1 hle ht1 (by simp [updTask, hs, Status.weight])
  | undoReturn id err =>
    obtain ⟨t1, ht1, hs⟩ := enabled_undoReturn hen
    refine sum_mapIdx_lt _ _ _ id t1 hle ht1 ?_
    cases err <;> simp [updTask, hs, Status.weight]
  | tick => exact absurd rfl hnt

theorem step_of_enabled {r : TaskRunner W} {s : System W} {e : Event}
    (h : enabled r s e = true) : ∃ s1, step r s e = some s1 := by
  unfold step
  simp [h]

/-- What the sequential driver picks is enabled, is what the handlers'
results say, and is neither a tick nor, when no handler asks for a retry, a
retry. -/
theorem nextEvent_some {r : TaskRunner W} {o : Outcomes} {s : System W} {e : Event}
    (hnr : ∀ i after, o.doResult i ≠ .retry after)
    (h : nextEvent r o s = some e) :
    enabled r s e = true ∧ o.allows e ∧ e.isRetry = false ∧ e ≠ .tick := by
  unfold nextEvent at h
  obtain ⟨i, -, hi⟩ := List.exists_of_findSome?_eq_some h
  cases ht : s.st.tasks[i]? with
  | none => simp [ht] at hi
  | some t =>
    simp only [ht] at hi
    split at hi
    · rename_i hen
      cases hi
      exact ⟨hen, trivial, rfl, by simp⟩
    · split at hi
      · rename_i hd
        cases hi
        refine ⟨by simp [enabled, State.statusOf, ht, hd], rfl, ?_, by simp⟩
        cases hres : o.doResult i with
        | ok => rfl
        | error msg => rfl
        | retry after => exact absurd hres (hnr i after)
      · split at hi
        · rename_i hen
          cases hi
          exact ⟨hen, trivial, rfl, by simp⟩
        · split at hi
          · rename_i hd
            cases hi
            exact ⟨by simp [enabled, State.statusOf, ht, hd], rfl, rfl, by simp⟩
          · exact absurd hi (by simp)

/-- The sequential driver stops within as many moves as the measure of the
store: with that much fuel nothing can move any more at the end. -/
theorem settle_stops {r : TaskRunner W} {o : Outcomes}
    (hnr : ∀ i after, o.doResult i ≠ .retry after) :
    ∀ (fuel : Nat) (s : System W), s.st.measure ≤ fuel →
      nextEvent r o (settle r o fuel s) = none := by
  intro fuel
  induction fuel with
  | zero =>
    intro s hm
    simp only [settle]
    cases hne : nextEvent r o s with
    | none => rfl
    | some e =>
      obtain ⟨hen, -, hr, ht⟩ := nextEvent_some hnr hne
      obtain ⟨s1, hs1⟩ := step_of_enabled hen
      have := step_measure hs1 hr ht
      omega
  | succ fuel ih =>
    intro s hm
    simp only [settle]
    cases hne : nextEvent r o s with
    | none => simpa using hne
    | some e =>
      obtain ⟨hen, -, hr, ht⟩ := nextEvent_some hnr hne
      obtain ⟨s1, hs1⟩ := step_of_enabled hen
      have hlt := step_measure hs1 hr ht
      simp only [hs1]
      exact ih s1 (by omega)

/-- The moves of the sequential driver form an execution that ends in the
state the driver returns, and every one of them is what the handlers' results
say and is no retry. -/
theorem settle_is_run {r : TaskRunner W} {o : Outcomes}
    (hnr : ∀ i after, o.doResult i ≠ .retry after) :
    ∀ (fuel : Nat) (s : System W),
      run r s (settleTrace r o fuel s) = some (settle r o fuel s) ∧
      ∀ e ∈ settleTrace r o fuel s, o.allows e ∧ e.isRetry = false := by
  intro fuel
  induction fuel with
  | zero => intro s; simp [settleTrace, settle, run]
  | succ fuel ih =>
    intro s
    simp only [settleTrace, settle]
    cases hne : nextEvent r o s with
    | none => simp [run]
    | some e =>
      obtain ⟨hen, hal, hr, -⟩ := nextEvent_some hnr hne
      obtain ⟨s1, hs1⟩ := step_of_enabled hen
      simp only [hs1, run, List.mem_cons, forall_eq_or_imp]
      exact ⟨(ih s1).1, ⟨hal, hr⟩, (ih s1).2⟩

end Overlord

namespace Overlord

variable {W : Type}

theorem nextEvent_none {r : TaskRunner W} {o : Outcomes} {s : System W}
    (h : nextEvent r o s = none) (i : Nat) (t : Task) (ht : s.st.tasks[i]? = some t) :
    enabled r s (.start i) = false ∧ t.status ≠ .Doing ∧
      enabled r s (.undoStart i) = false ∧ t.status ≠ .Undoing := by
  unfold nextEvent at h
  rw [List.findSome?_eq_none_iff] at h
  have hi : i < s.st.tasks.length := by
    rcases Nat.lt_or_ge i s.st.tasks.length with h1 | h1
    · exact h1
    · rw [List.getElem?_eq_none h1] at ht
      exact absurd ht (by simp)
  have := h i (List.mem_range.mpr hi)
  simp only [ht] at this
  split at this
  · exact absurd this (by simp)
  · rename_i h1
    split at this
    · exact absurd this (by simp)
    · rename_i h2
      split at this
      · exact absurd this (by simp)
      · rename_i h3
        split at this
        · exact absurd this (by simp)
        · rename_i h4
          exact ⟨by simpa using h1, h2, by simpa using h3, h4⟩

theorem forward_cases {st : Status} (h1 : st ≠ .Default) (h2 : st ≠ .Wait)
    (hb : st.backward = false) : st = .Do ∨ st = .Doing ∨ st = .Done := by
  cases st <;> simp_all [Status.backward]

theorem backward_cases {st : Status} (hb : st.backward = true) :
    st = .Undo ∨ st = .Undoing ∨ st.settled = true := by
  cases st <;> simp_all [Status.backward, Status.settled]

/-- Deadlock freedom: in a state of a run of a well-formed change, when the
blocked predicate vetoes nothing while no task is running, the sequential
driver finds nothing to move only if every task is ready. -/
theorem nextEvent_none_ready {r : TaskRunner W} {o : Outcomes} {s : System W} {chg : Nat}
    (hi : Inv r chg s.st) (hblocked : ∀ t, r.blocked t [] = false)
    (h : nextEvent r o s = none) :
    ∀ (i : Nat) (t : Task), s.st.tasks[i]? = some t → t.status.ready = true := by
  have hnone := nextEvent_none h
  have hrunning : s.st.running = [] := by
    unfold State.running
    rw [List.filter_eq_nil_iff]
    intro t ht
    obtain ⟨i, hi2, hget⟩ := List.mem_iff_getElem.mp ht
    have := (hnone i t (by rw [List.getElem?_eq_getElem hi2, hget])).2.1
    simpa using this
  -- no task is still to be done
  have hdo : ∀ (i : Nat) (t : Task), s.st.tasks[i]? = some t → t.status ≠ .Do := by
    intro i
    induction i using Nat.strong_induction_on with
    | _ i ih =>
      intro t ht hs
      have hen : enabled r s (.start i) = true := by
        simp only [enabled, ht, hs, beq_self_eq_true, Bool.true_and, Bool.and_eq_true,
          decide_eq_true_eq, Bool.not_eq_true', hrunning, hblocked]
        refine ⟨⟨⟨⟨?_, hi.wf.handlers i t ht⟩, ?_⟩, hi.time i t ht⟩, trivial⟩
        · rw [hi.wf.change i t ht]; rfl
        · simp only [State.waitsDone, List.all_eq_true, decide_eq_true_eq]
          intro w hw
          obtain ⟨hlt, tw, htw, hl⟩ := hi.wf.waits i t ht w hw
          have hb := hi.lanes w i tw t htw ht hl
          rw [hs] at hb
          have hl2 := hi.life w tw htw
          rcases forward_cases hl2.1 hl2.2 (by simpa [Status.backward] using hb) with h1 | h1 | h1
          · exact absurd h1 (ih w hlt tw htw)
          · exact absurd h1 (hnone w tw htw).2.1
          · simp [State.statusOf, htw, h1]
      rw [(hnone i t ht).1] at hen
      exact absurd hen (by simp)
  -- no task is still to be undone
  have hundo : ∀ (d i : Nat) (t : Task), s.st.tasks.length - i = d → s.st.tasks[i]? = some t →
      t.status ≠ .Undo := by
    intro d
    induction d using Nat.strong_induction_on with
    | _ d ih =>
      intro i t hd ht hs
      have hen : enabled r s (.undoStart i) = true := by
        simp only [enabled, State.statusOf, ht, hs, Option.map_some', beq_self_eq_true,
          Bool.true_and, State.haltsSettled, List.all_eq_true, Bool.or_eq_true,
          Bool.not_eq_true']
        intro u hu
        by_cases hc : u.waitTasks.contains i = true
        · right
          obtain ⟨j, hj, hget⟩ := List.mem_iff_getElem.mp hu
          have huj : s.st.tasks[j]? = some u := by rw [List.getElem?_eq_getElem hj, hget]
          obtain ⟨hlt, tw, htw, hl⟩ := hi.wf.waits j u huj i (by simpa using hc)
          rw [ht] at htw
          cases htw
          have hb := hi.lanes i j t u ht huj hl
          rw [hs] at hb
          rcases backward_cases (by simpa [Status.backward] using hb.symm) with h1 | h1 | h1
          · exact absurd h1 (ih (s.st.tasks.length - j) (by omega) j u rfl huj)
          · exact absurd h1 (hnone j u huj).2.2.2
          · exact h1
        · left
          simpa using hc
      rw [(hnone i t ht).2.2.1] at hen
      exact absurd hen (by simp)
  intro i t ht
  have h1 := hdo i t ht
  have h2 := hundo _ i t rfl ht
  have h3 := hnone i t ht
  have h4 := hi.life i t ht
  cases hs : t.status <;> simp_all [Status.ready]

end Overlord

namespace Snapstate

open Overlord

theorem lookup_filter_ne (l : List (String × String)) (n name : String) :
    (l.filter fun kv => kv.1 != n).lookup name = if name = n then none else l.lookup name := by
  induction l with
  | nil => simp
  | cons kv rest ih =>
    obtain ⟨k, v⟩ := kv
    by_cases hk : k = n
    · subst hk
      simp only [List.filter_cons, bne_self_eq_false, Bool.false_eq_true, ↓reduceIte, ih,
        List.lookup_cons]
      by_cases hn : name = k
      · simp [hn]
      · have : (name == k) = false := by simpa using hn
        simp [hn, this]
    · have hkn : (k != n) = true := by simpa using hk
      simp only [List.filter_cons, hkn, ↓reduceIte, List.lookup_cons, ih]
      by_cases hn : name = n
      · subst hn
        have : (name == k) = false := by simpa using fun h : name = k => hk h.symm
        simp [this]
      · simp [hn]

theorem getSnap_setSnap (d : Data) (n name : String) (x : Option SnapState) :
    getSnap (setSnap d n x) name =
      if name = n then
        (match x with
         | some snapst => .ok snapst
         | none => .error .errNoState)
      else
        (match (snapsOf d).lookup name with
         | some raw => .ok ⟨raw⟩
         | none => .error .errNoState) := by
  cases x with
  | none =>
    simp only [setSnap, getSnap, Data.get_set, lookup_filter_ne]
    by_cases hn : name = n
    · simp [hn]
    · simp only [hn, ↓reduceIte]
      cases hl : List.lookup name (snapsOf d) <;> rfl
  | some snapst =>
    simp only [setSnap, getSnap, Data.get_set, List.lookup_cons, lookup_filter_ne]
    by_cases hn : name = n
    · simp [hn]
    · have : (name == n) = false := by simpa using hn
      simp only [this, hn, ↓reduceIte]
      cases hl : List.lookup name (snapsOf d) <;> rfl

theorem absent_lookup {d : Data} {name : String} (h : absent d name) :
    (snapsOf d).lookup name = none := by
  obtain ⟨e, he, hns⟩ := h
  unfold getSnap at he
  unfold snapsOf
  split at he
  · rename_i hg; simp [hg]
  · simp only [Except.error.injEq] at he
    subst he
    simp [Error.isNoState] at hns
  · rename_i members hg
    simp only [hg]
    split at he
    · assumption
    · exact absurd he (by simp)

theorem installed_lookup {d : Data} {name : String} (h : installed d name) :
    ((snapsOf d).lookup name).isSome = true := by
  obtain ⟨x, hx⟩ := h
  unfold getSnap at hx
  unfold snapsOf
  split at hx
  · exact absurd hx (by simp)
  · exact absurd hx (by simp)
  · rename_i members hg
    simp only [hg]
    split at hx
    · exact absurd hx (by simp)
    · rename_i raw hl
      simp [hl]

/-- Writing the state of another snap leaves a snap absent. -/
theorem absent_setSnap_other {d : Data} {n name : String} (x : Option SnapState)
    (h : absent d name) (hne : name ≠ n) : absent (setSnap d n x) name := by
  refine ⟨.errNoState, ?_, rfl⟩
  rw [getSnap_setSnap, if_neg hne, absent_lookup h]

/-- Removing the state of a snap leaves it absent. -/
theorem absent_setSnap_none (d : Data) (name : String) : absent (setSnap d name none) name := by
  refine ⟨.errNoState, ?_, rfl⟩
  rw [getSnap_setSnap, if_pos rfl]

/-- Writing the state of a snap makes it installed. -/
theorem installed_setSnap_some (d : Data) (name : String) (snapst : SnapState) :
    installed (setSnap d name (some snapst)) name := by
  refine ⟨snapst, ?_⟩
  rw [getSnap_setSnap, if_pos rfl]

/-- Writing the state of another snap leaves a snap installed. -/
theorem installed_setSnap_other {d : Data} {n name : String} (x : Option SnapState)
    (h : installed d name) (hne : name ≠ n) : installed (setSnap d n x) name := by
  have hl := installed_lookup h
  cases hl2 : (snapsOf d).lookup name with
  | none => simp [hl2] at hl
  | some raw =>
    refine ⟨⟨raw⟩, ?_⟩
    rw [getSnap_setSnap, if_neg hne, hl2]

theorem mem_of_lookup {β : Type} (l : List (String × β)) (k : String) (v : β)
    (h : l.lookup k = some v) : (k, v) ∈ l := by
  induction l with
  | nil => simp at h
  | cons kv rest ih =>
    obtain ⟨k1, v1⟩ := kv
    simp only [List.lookup_cons] at h
    by_cases hk : k = k1
    · subst hk
      simp only [beq_self_eq_true, Option.some.injEq] at h
      subst h
      exact List.mem_cons_self _ _
    · have : (k == k1) = false := by simpa using hk
      simp only [this] at h
      exact List.mem_cons_of_mem _ (ih h)

/-- Of the handlers of the install runner only "link-snap" writes to the
keyed data. -/
theorem installHandlers_effect (kind : String) (h : Handler FakeOps)
    (hk : installHandlers kind = some h) (t : Task) (htk : t.kind = kind)
    (dw : Data × FakeOps) :
    (h.doFn t dw).1 = linkEffect false t dw.1 ∧
    ∀ undo, h.undoFn = some undo → (undo t dw).1 = linkEffect true t dw.1 := by
  have hmem := mem_of_lookup _ _ _ hk
  simp only [handlerTable, List.mem_cons, Prod.mk.injEq, List.mem_singleton, List.not_mem_nil,
    or_false] at hmem
  rcases hmem with h1 | h1 | h1 | h1 | h1 | h1 | h1 | h1 | h1 | h1 | h1 | h1 | h1 | h1 | h1 |
    h1 | h1 | h1 <;> obtain ⟨hkind, hh⟩ := h1 <;> subst hh <;>
    simp only [linkEffect, htk, hkind, String.reduceEq, ↓reduceIte, opsHandler, failingHandler,
      Option.some.injEq, true_and, forall_eq', reduceCtorEq, false_implies, implies_true,
      and_true]
  simp only [linkSnapHandler, Option.some.injEq, forall_eq']
  cases taskSnapSetup t <;> simp

end Snapstate

namespace Overlord

variable {W : Type}

theorem updTask_done {r : TaskRunner W} {s : System W} {e : Event} {i : Nat} {t : Task}
    (hen : enabled r s e = true) (_ht : s.st.tasks[i]? = some t)
    (h : (updTask s.st e i t).status = .Done) :
    t.status = .Done ∨ e = .doReturn i .ok := by
  cases e with
  | start id =>
    by_cases hid : i = id
    · subst hid; simp [updTask] at h
    · left; simpa [updTask, hid] using h
  | doReturn id res =>
    obtain ⟨t1, ht1, hs⟩ := enabled_doReturn hen
    by_cases hid : i = id
    · subst hid
      cases res with
      | ok => right; rfl
      | retry after => simp [updTask] at h
      | error msg => simp [updTask] at h
    · cases res with
      | ok => left; simpa [updTask, hid] using h
      | retry after => left; simpa [updTask, hid] using h
      | error msg =>
        simp only [updTask, hid, ↓reduceIte, ht1] at h
        split at h
        · cases hst : t.status <;> simp_all [abortStatus]
        · left; exact h
  | undoStart id =>
    by_cases hid : i = id
    · subst hid; simp [updTask] at h
    · left; simpa [updTask, hid] using h
  | undoReturn id err =>
    by_cases hid : i = id
    · subst hid; cases err <;> simp [updTask] at h
    · left; cases err <;> simpa [updTask, hid] using h
  | tick => left; simpa [updTask] using h

theorem updTask_error {r : TaskRunner W} {s : System W} {e : Event} {i : Nat} {t : Task}
    (hen : enabled r s e = true) (ht : s.st.tasks[i]? = some t) (h : t.status = .Error) :
    (updTask s.st e i t).status = .Error := by
  cases e with
  | start id =>
    obtain ⟨t1, ht1, hs, -⟩ := enabled_start hen
    by_cases hid : i = id
    · subst hid; rw [ht] at ht1; cases ht1; simp [h] at hs
    · simpa [updTask, hid] using h
  | doReturn id res =>
    obtain ⟨t1, ht1, hs⟩ := enabled_doReturn hen
    by_cases hid : i = id
    · subst hid; rw [ht] at ht1; cases ht1; simp [h] at hs
    · cases res with
      | ok => simpa [updTask, hid] using h
      | retry after => simpa [updTask, hid] using h
      | error msg =>
        simp only [updTask, hid, ↓reduceIte, ht1]
        split
        · simp [h, abortStatus]
        · exact h
  | undoStart id =>
    obtain ⟨t1, ht1, hs, -⟩ := enabled_undoStart hen
    by_cases hid : i = id
    · subst hid; rw [ht] at ht1; cases ht1; simp [h] at hs
    · simpa [updTask, hid] using h
  | undoReturn id err =>
    obtain ⟨t1, ht1, hs⟩ := enabled_undoReturn hen
    by_cases hid : i = id
    · subst hid; rw [ht] at ht1; cases ht1; simp [h] at hs
    · cases err <;> simpa [updTask, hid] using h
  | tick => simpa [updTask] using h

theorem affectedBy_updTask (st : State) (e : Event) (i j : Nat) (f t : Task) :
    affectedBy (updTask st e j f) (updTask st e i t) = affectedBy f t := by
  simp [affectedBy, Task.Lanes, updTask_lanes, updTask_change]

theorem hit_true {st : State} {e : Event} {i : Nat} {t : Task} (h : hit st e i t = true) :
    ∃ id msg, e = .doReturn id (.error msg) ∧
      (i = id ∨ ∃ f, st.tasks[id]? = some f ∧ affectedBy f t = true) := by
  unfold hit at h
  split at h
  · rename_i id msg
    refine ⟨id, msg, rfl, ?_⟩
    simp only [Bool.or_eq_true, decide_eq_true_eq] at h
    rcases h with h | h
    · left; exact h
    · right
      split at h
      · rename_i f hf; exact ⟨f, hf, h⟩
      · exact absurd h (by simp)
  · exact absurd h (by simp)

/-- `Sound` is kept by every step whose event is what the results say. -/
theorem step_sound {r : TaskRunner W} {o : Outcomes} {s s1 : System W} {e : Event} {chg : Nat}
    (h : step r s e = some s1) (hal : o.allows e) (hi : Inv r chg s.st)
    (hs : Sound o s.st) : Sound o s1.st := by
  have hen := (step_eq_some h).1
  constructor
  · intro i t1 ht1 hd
    obtain ⟨t, ht, rfl⟩ := step_getElem?_some h ht1
    rcases updTask_done hen ht hd with h1 | h1
    · exact hs.done i t ht h1
    · subst h1
      exact hal.symm
  · rintro ⟨i, t1, ht1, hb⟩
    obtain ⟨t, ht, rfl⟩ := step_getElem?_some h ht1
    rw [updTask_backward hen ht (hi.life i t ht).2, Bool.or_eq_true] at hb
    rcases hb with hb | hb
    · obtain ⟨j, f, hf, hfe⟩ := hs.failed ⟨i, t, ht, hb⟩
      exact ⟨j, updTask s.st e j f, by rw [step_getElem? h, hf]; rfl, updTask_error hen hf hfe⟩
    · obtain ⟨id, msg, rfl, -⟩ := hit_true hb
      obtain ⟨f, hf, -⟩ := enabled_doReturn hen
      exact ⟨id, updTask s.st (.doReturn id (.error msg)) id f, by rw [step_getElem? h, hf]; rfl,
        by simp [updTask]⟩

/-- `Confined` is kept by every step whose event is what the results say,
when only the do handler of the task `fid` returns an error. -/
theorem step_confined {r : TaskRunner W} {o : Outcomes} {s s1 : System W} {e : Event}
    {chg fid : Nat}
    (h : step r s e = some s1) (hal : o.allows e)
    (honly : ∀ i msg, o.doResult i = .error msg → i = fid)
    (hi : Inv r chg s.st) (hc : Confined fid s.st) : Confined fid s1.st := by
  have hen := (step_eq_some h).1
  constructor
  · intro i t1 ht1 hb
    obtain ⟨t, ht, rfl⟩ := step_getElem?_some h ht1
    rw [updTask_backward hen ht (hi.life i t ht).2, Bool.or_eq_true] at hb
    rcases hb with hb | hb
    · rcases hc.cause i t ht hb with h1 | ⟨f, hf, ha⟩
      · left; exact h1
      · right
        exact ⟨updTask s.st e fid f, by rw [step_getElem? h, hf]; rfl,
          by rw [affectedBy_updTask]; exact ha⟩
    · obtain ⟨id, msg, rfl, hor⟩ := hit_true hb
      have hid : id = fid := honly id msg hal.symm
      subst hid
      rcases hor with h1 | ⟨f, hf, ha⟩
      · left; exact h1
      · right
        exact ⟨updTask s.st _ id f, by rw [step_getElem? h, hf]; rfl,
          by rw [affectedBy_updTask]; exact ha⟩
  · intro f1 hf1 hfb i t1 ht1 ha
    obtain ⟨f, hf, rfl⟩ := step_getElem?_some h hf1
    obtain ⟨t, ht, rfl⟩ := step_getElem?_some h ht1
    rw [affectedBy_updTask] at ha
    rw [updTask_backward hen hf (hi.life fid f hf).2, Bool.or_eq_true] at hfb
    rw [updTask_backward hen ht (hi.life i t ht).2, Bool.or_eq_true]
    rcases hfb with hfb | hfb
    · left; exact hc.spread f hf hfb i t ht ha
    · right
      obtain ⟨id, msg, rfl, -⟩ := hit_true hfb
      have hid : id = fid := honly id msg hal.symm
      subst hid
      simp [hit, hf, ha]

theorem sound_of_fresh {o : Outcomes} {st : State} (hf : Fresh st) : Sound o st := by
  constructor
  · intro i t ht hd
    rw [(hf i t ht).1] at hd
    exact absurd hd (by simp)
  · rintro ⟨i, t, ht, hb⟩
    rw [(hf i t ht).1] at hb
    exact absurd hb (by simp [Status.backward])

theorem confined_of_fresh {fid : Nat} {st : State} (hf : Fresh st) : Confined fid st := by
  constructor
  · intro i t ht hb
    rw [(hf i t ht).1] at hb
    exact absurd hb (by simp [Status.backward])
  · intro f hff hb
    rw [(hf fid f hff).1] at hb
    exact absurd hb (by simp [Status.backward])

end Overlord

namespace Snapstate

open Overlord

theorem installHandlers_link : installHandlers "link-snap" = some linkSnapHandler := rfl

/-- The keyed data after a step of the install runner are the data before,
but for what a "link-snap" handler that returned nil wrote. -/
theorem step_data {s s1 : System FakeOps} {e : Event}
    (h : step installRunner s e = some s1) : s1.st.data = dataAfter s.st e := by
  unfold step at h
  split at h
  · simp only [Option.some.injEq] at h
    subst h
    simp only
    cases e with
    | doReturn id res =>
      cases res with
      | ok =>
        simp only [effect, dataAfter]
        cases ht : s.st.tasks[id]? with
        | none => rfl
        | some t =>
          simp only
          cases hh : installRunner.handlers t.kind with
          | none =>
            have hk : t.kind ≠ "link-snap" := by
              intro hk
              rw [hk] at hh
              exact absurd hh (by simp [installRunner, installHandlers_link])
            simp [linkEffect, hk]
          | some hd => exact (installHandlers_effect t.kind hd hh t rfl _).1
      | retry after => rfl
      | error msg => rfl
    | undoReturn id err =>
      cases err with
      | some msg => rfl
      | none =>
        simp only [effect, dataAfter]
        cases ht : s.st.tasks[id]? with
        | none => rfl
        | some t =>
          simp only
          cases hh : installRunner.handlers t.kind with
          | none =>
            have hk : t.kind ≠ "link-snap" := by
              intro hk
              rw [hk] at hh
              exact absurd hh (by simp [installRunner, installHandlers_link])
            simp [linkEffect, hk]
          | some hd =>
            simp only
            cases hu : hd.undoFn with
            | none =>
              have hk : t.kind ≠ "link-snap" := by
                intro hk
                rw [hk] at hh
                simp only [installRunner, installHandlers_link, Option.some.injEq] at hh
                subst hh
                simp [linkSnapHandler] at hu
              simp [linkEffect, hk]
            | some undo => exact (installHandlers_effect t.kind hd hh t rfl _).2 undo hu
    | start id => rfl
    | undoStart id => rfl
    | tick => rfl
  · exact absurd h (by simp)

theorem linksSnap_updTask (st : State) (e : Event) (i : Nat) (t : Task) (name : String) :
    linksSnap (updTask st e i t) name ↔ linksSnap t name := by
  have hts : taskSnapSetup (updTask st e i t) = taskSnapSetup t := by
    simp only [taskSnapSetup, Overlord.Task.get, updTask_data]
  simp only [linksSnap, updTask_kind, hts]

theorem linkEffect_absent {d : Data} {name : String} {t : Task} {undo : Bool}
    (h : absent d name) (hn : ¬ linksSnap t name ∨ undo = true) :
    absent (linkEffect undo t d) name := by
  unfold linkEffect
  split
  · rename_i hk
    split
    · rename_i snapsup hs
      by_cases hname : name = snapsup.instanceName
      · rcases hn with hn | hn
        · exact absurd ⟨hk, by simp [hs, hname]⟩ hn
        · subst hn
          subst hname
          exact absent_setSnap_none d _
      · exact absent_setSnap_other _ h hname
    · exact h
  · exact h

theorem linkEffect_undo {d : Data} {name : String} {t : Task} (hl : linksSnap t name) :
    absent (linkEffect true t d) name := by
  obtain ⟨hk, hs⟩ := hl
  unfold linkEffect
  cases hts : taskSnapSetup t with
  | none => simp [hts] at hs
  | some snapsup =>
    simp only [hts, Option.map_some', Option.some.injEq] at hs
    subst hs
    simp only [hk, ↓reduceIte]
    exact absent_setSnap_none d _

theorem linkEffect_do {d : Data} {name : String} {t : Task} (hl : linksSnap t name) :
    installed (linkEffect false t d) name := by
  obtain ⟨hk, hs⟩ := hl
  unfold linkEffect
  cases hts : taskSnapSetup t with
  | none => simp [hts] at hs
  | some snapsup =>
    simp only [hts, Option.map_some', Option.some.injEq] at hs
    subst hs
    simp only [hk, ↓reduceIte, Bool.false_eq_true]
    exact installed_setSnap_some d _ _

theorem linkEffect_installed {d : Data} {name : String} {t : Task} {undo : Bool}
    (h : installed d name) (hn : ¬ linksSnap t name ∨ undo = false) :
    installed (linkEffect undo t d) name := by
  unfold linkEffect
  split
  · rename_i hk
    split
    · rename_i snapsup hs
      by_cases hname : name = snapsup.instanceName
      · rcases hn with hn | hn
        · exact absurd ⟨hk, by simp [hs, hname]⟩ hn
        · subst hn
          subst hname
          exact installed_setSnap_some d _ _
      · exact installed_setSnap_other _ h hname
    · exact h
  · exact h

theorem updTask_linkActive {W : Type} {r : TaskRunner W} {s : System W} {e : Event} {j : Nat}
    {t : Task} (hen : enabled r s e = true) (ht : s.st.tasks[j]? = some t)
    (ha : linkActive t.status = true) (hne : ∀ err, e ≠ .undoReturn j err) :
    linkActive (updTask s.st e j t).status = true := by
  cases e with
  | start id =>
    obtain ⟨t1, ht1, hs, -⟩ := enabled_start hen
    by_cases hid : j = id
    · subst hid; rw [ht] at ht1; cases ht1; simp [hs, linkActive] at ha
    · simpa [updTask, hid] using ha
  | doReturn id res =>
    obtain ⟨t1, ht1, hs⟩ := enabled_doReturn hen
    by_cases hid : j = id
    · subst hid; rw [ht] at ht1; cases ht1; simp [hs, linkActive] at ha
    · cases res with
      | ok => simpa [updTask, hid] using ha
      | retry after => simpa [updTask, hid] using ha
      | error msg =>
        simp only [updTask, hid, ↓reduceIte, ht1]
        split
        · cases hst : t.status <;> simp_all [abortStatus, linkActive]
        · exact ha
  | undoStart id =>
    by_cases hid : j = id
    · subst hid; simp [updTask, linkActive]
    · simpa [updTask, hid] using ha
  | undoReturn id err =>
    by_cases hid : j = id
    · subst hid; exact absurd rfl (hne err)
    · cases err <;> simpa [updTask, hid] using ha
  | tick => simpa [updTask] using ha

/-- `Tracked` is kept by every step of the install runner other than the
failure of an undo handler. -/
theorem step_tracked {s s1 : System FakeOps} {e : Event} {name : String}
    (h : step installRunner s e = some s1) (hok : ∀ id msg, e ≠ .undoReturn id (some msg))
    (ht : Tracked name s.st) : Tracked name s1.st := by
  have hen := (step_eq_some h).1
  have hdata := step_data h
  -- the task of the event, when it links the snap, decides
  by_cases hself : ∃ id t, s.st.tasks[id]? = some t ∧ linksSnap t name ∧
      (e = .doReturn id .ok ∨ e = .undoReturn id none)
  · obtain ⟨id, t, htid, hl, he | he⟩ := hself
    · subst he
      right
      refine ⟨id, updTask s.st _ id t, by rw [step_getElem? h, htid]; rfl,
        (linksSnap_updTask _ _ _ _ _).mpr hl, by simp [updTask, linkActive]⟩
    · subst he
      left
      rw [hdata]
      simp only [dataAfter, htid]
      exact linkEffect_undo hl
  · rcases ht with ha | ⟨j, tj, htj, hl, hact⟩
    · left
      rw [hdata]
      cases e with
      | doReturn id res =>
        cases res with
        | ok =>
          simp only [dataAfter]
          cases htid : s.st.tasks[id]? with
          | none => exact ha
          | some t =>
            exact linkEffect_absent ha (Or.inl fun hl => hself ⟨id, t, htid, hl, Or.inl rfl⟩)
        | retry after => exact ha
        | error msg => exact ha
      | undoReturn id err =>
        cases err with
        | some msg => exact ha
        | none =>
          simp only [dataAfter]
          cases htid : s.st.tasks[id]? with
          | none => exact ha
          | some t => exact linkEffect_absent ha (Or.inr rfl)
      | start id => exact ha
      | undoStart id => exact ha
      | tick => exact ha
    · right
      refine ⟨j, updTask s.st e j tj, by rw [step_getElem? h, htj]; rfl,
        (linksSnap_updTask _ _ _ _ _).mpr hl, updTask_linkActive hen htj hact ?_⟩
      intro err he
      subst he
      cases err with
      | some msg => exact hok j msg rfl
      | none => exact hself ⟨j, tj, htj, hl, Or.inr rfl⟩

/-- `Linked` is kept by every step of the install runner when at most one
task links the snap. -/
theorem step_linked {s s1 : System FakeOps} {e : Event} {name : String}
    (h : step installRunner s e = some s1) (hu : LinkedOnce name s.st)
    (hl : Linked name s.st) : Linked name s1.st := by
  have hen := (step_eq_some h).1
  have hdata := step_data h
  intro i t1 ht1 hlink hdone
  obtain ⟨t, ht, rfl⟩ := step_getElem?_some h ht1
  rw [linksSnap_updTask] at hlink
  rw [hdata]
  rcases updTask_done hen ht hdone with hd | he
  · have hin := hl i t ht hlink hd
    cases e with
    | doReturn id res =>
      cases res with
      | ok =>
        simp only [dataAfter]
        cases htid : s.st.tasks[id]? with
        | none => exact hin
        | some tid => exact linkEffect_installed hin (Or.inr rfl)
      | retry after => exact hin
      | error msg => exact hin
    | undoReturn id err =>
      cases err with
      | some msg => exact hin
      | none =>
        obtain ⟨tid, htid, hs⟩ := enabled_undoReturn hen
        simp only [dataAfter, htid]
        refine linkEffect_installed hin (Or.inl fun hl2 => ?_)
        have hij := hu i id t tid ht htid hlink hl2
        subst hij
        rw [ht] at htid
        cases htid
        rw [hd] at hs
        exact absurd hs (by simp)
    | start id => exact hin
    | undoStart id => exact hin
    | tick => exact hin
  · subst he
    simp only [dataAfter, ht]
    exact linkEffect_do hlink

theorem step_linkedOnce {s s1 : System FakeOps} {e : Event} {name : String}
    (h : step installRunner s e = some s1) (hu : LinkedOnce name s.st) :
    LinkedOnce name s1.st := by
  intro i j ti1 tj1 hti1 htj1 hli hlj
  obtain ⟨ti, hti, rfl⟩ := step_getElem?_some h hti1
  obtain ⟨tj, htj, rfl⟩ := step_getElem?_some h htj1
  rw [linksSnap_updTask] at hli hlj
  exact hu i j ti tj hti htj hli hlj

end Snapstate

namespace Overlord

variable {W : Type}

theorem updTask_static (st : State) (e : Event) (i : Nat) (t : Task) :
    (updTask st e i t).static = t.static := by
  simp [Task.static, updTask_kind, updTask_waitTasks, updTask_lanes, updTask_change,
    updTask_data]

/-- The static part of every task is the same all along an execution. -/
theorem run_static {r : TaskRunner W} (es : List Event) :
    ∀ (s s1 : System W), run r s es = some s1 → ∀ (i : Nat),
      (s1.st.tasks[i]?).map Task.static = (s.st.tasks[i]?).map Task.static := by
  induction es with
  | nil =>
    intro s s1 h i
    simp only [run, Option.some.injEq] at h
    subst h
    rfl
  | cons e es ih =>
    intro s s1 h i
    simp only [run] at h
    cases h2 : step r s e with
    | none => simp [h2] at h
    | some s2 =>
      rw [h2] at h
      rw [ih s2 s1 h i, step_getElem? h2]
      cases s.st.tasks[i]? with
      | none => rfl
      | some t => simp [updTask_static]

theorem static_forward {r : TaskRunner W} {es : List Event} {s s1 : System W}
    (h : run r s es = some s1) {i : Nat} {t : Task} (ht : s.st.tasks[i]? = some t) :
    ∃ t1, s1.st.tasks[i]? = some t1 ∧ t1.static = t.static := by
  have := run_static es s s1 h i
  rw [ht] at this
  cases h1 : s1.st.tasks[i]? with
  | none => simp [h1] at this
  | some t1 => exact ⟨t1, rfl, by simpa [h1] using this⟩

theorem static_backward {r : TaskRunner W} {es : List Event} {s s1 : System W}
    (h : run r s es = some s1) {i : Nat} {t1 : Task} (ht : s1.st.tasks[i]? = some t1) :
    ∃ t, s.st.tasks[i]? = some t ∧ t1.static = t.static := by
  have := run_static es s s1 h i
  rw [ht] at this
  cases h1 : s.st.tasks[i]? with
  | none => simp [h1] at this
  | some t => exact ⟨t, rfl, by simpa [h1] using this⟩

theorem static_fields {t u : Task} (h : t.static = u.static) :
    t.kind = u.kind ∧ t.waitTasks = u.waitTasks ∧ t.lanes = u.lanes ∧ t.change = u.change ∧
      t.data = u.data := by
  simpa [Task.static] using h

/-- A property kept by every step with an admitted event holds at the end of
every execution of admitted events. -/
theorem run_induct {r : TaskRunner W} {P : System W → Prop} {Q : Event → Prop}
    (hstep : ∀ s s1 e, step r s e = some s1 → Q e → P s → P s1) (es : List Event) :
    ∀ (s s1 : System W), run r s es = some s1 → (∀ e ∈ es, Q e) → P s → P s1 := by
  induction es with
  | nil =>
    intro s s1 h _ hp
    simp only [run, Option.some.injEq] at h
    subst h
    exact hp
  | cons e es ih =>
    intro s s1 h hq hp
    simp only [run] at h
    cases h2 : step r s e with
    | none => simp [h2] at h
    | some s2 =>
      rw [h2] at h
      exact ih s2 s1 h (fun e1 he1 => hq e1 (List.mem_cons_of_mem _ he1))
        (hstep s s2 e h2 (hq e (List.mem_cons_self _ _)) hp)

theorem allows_noRetry {o : Outcomes} {e : Event}
    (hnr : ∀ i after, o.doResult i ≠ .retry after) (h : o.allows e) : e.isRetry = false := by
  cases e with
  | doReturn id res =>
    cases res with
    | retry after => exact absurd h.symm (hnr id after)
    | ok => rfl
    | error msg => rfl
  | start id => rfl
  | undoStart id => rfl
  | undoReturn id err => rfl
  | tick => rfl

theorem allows_undoOk {o : Outcomes} {e : Event}
    (hundo : ∀ i, o.undoResult i = none) (h : o.allows e) :
    ∀ id msg, e ≠ .undoReturn id (some msg) := by
  intro id msg he
  subst he
  have : some msg = o.undoResult id := h
  rw [hundo id] at this
  exact absurd this (by simp)

/-- A change all tasks of which are its own is ready exactly when every task
is in a ready status. -/
theorem isReady_iff {r : TaskRunner W} {chg : Nat} {st : State} (hw : WellFormed r chg st) :
    st.IsReady chg = true ↔ ∀ (i : Nat) (t : Task), st.tasks[i]? = some t →
      t.status.ready = true := by
  simp only [State.IsReady, State.changeTasks, List.all_eq_true, List.mem_filter,
    decide_eq_true_eq, and_imp]
  constructor
  · intro h i t ht
    exact h t (List.getElem?_mem ht) (hw.change i t ht)
  · intro h t hm _
    obtain ⟨i, hi, hget⟩ := List.mem_iff_getElem.mp hm
    exact h i t (by rw [List.getElem?_eq_getElem hi, hget])

theorem err_ne_none {r : TaskRunner W} {chg : Nat} {st : State} (hw : WellFormed r chg st)
    {j : Nat} {f : Task} (hf : st.tasks[j]? = some f) (he : f.status = .Error) :
    st.Err chg ≠ none := by
  unfold State.Err
  have hmem : f ∈ (st.changeTasks chg).filter fun t => t.status = .Error := by
    simp only [State.changeTasks, List.mem_filter, decide_eq_true_eq]
    exact ⟨⟨List.getElem?_mem hf, hw.change j f hf⟩, he⟩
  have hne : ((st.changeTasks chg).filter fun t => t.status = .Error).isEmpty = false := by
    cases hl : (st.changeTasks chg).filter fun t => t.status = .Error with
    | nil => rw [hl] at hmem; exact absurd hmem (by simp)
    | cons a l => rfl
  simp [hne]

theorem ready_not_done_backward {st : Status} (hr : st.ready = true) (hd : st ≠ .Done)
    (hw : st ≠ .Wait) : st.backward = true ∧ st.settled = true := by
  cases st <;> simp_all [Status.ready, Status.backward, Status.settled]

theorem ready_forward_done {st : Status} (hr : st.ready = true) (hb : st.backward = false)
    (hw : st ≠ .Wait) : st = .Done := by
  cases st <;> simp_all [Status.ready, Status.backward]

theorem ready_backward_settled {st : Status} (hr : st.ready = true) (hb : st.backward = true) :
    st.settled = true := by
  cases st <;> simp_all [Status.ready, Status.backward, Status.settled]

end Overlord

namespace Snapstate

open Overlord

theorem installRunner_blocked (t : Task) : installRunner.blocked t [] = false := rfl

/-- What holds at the end of every execution of the install runner from a
fresh well-formed change, when the events are what the results say, no
handler asks for a retry and no undo handler fails. -/
theorem run_install {o : Outcomes} {chg : Nat} {s0 : System FakeOps}
    (hnr : ∀ i after, o.doResult i ≠ .retry after) (hundo : ∀ i, o.undoResult i = none)
    (hwf : WellFormed installRunner chg s0.st) (hfresh : Fresh s0.st)
    (trace : List Event) (s : System FakeOps)
    (hrun : run installRunner s0 trace = some s) (hal : ∀ e ∈ trace, o.allows e) :
    Inv installRunner chg s.st ∧ Sound o s.st ∧
      (∀ name, absent s0.st.data name → Tracked name s.st) ∧
      (∀ name, LinkedOnce name s0.st → LinkedOnce name s.st ∧ Linked name s.st) := by
  refine run_induct (r := installRunner)
    (P := fun s => Inv installRunner chg s.st ∧ Sound o s.st ∧
      (∀ name, absent s0.st.data name → Tracked name s.st) ∧
      (∀ name, LinkedOnce name s0.st → LinkedOnce name s.st ∧ Linked name s.st))
    (Q := fun e => o.allows e) ?_ trace s0 s hrun hal ?_
  · intro s1 s2 e hstep he ⟨hi, hs, ht, hl⟩
    refine ⟨step_inv hstep (allows_noRetry hnr he) hi, step_sound hstep he hi hs, ?_, ?_⟩
    · intro name hn
      exact step_tracked hstep (allows_undoOk hundo he) (ht name hn)
    · intro name hn
      exact ⟨step_linkedOnce hstep (hl name hn).1, step_linked hstep (hl name hn).1 (hl name hn).2⟩
  · refine ⟨inv_of_fresh hwf hfresh, sound_of_fresh hfresh, fun name hn => Or.inl hn, ?_⟩
    intro name hn
    refine ⟨hn, ?_⟩
    intro i t ht _ hd
    rw [(hfresh i t ht).1] at hd
    exact absurd hd (by simp)

/-- The sequential driver, given as much fuel as the measure of the store,
ends with every task ready; its moves are an execution of the kind
`run_install` is about. -/
theorem settle_install {o : Outcomes} {c : Nat} {s0 : System FakeOps}
    (hnr : ∀ i after, o.doResult i ≠ .retry after) (hundo : ∀ i, o.undoResult i = none)
    (hwf : WellFormed installRunner c s0.st) (hfresh : Fresh s0.st) :
    run installRunner s0 (settleTrace installRunner o s0.st.measure s0)
      = some (settle installRunner o s0.st.measure s0) ∧
    (∀ e ∈ settleTrace installRunner o s0.st.measure s0, o.allows e) ∧
    (settle installRunner o s0.st.measure s0).st.IsReady c = true := by
  obtain ⟨hrun, hev⟩ := settle_is_run (r := installRunner) hnr s0.st.measure s0
  have hal : ∀ e ∈ settleTrace installRunner o s0.st.measure s0, o.allows e :=
    fun e he => (hev e he).1
  refine ⟨hrun, hal, ?_⟩
  obtain ⟨hi, -, -, -⟩ := run_install hnr hundo hwf hfresh _ _ hrun hal
  rw [isReady_iff hi.wf]
  exact nextEvent_none_ready hi installRunner_blocked
    (settle_stops hnr s0.st.measure s0 (le_refl _))

/-- The outcome of every execution of a failed transactional install that
ends ready. -/
theorem transactional_outcome {o : Outcomes} {chg lane : Nat} {s0 : System FakeOps}
    (hnr : ∀ i after, o.doResult i ≠ .retry after) (hundo : ∀ i, o.undoResult i = none)
    (hwf : WellFormed installRunner chg s0.st) (hfresh : Fresh s0.st)
    (hlane : ∀ (i : Nat) (t : Task), s0.st.tasks[i]? = some t → t.Lanes = [lane])
    (hfail : ∃ (i : Nat) (t : Task) (msg : String),
      s0.st.tasks[i]? = some t ∧ o.doResult i = .error msg)
    (trace : List Event) (s : System FakeOps)
    (hrun : run installRunner s0 trace = some s) (hal : ∀ e ∈ trace, o.allows e)
    (hready : s.st.IsReady chg = true) :
    NothingInstalled chg s0.st s.st := by
  obtain ⟨hi, hs, ht, -⟩ := run_install hnr hundo hwf hfresh trace s hrun hal
  have hr := (isReady_iff hi.wf).mp hready
  obtain ⟨i, t0, msg, ht0, hres⟩ := hfail
  obtain ⟨t, hti, -⟩ := static_forward hrun ht0
  -- the failing task is ready and not done: it went backward
  have hnd : t.status ≠ .Done := by
    intro hd
    rw [hs.done i t hti hd] at hres
    exact absurd hres (by simp)
  have hb := (ready_not_done_backward (hr i t hti) hnd (hi.life i t hti).2).1
  -- and so did every task, all being in the one lane
  have hall : ∀ (j : Nat) (u : Task), s.st.tasks[j]? = some u → u.status.settled = true := by
    intro j u hu
    obtain ⟨u0, hu0, hsu⟩ := static_backward hrun hu
    obtain ⟨t00, ht00, hst⟩ := static_backward hrun hti
    have hl : u.Lanes = t.Lanes := by
      have h1 : u.Lanes = u0.Lanes := by simp [Task.Lanes, (static_fields hsu).2.2.1]
      have h2 : t.Lanes = t00.Lanes := by simp [Task.Lanes, (static_fields hst).2.2.1]
      rw [h1, h2, hlane j u0 hu0, hlane i t00 ht00]
    have := hi.lanes j i u t hu hti hl
    rw [hb] at this
    exact ready_backward_settled (hr j u hu) this
  constructor
  · obtain ⟨j, f, hf, hfe⟩ := hs.failed ⟨i, t, hti, hb⟩
    exact err_ne_none hi.wf hf hfe
  · intro name hn
    rcases ht name hn with ha | ⟨j, u, hu, -, hact⟩
    · exact ha
    · have := hall j u hu
      cases hst : u.status <;> simp_all [linkActive, Status.settled]

/-- C3: when several snaps are installed transactionally (all tasks of the
change share one lane) and the do handler of a task of the change returns an
error, then, undo handlers not failing, the change ends ready with an error
and none of the snaps is in the final state (`snapstate.Get` answers the
no-state error for every snap that was absent before, also for those whose
own tasks all succeeded): this holds of every execution that ends ready, and
the sequential driver does end ready, within as many moves as the measure of
the store. -/
theorem transactional_all_or_nothing (o : Outcomes) (chg lane : Nat) (s0 : System FakeOps)
    (hnr : ∀ i after, o.doResult i ≠ .retry after) (hundo : ∀ i, o.undoResult i = none)
    (hwf : WellFormed installRunner chg s0.st) (hfresh : Fresh s0.st)
    (hlane : ∀ (i : Nat) (t : Task), s0.st.tasks[i]? = some t → t.Lanes = [lane])
    (hfail : ∃ (i : Nat) (t : Task) (msg : String),
      s0.st.tasks[i]? = some t ∧ o.doResult i = .error msg) :
    (∀ (trace : List Event) (s : System FakeOps),
      run installRunner s0 trace = some s → (∀ e ∈ trace, o.allows e) →
      s.st.IsReady chg = true → NothingInstalled chg s0.st s.st) ∧
    (settle installRunner o s0.st.measure s0).st.IsReady chg = true ∧
    NothingInstalled chg s0.st (settle installRunner o s0.st.measure s0).st := by
  obtain ⟨hrun, hal, hready⟩ := settle_install (c := chg) hnr hundo hwf hfresh
  exact ⟨fun trace s hr ha hrd =>
      transactional_outcome hnr hundo hwf hfresh hlane hfail trace s hr ha hrd,
    hready, transactional_outcome hnr hundo hwf hfresh hlane hfail _ _ hrun hal hready⟩

end Snapstate

namespace Snapstate

open Overlord

theorem run_confined {o : Outcomes} {chg fid : Nat} {s0 : System FakeOps}
    (hnr : ∀ i after, o.doResult i ≠ .retry after)
    (honly : ∀ i msg, o.doResult i = .error msg → i = fid)
    (hwf : WellFormed installRunner chg s0.st) (hfresh : Fresh s0.st)
    (trace : List Event) (s : System FakeOps)
    (hrun : run installRunner s0 trace = some s) (hal : ∀ e ∈ trace, o.allows e) :
    Confined fid s.st := by
  have := run_induct (r := installRunner)
    (P := fun s => Inv installRunner chg s.st ∧ Confined fid s.st)
    (Q := fun e => o.allows e)
    (fun s1 s2 e hstep he ⟨hi, hc⟩ =>
      ⟨step_inv hstep (allows_noRetry hnr he) hi, step_confined hstep he honly hi hc⟩)
    trace s0 s hrun hal ⟨inv_of_fresh hwf hfresh, confined_of_fresh hfresh⟩
  exact this.2

theorem settled_not_linkActive {st : Status} (h : st.settled = true) :
    ¬ linkActive st = true := by
  cases st <;> simp_all [Status.settled, linkActive]

theorem affectedBy_static {f f0 t t0 : Task} (hf : f.static = f0.static)
    (ht : t.static = t0.static) : affectedBy f t = affectedBy f0 t0 := by
  have h1 := static_fields hf
  have h2 := static_fields ht
  simp [affectedBy, Task.Lanes, h1.2.2.1, h1.2.2.2.1, h2.2.2.1, h2.2.2.2.1]

/-- The outcome of every execution that ends ready when only the task `fid`
fails. -/
theorem confined_outcome {o : Outcomes} {chg fid : Nat} {f0 : Task} {s0 : System FakeOps}
    (hnr : ∀ i after, o.doResult i ≠ .retry after) (hundo : ∀ i, o.undoResult i = none)
    (hwf : WellFormed installRunner chg s0.st) (hfresh : Fresh s0.st)
    (hf0 : s0.st.tasks[fid]? = some f0)
    (hfail : ∃ msg, o.doResult fid = .error msg)
    (honly : ∀ i msg, o.doResult i = .error msg → i = fid)
    (trace : List Event) (s : System FakeOps)
    (hrun : run installRunner s0 trace = some s) (hal : ∀ e ∈ trace, o.allows e)
    (hready : s.st.IsReady chg = true) :
    LaneOutcome fid f0 s0.st s.st := by
  obtain ⟨hi, hs, htr, hlk⟩ := run_install hnr hundo hwf hfresh trace s hrun hal
  have hc := run_confined hnr honly hwf hfresh trace s hrun hal
  have hr := (isReady_iff hi.wf).mp hready
  obtain ⟨msg, hres⟩ := hfail
  obtain ⟨f, hf, hfs⟩ := static_forward hrun hf0
  have hnd : f.status ≠ .Done := by
    intro hd
    rw [hs.done fid f hf hd] at hres
    exact absurd hres (by simp)
  have hfb := ready_not_done_backward (hr fid f hf) hnd (hi.life fid f hf).2
  have haff : ∀ (t : Task), affectedBy f t = affectedBy f0 t := fun t =>
    affectedBy_static hfs rfl
  -- the status of every task
  have hdone : ∀ (i : Nat) (t : Task), s.st.tasks[i]? = some t → i ≠ fid →
      affectedBy f0 t = false → t.status = .Done := by
    intro i t ht hne hna
    have hnb : t.status.backward = false := by
      cases hb : t.status.backward with
      | false => rfl
      | true =>
        rcases hc.cause i t ht hb with h1 | ⟨f1, hf1, ha⟩
        · exact absurd h1 hne
        · rw [hf] at hf1
          cases hf1
          rw [haff t, hna] at ha
          exact absurd ha (by simp)
    exact ready_forward_done (hr i t ht) hnb (hi.life i t ht).2
  have hsettled : ∀ (i : Nat) (t : Task), s.st.tasks[i]? = some t →
      (i = fid ∨ affectedBy f0 t = true) → t.status.settled = true := by
    intro i t ht hor
    rcases hor with h1 | h1
    · subst h1
      rw [hf] at ht
      cases ht
      exact hfb.2
    · exact ready_backward_settled (hr i t ht)
        (hc.spread f hf hfb.1 i t ht (by rw [haff t]; exact h1))
  intro i t ht
  refine ⟨hdone i t ht, hsettled i t ht, ?_⟩
  intro name hlink honce habs
  obtain ⟨honce_s, hlinked⟩ := hlk name honce
  constructor
  · intro hne hna
    exact hlinked i t ht hlink (hdone i t ht hne hna)
  · intro hor
    rcases htr name habs with ha | ⟨j, u, hu, hul, hact⟩
    · exact ha
    · have hji := honce_s j i u t hu ht hul hlink
      subst hji
      rw [hu] at ht
      cases ht
      exact absurd hact (settled_not_linkActive (hsettled j t hu hor))

end Snapstate

namespace Overlord

variable {W : Type}

theorem updTask_error_cause {r : TaskRunner W} {s : System W} {e : Event} {i : Nat} {t : Task}
    (hen : enabled r s e = true)
    (h : (updTask s.st e i t).status = .Error) :
    t.status = .Error ∨ (∃ msg, e = .doReturn i (.error msg)) ∨
      ∃ msg, e = .undoReturn i (some msg) := by
  cases e with
  | start id =>
    by_cases hid : i = id
    · subst hid; simp [updTask] at h
    · left; simpa [updTask, hid] using h
  | doReturn id res =>
    obtain ⟨t1, ht1, hs⟩ := enabled_doReturn hen
    by_cases hid : i = id
    · subst hid
      cases res with
      | ok => simp [updTask] at h
      | retry after => simp [updTask] at h
      | error msg => right; left; exact ⟨msg, rfl⟩
    · cases res with
      | ok => left; simpa [updTask, hid] using h
      | retry after => left; simpa [updTask, hid] using h
      | error msg =>
        simp only [updTask, hid, ↓reduceIte, ht1] at h
        split at h
        · cases hst : t.status <;> simp_all [abortStatus]
        · left; exact h
  | undoStart id =>
    by_cases hid : i = id
    · subst hid; simp [updTask] at h
    · left; simpa [updTask, hid] using h
  | undoReturn id err =>
    by_cases hid : i = id
    · subst hid
      cases err with
      | none => simp [updTask] at h
      | some msg => right; right; exact ⟨msg, rfl⟩
    · left; cases err <;> simpa [updTask, hid] using h
  | tick => left; simpa [updTask] using h

theorem updTask_pastDo {r : TaskRunner W} {s : System W} {e : Event} {i : Nat} {t : Task}
    (hen : enabled r s e = true) (ht : s.st.tasks[i]? = some t)
    (hok : ∀ id msg, e ≠ .undoReturn id (some msg))
    (h : t.status.pastDo = true) :
    (updTask s.st e i t).status.pastDo = true := by
  cases e with
  | start id =>
    obtain ⟨t1, ht1, hs, -⟩ := enabled_start hen
    by_cases hid : i = id
    · subst hid; rw [ht] at ht1; cases ht1; simp [hs, Status.pastDo] at h
    · simpa [updTask, hid] using h
  | doReturn id res =>
    obtain ⟨t1, ht1, hs⟩ := enabled_doReturn hen
    by_cases hid : i = id
    · subst hid; rw [ht] at ht1; cases ht1; simp [hs, Status.pastDo] at h
    · cases res with
      | ok => simpa [updTask, hid] using h
      | retry after => simpa [updTask, hid] using h
      | error msg =>
        simp only [updTask, hid, ↓reduceIte, ht1]
        split
        · cases hst : t.status <;> simp_all [abortStatus, Status.pastDo]
        · exact h
  | undoStart id =>
    by_cases hid : i = id
    · subst hid; simp [updTask, Status.pastDo]
    · simpa [updTask, hid] using h
  | undoReturn id err =>
    by_cases hid : i = id
    · subst hid
      cases err with
      | none => simp [updTask, Status.pastDo]
      | some msg => exact absurd rfl (hok i msg)
    · cases err <;> simpa [updTask, hid] using h
  | tick => simpa [updTask] using h

theorem doneOrder_snoc (es : List Event) (e : Event) (i : Nat)
    (h : i ∈ doneOrder (es ++ [e])) : i ∈ doneOrder es ∨ e = .doReturn i .ok := by
  simp only [doneOrder, List.filterMap_append, List.mem_append] at h
  rcases h with h | h
  · left; exact h
  · right
    cases e with
    | doReturn id res =>
      cases res with
      | ok =>
        have hid : i = id := by simpa [List.filterMap] using h
        subst hid
        rfl
      | retry after => simp [List.filterMap] at h
      | error msg => simp [List.filterMap] at h
    | start id => simp [List.filterMap] at h
    | undoStart id => simp [List.filterMap] at h
    | undoReturn id err => simp [List.filterMap] at h
    | tick => simp [List.filterMap] at h

/-- `Traced` holds after every execution from a store without failed task,
when the events are what the results say and no undo handler fails. -/
theorem run_traced {r : TaskRunner W} {o : Outcomes} {s0 : System W}
    (hundo : ∀ i, o.undoResult i = none)
    (h0 : ∀ (i : Nat) (t : Task), s0.st.tasks[i]? = some t → t.status ≠ .Error) :
    ∀ (trace : List Event) (s : System W), run r s0 trace = some s →
      (∀ e ∈ trace, o.allows e) → Traced o trace s.st := by
  intro trace
  induction trace using List.reverseRecOn with
  | nil =>
    intro s hrun _
    simp only [run, Option.some.injEq] at hrun
    subst hrun
    exact ⟨fun i t ht he => absurd he (h0 i t ht), fun i t _ hm => by simp [doneOrder] at hm⟩
  | append_singleton es e ih =>
    intro s hrun hal
    obtain ⟨s1, hrun1, hstep⟩ := run_snoc hrun
    have hal1 : ∀ e ∈ es, o.allows e := fun e he => hal e (List.mem_append_left _ he)
    have hae : o.allows e := hal e (by simp)
    have ht1 := ih s1 hrun1 hal1
    have hen := (step_eq_some hstep).1
    constructor
    · intro i t2 ht2 herr
      obtain ⟨t, ht, rfl⟩ := step_getElem?_some hstep ht2
      rcases updTask_error_cause hen herr with h1 | ⟨msg, h1⟩ | ⟨msg, h1⟩
      · exact ht1.error i t ht h1
      · subst h1
        exact ⟨msg, hae.symm⟩
      · exact absurd h1 (allows_undoOk hundo hae i msg)
    · intro i t2 ht2 hm
      obtain ⟨t, ht, rfl⟩ := step_getElem?_some hstep ht2
      rcases doneOrder_snoc es e i hm with h1 | h1
      · exact updTask_pastDo hen ht (allows_undoOk hundo hae) (ht1.done i t ht h1)
      · subst h1
        simp [updTask, Status.pastDo]

end Overlord

namespace Snapstate

open Overlord

theorem settled_backward {st : Status} (h : st.settled = true) : st.backward = true := by
  cases st <;> simp_all [Status.settled, Status.backward]

theorem settled_cases {st : Status} (h : st.settled = true) (hne : st ≠ .Error) :
    st = .Undone ∨ st = .Hold := by
  cases st <;> simp_all [Status.settled]

theorem settled_pastDo {st : Status} (h : st.settled = true) (hp : st.pastDo = true) :
    st = .Undone := by
  cases st <;> simp_all [Status.settled, Status.pastDo]

/-- The rollback at the end of every execution that ends ready when only the
task `fid` fails. -/
theorem confined_rollback {o : Outcomes} {chg fid : Nat} {f0 : Task} {s0 : System FakeOps}
    (hnr : ∀ i after, o.doResult i ≠ .retry after) (hundo : ∀ i, o.undoResult i = none)
    (hwf : WellFormed installRunner chg s0.st) (hfresh : Fresh s0.st)
    (hf0 : s0.st.tasks[fid]? = some f0)
    (hfail : ∃ msg, o.doResult fid = .error msg)
    (honly : ∀ i msg, o.doResult i = .error msg → i = fid)
    (trace : List Event) (s : System FakeOps)
    (hrun : run installRunner s0 trace = some s) (hal : ∀ e ∈ trace, o.allows e)
    (hready : s.st.IsReady chg = true) :
    RolledBack fid f0 trace s.st := by
  have hout := confined_outcome hnr hundo hwf hfresh hf0 hfail honly trace s hrun hal hready
  obtain ⟨hi, hs, -, -⟩ := run_install hnr hundo hwf hfresh trace s hrun hal
  have htr := run_traced (r := installRunner) hundo
    (fun i t ht he => by rw [(hfresh i t ht).1] at he; exact absurd he (by simp))
    trace s hrun hal
  obtain ⟨f, hf, -⟩ := static_forward hrun hf0
  -- only the task `fid` is in `Error`
  have herr : ∀ (i : Nat) (t : Task), s.st.tasks[i]? = some t → t.status = .Error → i = fid := by
    intro i t ht he
    obtain ⟨msg, hm⟩ := htr.error i t ht he
    exact honly i msg hm
  intro i t ht
  constructor
  · intro hif
    subst hif
    have hset := (hout i t ht).2.1 (Or.inl rfl)
    -- the failed task went backward, so some task is in `Error`: this one
    have hb : t.status.backward = true := settled_backward hset
    obtain ⟨j, g, hg, hge⟩ := hs.failed ⟨i, t, ht, hb⟩
    have hji := herr j g hg hge
    subst hji
    rw [hg] at ht
    cases ht
    exact hge
  · intro hne haff
    have hset := (hout i t ht).2.1 (Or.inr haff)
    have hnerr : t.status ≠ .Error := fun he => hne (herr i t ht he)
    exact ⟨settled_cases hset hnerr, fun hm => settled_pastDo hset (htr.done i t ht hm)⟩

/-- C4: for a change whose tasks are split across lanes, when the do handler
of one task fails and no other handler does, every task outside the lanes of
the failed task (and lane 0) ends `Done` and exactly the tasks sharing a lane
with it (plus lane 0) are rolled back: the failed task ends in `Error`, every
other one ends undone or, only if its do handler never returned nil, held; a
snap linked by a task outside these lanes ends installed and a snap linked by
a task inside them ends absent (`snapstate.Get` answers the no-state error).
This holds of every execution that ends ready, and the sequential driver
does end ready. -/
theorem lane_failure_is_confined (o : Outcomes) (chg fid : Nat) (f0 : Task)
    (s0 : System FakeOps)
    (hnr : ∀ i after, o.doResult i ≠ .retry after) (hundo : ∀ i, o.undoResult i = none)
    (hwf : WellFormed installRunner chg s0.st) (hfresh : Fresh s0.st)
    (hf0 : s0.st.tasks[fid]? = some f0)
    (hfail : ∃ msg, o.doResult fid = .error msg)
    (honly : ∀ i msg, o.doResult i = .error msg → i = fid) :
    (∀ (trace : List Event) (s : System FakeOps),
      run installRunner s0 trace = some s → (∀ e ∈ trace, o.allows e) →
      s.st.IsReady chg = true →
      LaneOutcome fid f0 s0.st s.st ∧ RolledBack fid f0 trace s.st) ∧
    (settle installRunner o s0.st.measure s0).st.IsReady chg = true ∧
    LaneOutcome fid f0 s0.st (settle installRunner o s0.st.measure s0).st ∧
    RolledBack fid f0 (settleTrace installRunner o s0.st.measure s0)
      (settle installRunner o s0.st.measure s0).st := by
  obtain ⟨hrun, hal, hready⟩ := settle_install (c := chg) hnr hundo hwf hfresh
  exact ⟨fun trace s hr ha hrd =>
      ⟨confined_outcome hnr hundo hwf hfresh hf0 hfail honly trace s hr ha hrd,
        confined_rollback hnr hundo hwf hfresh hf0 hfail honly trace s hr ha hrd⟩,
    hready, confined_outcome hnr hundo hwf hfresh hf0 hfail honly _ _ hrun hal hready,
    confined_rollback hnr hundo hwf hfresh hf0 hfail honly _ _ hrun hal hready⟩

end Snapstate

namespace Overlord

variable {W : Type}

theorem allTasks_spec {s : State} {p : Nat → Task → Bool} (h : s.allTasks p = true)
    (i : Nat) (t : Task) (ht : s.tasks[i]? = some t) : p i t = true := by
  unfold State.allTasks at h
  rw [List.all_eq_true] at h
  have hi : i < s.tasks.length := by
    rcases Nat.lt_or_ge i s.tasks.length with h1 | h1
    · exact h1
    · rw [List.getElem?_eq_none h1] at ht
      exact absurd ht (by simp)
  have := h i (List.mem_range.mpr hi)
  simpa [ht] using this

theorem wellFormed_of_check {r : TaskRunner W} {chg : Nat} {st : State}
    (h : wellFormedCheck r chg st = true) : WellFormed r chg st := by
  have hall := allTasks_spec h
  constructor
  · intro i t ht
    have := hall i t ht
    simp only [Bool.and_eq_true, beq_iff_eq] at this
    exact this.1.1
  · intro i t ht w hw
    have := hall i t ht
    simp only [Bool.and_eq_true, beq_iff_eq, List.all_eq_true, decide_eq_true_eq] at this
    obtain ⟨hlt, hl⟩ := this.1.2 w hw
    refine ⟨hlt, ?_⟩
    cases htw : st.tasks[w]? with
    | none => simp [htw] at hl
    | some tw => exact ⟨tw, rfl, by simpa [htw] using hl⟩
  · intro i t ht
    have := hall i t ht
    simp only [Bool.and_eq_true] at this
    exact this.2

theorem fresh_of_check {st : State} (h : freshCheck st = true) : Fresh st := by
  intro i t ht
  have := allTasks_spec h i t ht
  simpa using this

end Overlord

namespace Snapstate

open Overlord

theorem linkedOnce_of_check {name : String} {st : State}
    (h : linkedOnceCheck name st = true) : LinkedOnce name st := by
  intro i j ti tj hti htj hli hlj
  have := allTasks_spec (allTasks_spec h i ti hti) j tj htj
  simpa [hli, hlj] using this

theorem failTriggers_noRetry (st : State) (i after : Nat) :
    (failTriggers st).doResult i ≠ .retry after := by
  simp only [failTriggers]
  split
  · split
    · simp
    · split <;> simp
  · simp

theorem linkOtherSnapFails_noRetry (st : State) (i after : Nat) :
    (linkOtherSnapFails st).doResult i ≠ .retry after := by
  simp only [linkOtherSnapFails]
  split
  · split <;> simp
  · simp

/-- Witness of C3: `TestInstallPathManyTransactionallyWithOneFailing`, where
linking "other-snap" fails: the sequential run ends ready with an error and
neither snap is in the state. -/
theorem transactional_all_or_nothing_witness :
    (settle installRunner (linkOtherSnapFails manyTransactionally.st)
      manyTransactionally.st.measure manyTransactionally).st.IsReady 0 = true ∧
    NothingInstalled 0 manyTransactionally.st
      (settle installRunner (linkOtherSnapFails manyTransactionally.st)
        manyTransactionally.st.measure manyTransactionally).st ∧
    absent (settle installRunner (linkOtherSnapFails manyTransactionally.st)
      manyTransactionally.st.measure manyTransactionally).st.data "some-snap" ∧
    absent (settle installRunner (linkOtherSnapFails manyTransactionally.st)
      manyTransactionally.st.measure manyTransactionally).st.data "other-snap" :=
  have h := transactional_all_or_nothing (linkOtherSnapFails manyTransactionally.st) 0 1
    manyTransactionally (linkOtherSnapFails_noRetry _) (fun _ => rfl)
    (wellFormed_of_check (by decide)) (fresh_of_check (by decide))
    (fun i t ht => by
      have := allTasks_spec (s := manyTransactionally.st)
        (p := fun _ t => t.Lanes == [1]) (by decide) i t ht
      simpa using this)
    ⟨19, _, "fail", rfl, by decide⟩
  ⟨h.2.1, h.2.2, h.2.2.2 "some-snap" ⟨_, rfl, rfl⟩, h.2.2.2 "other-snap" ⟨_, rfl, rfl⟩⟩

/-- Witness of C4: `TestInstallPathManyWithOneFailing`: the sequential run
ends ready, the tasks of "some-snap" (lane 1) are done and the snap is in the
state, the tasks of "other-snap" (lane 2, the lane of the failing task) are
rolled back (all of them had run: they are undone) and the snap is absent. -/
theorem lane_failure_is_confined_witness :
    (settle installRunner (failTriggers manyWithOneFailing.st)
      manyWithOneFailing.st.measure manyWithOneFailing).st.IsReady 0 = true ∧
    LaneOutcome 28 failingTask manyWithOneFailing.st
      (settle installRunner (failTriggers manyWithOneFailing.st)
        manyWithOneFailing.st.measure manyWithOneFailing).st ∧
    RolledBack 28 failingTask
      (settleTrace installRunner (failTriggers manyWithOneFailing.st)
        manyWithOneFailing.st.measure manyWithOneFailing)
      (settle installRunner (failTriggers manyWithOneFailing.st)
        manyWithOneFailing.st.measure manyWithOneFailing).st ∧
    LinkedOnce "some-snap" manyWithOneFailing.st ∧
    LinkedOnce "other-snap" manyWithOneFailing.st ∧
    isInstalled (settle installRunner (failTriggers manyWithOneFailing.st)
      manyWithOneFailing.st.measure manyWithOneFailing).st "some-snap" = true ∧
    isInstalled (settle installRunner (failTriggers manyWithOneFailing.st)
      manyWithOneFailing.st.measure manyWithOneFailing).st "other-snap" = false :=
  have h := lane_failure_is_confined (failTriggers manyWithOneFailing.st) 0 28 failingTask
    manyWithOneFailing (failTriggers_noRetry _) (fun _ => rfl)
    (wellFormed_of_check (by decide)) (fresh_of_check (by decide)) rfl
    ⟨"expected", by decide⟩
    (fun i msg hm => by
      have hall := allTasks_spec (s := manyWithOneFailing.st)
        (p := fun i t => decide (t.kind = "fail" ∨ t.kind = "error-trigger") → i == 28)
        (by decide)
      simp only [failTriggers] at hm
      split at hm
      · rename_i t ht
        have := hall i t ht
        split at hm
        · simp_all
        · split at hm
          · simp_all
          · exact absurd hm (by simp)
      · exact absurd hm (by simp))
  ⟨h.2.1, h.2.2.1, h.2.2.2, linkedOnce_of_check (by decide), linkedOnce_of_check (by decide),
    by decide, by decide⟩

end Snapstate

namespace Snapstate

open Overlord

/-- Witness of C5 in the change of `TestInstallUndoRunThroughJustOneSnap`:
"download-snap" (task 1) waits for "prerequisites" (task 0); when it is
`Doing`, task 0 was `Done` at a moment at which task 1 was still to be
done. -/
theorem waits_done_before_doing_witness :
    ∃ before after s1,
      [Event.start 0, Event.doReturn 0 .ok, Event.start 1] = before ++ after ∧
      run installRunner undoRunThrough before = some s1 ∧
      s1.st.statusOf 0 = some .Done ∧ s1.st.statusOf 1 = some .Do := by
  have hrun : ∃ s, run installRunner undoRunThrough
      [Event.start 0, Event.doReturn 0 .ok, Event.start 1] = some s ∧
      s.st.statusOf 1 = some .Doing := ⟨_, rfl, by decide⟩
  obtain ⟨s, hs, hdoing⟩ := hrun
  exact waits_done_before_doing installRunner undoRunThrough s _ 0 1 _
    (show undoRunThrough.st.tasks[1]? = some _ from rfl) (by decide) (by decide) hs hdoing

end Snapstate

namespace Overlord

variable {W : Type}

theorem effects_snoc (es : List Event) (e : Event) :
    effects (es ++ [e]) = effects es ++ effects [e] := by
  simp [effects, List.filterMap_append]

theorem chain_run {r : TaskRunner W} {n : Nat} {s0 s : System W} {es : List Event}
    (hc : Chain n s0.st) (hrun : run r s0 es = some s) : Chain n s.st := by
  have hlen : ∀ (i : Nat), i < s.st.tasks.length ↔ i < s0.st.tasks.length := by
    intro i
    have := run_static es s0 s hrun i
    constructor
    · intro hi
      rcases Nat.lt_or_ge i s0.st.tasks.length with h | h
      · exact h
      · rw [List.getElem?_eq_none h, List.getElem?_eq_getElem hi] at this
        simp at this
    · intro hi
      rcases Nat.lt_or_ge i s.st.tasks.length with h | h
      · exact h
      · rw [List.getElem?_eq_none h, List.getElem?_eq_getElem hi] at this
        simp at this
  constructor
  · rw [← hc.size]
    apply Nat.le_antisymm
    · by_contra hlt
      have := (hlen s0.st.tasks.length).mp (by omega)
      omega
    · by_contra hlt
      have := (hlen s.st.tasks.length).mpr (by omega)
      omega
  · intro i t ht
    obtain ⟨t0, ht0, hs⟩ := static_backward hrun ht
    rw [(static_fields hs).2.1]
    exact hc.waits i t0 ht0
  · intro i j ti tj hti htj
    obtain ⟨ti0, hti0, hsi⟩ := static_backward hrun hti
    obtain ⟨tj0, htj0, hsj⟩ := static_backward hrun htj
    rw [Snapstate.affectedBy_static hsi hsj]
    exact hc.lanes i j ti0 tj0 hti0 htj0

theorem chain_lt {n : Nat} {st : State} (hc : Chain n st) {i : Nat} {t : Task}
    (ht : st.tasks[i]? = some t) : i < n + 1 := by
  rw [← hc.size]
  rcases Nat.lt_or_ge i st.tasks.length with h | h
  · exact h
  · rw [List.getElem?_eq_none h] at ht
    exact absurd ht (by simp)

theorem chain_get {n : Nat} {st : State} (hc : Chain n st) {i : Nat} (hi : i < n + 1) :
    ∃ t, st.tasks[i]? = some t := by
  rw [← hc.size] at hi
  exact ⟨_, List.getElem?_eq_getElem hi⟩

end Overlord

namespace Overlord

variable {W : Type}

theorem forward_status {n k : Nat} {effs : List (Bool × Nat)} {st : State}
    (hf : Forward n k effs st) {i : Nat} {t : Task} (ht : st.tasks[i]? = some t) :
    (t.status = .Done ∧ i < k) ∨ (t.status = .Do ∧ k ≤ i) ∨ (t.status = .Doing ∧ i = k) := by
  obtain ⟨h1, h2, h3⟩ := hf.2.2 i t ht
  rcases Nat.lt_trichotomy i k with h | h | h
  · exact Or.inl ⟨h1 h, h⟩
  · rcases h3 h with h4 | h4
    · exact Or.inr (Or.inl ⟨h4, by omega⟩)
    · exact Or.inr (Or.inr ⟨h4, h⟩)
  · exact Or.inr (Or.inl ⟨h2 h, by omega⟩)

theorem backward_status {n m : Nat} {effs : List (Bool × Nat)} {st : State}
    (hc : Chain n st) (hb : Backward n m effs st) {i : Nat} {t : Task}
    (ht : st.tasks[i]? = some t) :
    (t.status = .Error ∧ i = n) ∨ (t.status = .Undone ∧ m ≤ i ∧ i < n) ∨
      (t.status = .Undo ∧ i < m) ∨ (t.status = .Undoing ∧ i + 1 = m) := by
  obtain ⟨h1, h2, h3⟩ := hb.2.2 i t ht
  have hi := chain_lt hc ht
  by_cases hn : i = n
  · exact Or.inl ⟨h1 hn, hn⟩
  · by_cases hm : m ≤ i
    · exact Or.inr (Or.inl ⟨h2 hm (by omega), hm, by omega⟩)
    · rcases h3 (by omega) with h4 | ⟨h4, h5⟩
      · exact Or.inr (Or.inr (Or.inl ⟨h4, by omega⟩))
      · exact Or.inr (Or.inr (Or.inr ⟨h5, h4⟩))

theorem step_status {r : TaskRunner W} {s s1 : System W} {e : Event}
    (h : step r s e = some s1) {i : Nat} {t2 : Task} (ht2 : s1.st.tasks[i]? = some t2) :
    ∃ t, s.st.tasks[i]? = some t ∧ t2.status = (updTask s.st e i t).status := by
  obtain ⟨t, ht, h2⟩ := step_getElem?_some h ht2
  exact ⟨t, ht, by rw [h2]⟩

/-- A step of a chain on its way forward: the chain goes on forward, or its
last task fails and it turns back. -/
theorem forward_step {r : TaskRunner W} {o : Outcomes} {n k : Nat} {s s1 : System W}
    {e : Event} {effs : List (Bool × Nat)}
    (hc : Chain n s.st) (hok : ∀ i, i < n → o.doResult i = .ok)
    (hfail : ∃ msg, o.doResult n = .error msg)
    (hstep : step r s e = some s1) (hal : o.allows e) (hf : Forward n k effs s.st) :
    (∃ k1, Forward n k1 (effs ++ effects [e]) s1.st) ∨
      ∃ m, Backward n m (effs ++ effects [e]) s1.st := by
  have hen := (step_eq_some hstep).1
  obtain ⟨hkn, heff, hst⟩ := hf
  cases e with
  | tick =>
    left
    refine ⟨k, hkn, by simpa [effects] using heff, ?_⟩
    intro i t2 ht2
    obtain ⟨t, ht, h2⟩ := step_status hstep ht2
    have h3 : t2.status = t.status := h2
    rw [h3]
    exact hst i t ht
  | undoStart id =>
    obtain ⟨t, ht, hs, -⟩ := enabled_undoStart hen
    rcases forward_status ⟨hkn, heff, hst⟩ ht with h | h | h <;> simp [hs] at h
  | undoReturn id err =>
    obtain ⟨t, ht, hs⟩ := enabled_undoReturn hen
    rcases forward_status ⟨hkn, heff, hst⟩ ht with h | h | h <;> simp [hs] at h
  | start id =>
    obtain ⟨t, ht, hs, -, -, hwd, -⟩ := enabled_start hen
    have hid : id = k := by
      rcases forward_status ⟨hkn, heff, hst⟩ ht with h | h | h
      · simp [hs] at h
      · -- a task after `k` waits for a task that is not done
        by_contra hne
        have hlt : k < id := by omega
        obtain ⟨j, rfl⟩ : ∃ j, id = j + 1 := ⟨id - 1, by omega⟩
        have hw := hc.waits j t ht
        simp only [State.waitsDone, List.all_eq_true, decide_eq_true_eq] at hwd
        have hd := hwd j hw
        simp only [State.statusOf] at hd
        cases htj : s.st.tasks[j]? with
        | none => simp [htj] at hd
        | some tj =>
          simp only [htj, Option.map_some', Option.some.injEq] at hd
          rcases forward_status ⟨hkn, heff, hst⟩ htj with h1 | h1 | h1
          · omega
          · simp [hd] at h1
          · simp [hd] at h1
      · simp [hs] at h
    subst hid
    left
    refine ⟨id, hkn, by simpa [effects] using heff, ?_⟩
    intro i t2 ht2
    obtain ⟨t1, ht1, h2⟩ := step_status hstep ht2
    by_cases hi : i = id
    · subst hi
      have h3 : t2.status = .Doing := by simpa [updTask] using h2
      rw [h3]
      exact ⟨fun h => by omega, fun h => by omega, fun _ => Or.inr rfl⟩
    · have h3 : t2.status = t1.status := by simpa [updTask, hi] using h2
      rw [h3]
      exact hst i t1 ht1
  | doReturn id res =>
    obtain ⟨t, ht, hs⟩ := enabled_doReturn hen
    have hid : id = k := by
      rcases forward_status ⟨hkn, heff, hst⟩ ht with h | h | h
      · simp [hs] at h
      · simp [hs] at h
      · exact h.2
    subst hid
    have hres : res = o.doResult id := hal
    by_cases hlast : id = n
    · -- the last task fails
      subst hlast
      obtain ⟨msg, hmsg⟩ := hfail
      rw [hmsg] at hres
      subst hres
      right
      refine ⟨id, Nat.le_refl _, by simp [effects, heff], ?_⟩
      intro i t2 ht2
      obtain ⟨t1, ht1, h2⟩ := step_status hstep ht2
      have hi := chain_lt hc ht1
      by_cases hid : i = id
      · subst hid
        have h3 : t2.status = .Error := by simpa [updTask] using h2
        rw [h3]
        exact ⟨fun _ => rfl, fun h1 h4 => by omega, fun h => by omega⟩
      · have hlt : i < id := by omega
        have hd := (hst i t1 ht1).1 hlt
        have haff := hc.lanes id i t t1 ht ht1
        have h3 : t2.status = .Undo := by
          simpa [updTask, hid, ht, haff, hd, abortStatus] using h2
        rw [h3]
        exact ⟨fun h => absurd h hid, fun h => by omega, fun _ => Or.inl rfl⟩
    · have hlt : id < n := by omega
      rw [hok id hlt] at hres
      subst hres
      left
      refine ⟨id + 1, hlt, ?_, ?_⟩
      · simp [effects, heff, List.range_succ]
      · intro i t2 ht2
        obtain ⟨t1, ht1, h2⟩ := step_status hstep ht2
        by_cases hi : i = id
        · subst hi
          have h3 : t2.status = .Done := by simpa [updTask] using h2
          rw [h3]
          exact ⟨fun _ => rfl, fun h => by omega, fun h => by omega⟩
        · have := hst i t1 ht1
          have h3 : t2.status = t1.status := by simpa [updTask, hi] using h2
          rw [h3]
          exact ⟨fun h => this.1 (by omega), fun h => this.2.1 (by omega),
            fun h => Or.inl (this.2.1 (by omega))⟩

/-- A step of a chain on its way back: the next task to be undone is the one
before those already undone. -/
theorem backward_step {r : TaskRunner W} {o : Outcomes} {n m : Nat} {s s1 : System W}
    {e : Event} {effs : List (Bool × Nat)}
    (hc : Chain n s.st) (hundo : ∀ i, o.undoResult i = none)
    (hstep : step r s e = some s1) (hal : o.allows e) (hb : Backward n m effs s.st) :
    ∃ m1, Backward n m1 (effs ++ effects [e]) s1.st := by
  have hen := (step_eq_some hstep).1
  have hb0 := hb
  obtain ⟨hmn, heff, hst⟩ := hb
  cases e with
  | tick =>
    refine ⟨m, hmn, by simpa [effects] using heff, ?_⟩
    intro i t2 ht2
    obtain ⟨t, ht, h2⟩ := step_status hstep ht2
    have h3 : t2.status = t.status := h2
    rw [h3]
    exact hst i t ht
  | start id =>
    obtain ⟨t, ht, hs, -⟩ := enabled_start hen
    rcases backward_status hc hb0 ht with h | h | h | h <;> simp [hs] at h
  | doReturn id res =>
    obtain ⟨t, ht, hs⟩ := enabled_doReturn hen
    rcases backward_status hc hb0 ht with h | h | h | h <;> simp [hs] at h
  | undoStart id =>
    obtain ⟨t, ht, hs, hh⟩ := enabled_undoStart hen
    have hid : id < m := by
      rcases backward_status hc hb0 ht with h | h | h | h
      · simp [hs] at h
      · simp [hs] at h
      · exact h.2
      · simp [hs] at h
    have hnext : id + 1 = m := by
      by_contra hne
      have hlt : id + 1 < m := by omega
      obtain ⟨u, hu⟩ := chain_get hc (show id + 1 < n + 1 by omega)
      have hw := hc.waits id u hu
      simp only [State.haltsSettled, List.all_eq_true, Bool.or_eq_true, Bool.not_eq_true',
        List.contains_eq_any_beq, List.any_eq_false, beq_iff_eq] at hh
      have := hh u (List.getElem?_mem hu)
      rcases this with h1 | h1
      · exact h1 id hw rfl
      · rcases backward_status hc hb0 hu with h | h | h | h
        · omega
        · omega
        · simp [h.1, Status.settled] at h1
        · simp [h.1, Status.settled] at h1
    refine ⟨m, hmn, by simpa [effects] using heff, ?_⟩
    intro i t2 ht2
    obtain ⟨t1, ht1, h2⟩ := step_status hstep ht2
    by_cases hi : i = id
    · subst hi
      have h3 : t2.status = .Undoing := by simpa [updTask] using h2
      rw [h3]
      exact ⟨fun h => by omega, fun h => by omega, fun _ => Or.inr ⟨hnext, rfl⟩⟩
    · have := hst i t1 ht1
      have h3 : t2.status = t1.status := by simpa [updTask, hi] using h2
      rw [h3]
      refine ⟨this.1, this.2.1, fun h => ?_⟩
      rcases this.2.2 h with h1 | ⟨h1, -⟩
      · exact Or.inl h1
      · omega
  | undoReturn id err =>
    obtain ⟨t, ht, hs⟩ := enabled_undoReturn hen
    have hid : id + 1 = m := by
      rcases backward_status hc hb0 ht with h | h | h | h
      · simp [hs] at h
      · simp [hs] at h
      · simp [hs] at h
      · exact h.2
    have herr : err = none := by
      have : err = o.undoResult id := hal
      rw [this, hundo id]
    subst herr
    refine ⟨id, by omega, ?_, ?_⟩
    · have hlen : n - id = (n - m) + 1 := by omega
      rw [hlen, List.range'_succ, ← hid]
      simp [effects, heff, ← hid]
    · intro i t2 ht2
      obtain ⟨t1, ht1, h2⟩ := step_status hstep ht2
      by_cases hi : i = id
      · subst hi
        have h3 : t2.status = .Undone := by simpa [updTask] using h2
        rw [h3]
        exact ⟨fun h => by omega, fun _ _ => rfl, fun h => by omega⟩
      · have := hst i t1 ht1
        have h3 : t2.status = t1.status := by simpa [updTask, hi] using h2
        rw [h3]
        refine ⟨this.1, fun h1 h4 => this.2.1 (by omega) h4, fun h => ?_⟩
        rcases this.2.2 (by omega) with h1 | ⟨h1, -⟩
        · exact Or.inl h1
        · omega

end Overlord

namespace Overlord

variable {W : Type}

/-- All along an execution of a chain whose last task alone fails, the chain
is on its way forward or on its way back. -/
theorem chain_phase {r : TaskRunner W} {o : Outcomes} {n : Nat} {s0 : System W}
    (hc : Chain n s0.st) (hfresh : Fresh s0.st)
    (hundo : ∀ i, o.undoResult i = none) (hok : ∀ i, i < n → o.doResult i = .ok)
    (hfail : ∃ msg, o.doResult n = .error msg) :
    ∀ (trace : List Event) (s : System W), run r s0 trace = some s →
      (∀ e ∈ trace, o.allows e) →
      (∃ k, Forward n k (effects trace) s.st) ∨ ∃ m, Backward n m (effects trace) s.st := by
  intro trace
  induction trace using List.reverseRecOn with
  | nil =>
    intro s hrun _
    simp only [run, Option.some.injEq] at hrun
    subst hrun
    left
    refine ⟨0, Nat.zero_le _, by simp [effects], ?_⟩
    intro i t ht
    have hd := (hfresh i t ht).1
    exact ⟨fun h => by omega, fun _ => hd, fun _ => Or.inl hd⟩
  | append_singleton es e ih =>
    intro s hrun hal
    obtain ⟨s1, hrun1, hstep⟩ := run_snoc hrun
    have hal1 : ∀ e ∈ es, o.allows e := fun e he => hal e (List.mem_append_left _ he)
    have hae : o.allows e := hal e (by simp)
    have hc1 := chain_run hc hrun1
    rw [effects_snoc]
    rcases ih s1 hrun1 hal1 with ⟨k, hf⟩ | ⟨m, hb⟩
    · exact forward_step hc1 hok hfail hstep hae hf
    · exact Or.inr (backward_step hc1 hundo hstep hae hb)

/-- In an execution of a chain whose last task alone fails that ends with
every task at rest, the tasks before the last were done in order and then
undone in the reverse order, and no handler had an effect besides. -/
theorem chain_effects {r : TaskRunner W} {o : Outcomes} {n : Nat} {s0 : System W}
    (hc : Chain n s0.st) (hfresh : Fresh s0.st)
    (hundo : ∀ i, o.undoResult i = none) (hok : ∀ i, i < n → o.doResult i = .ok)
    (hfail : ∃ msg, o.doResult n = .error msg)
    (trace : List Event) (s : System W) (hrun : run r s0 trace = some s)
    (hal : ∀ e ∈ trace, o.allows e)
    (hready : ∀ (i : Nat) (t : Task), s.st.tasks[i]? = some t → t.status.ready = true) :
    effects trace = (List.range n).map (Prod.mk false) ++
      (List.range n).reverse.map (Prod.mk true) := by
  have hc1 := chain_run hc hrun
  rcases chain_phase hc hfresh hundo hok hfail trace s hrun hal with ⟨k, hf⟩ | ⟨m, hb⟩
  · obtain ⟨t, ht⟩ := chain_get hc1 (show k < n + 1 by have := hf.1; omega)
    have hr := hready k t ht
    rcases (hf.2.2 k t ht).2.2 rfl with h | h <;> simp [h, Status.ready] at hr
  · have hm : m = 0 := by
      by_contra hne
      obtain ⟨t, ht⟩ := chain_get hc1 (show m - 1 < n + 1 by have := hb.1; omega)
      have hr := hready (m - 1) t ht
      rcases (hb.2.2 (m - 1) t ht).2.2 (by omega) with h | ⟨-, h⟩ <;>
        simp [h, Status.ready] at hr
    subst hm
    rw [hb.2.1, Nat.sub_zero, List.range_eq_range']

theorem doneOrder_effects (trace : List Event) :
    doneOrder trace = (effects trace).filterMap fun p => if p.1 then none else some p.2 := by
  simp only [doneOrder, effects, List.filterMap_filterMap]
  congr 1
  funext e
  cases e with
  | doReturn id res => cases res <;> rfl
  | undoReturn id err => cases err <;> rfl
  | start id => rfl
  | undoStart id => rfl
  | tick => rfl

theorem undoneOrder_effects (trace : List Event) :
    undoneOrder trace = (effects trace).filterMap fun p => if p.1 then some p.2 else none := by
  simp only [undoneOrder, effects, List.filterMap_filterMap]
  congr 1
  funext e
  cases e with
  | doReturn id res => cases res <;> rfl
  | undoReturn id err => cases err <;> rfl
  | start id => rfl
  | undoStart id => rfl
  | tick => rfl

/-- The effects of a chain run through and rolled back: the tasks done, in
order, and the tasks undone, in the reverse order. -/
theorem effects_orders {n : Nat} {trace : List Event}
    (h : effects trace = (List.range n).map (Prod.mk false) ++
      (List.range n).reverse.map (Prod.mk true)) :
    doneOrder trace = List.range n ∧ undoneOrder trace = (List.range n).reverse := by
  rw [doneOrder_effects, undoneOrder_effects, h]
  simp [List.filterMap_append, List.filterMap_map, Function.comp_def]

end Overlord

namespace Overlord

variable {W : Type}

theorem step_effect {r : TaskRunner W} {s s1 : System W} {e : Event}
    (h : step r s e = some s1) : (s1.st.data, s1.world) = effect r s e := by
  unfold step at h
  split at h
  · simp only [Option.some.injEq] at h
    subst h
    rfl
  · exact absurd h (by simp)

/-- The keyed data and the world at the end of an execution are those at its
start after the effects of the execution, in order. -/
theorem run_replay {r : TaskRunner W} (hr : StaticHandlers r) {s0 : System W} :
    ∀ (trace : List Event) (s : System W), run r s0 trace = some s →
      (s.st.data, s.world) =
        (effects trace).foldl (applyEffect r s0.st.tasks) (s0.st.data, s0.world) := by
  intro trace
  induction trace using List.reverseRecOn with
  | nil =>
    intro s hrun
    simp only [run, Option.some.injEq] at hrun
    subst hrun
    rfl
  | append_singleton es e ih =>
    intro s hrun
    obtain ⟨s1, hrun1, hstep⟩ := run_snoc hrun
    rw [effects_snoc, List.foldl_append, ← ih s1 hrun1, step_effect hstep]
    cases e with
    | start id => rfl
    | undoStart id => rfl
    | tick => rfl
    | doReturn id res =>
      cases res with
      | retry after => rfl
      | error msg => rfl
      | ok =>
        simp only [effect, effects, List.filterMap_cons, List.filterMap_nil, List.foldl_cons,
          List.foldl_nil, applyEffect]
        cases ht : s1.st.tasks[id]? with
        | none =>
          cases ht0 : s0.st.tasks[id]? with
          | none => rfl
          | some t0 =>
            obtain ⟨t1, ht1, -⟩ := static_forward hrun1 ht0
            rw [ht] at ht1
            exact absurd ht1 (by simp)
        | some t =>
          obtain ⟨t0, ht0, hs⟩ := static_backward hrun1 ht
          have hk := (static_fields hs).1
          simp only [ht0, ← hk]
          cases hh : r.handlers t.kind with
          | none => rfl
          | some h =>
            simp only [Bool.false_eq_true, ↓reduceIte]
            rw [(hr t.kind h hh t t0 hs).1]
    | undoReturn id err =>
      cases err with
      | some msg => rfl
      | none =>
        simp only [effect, effects, List.filterMap_cons, List.filterMap_nil, List.foldl_cons,
          List.foldl_nil, applyEffect]
        cases ht : s1.st.tasks[id]? with
        | none =>
          cases ht0 : s0.st.tasks[id]? with
          | none => rfl
          | some t0 =>
            obtain ⟨t1, ht1, -⟩ := static_forward hrun1 ht0
            rw [ht] at ht1
            exact absurd ht1 (by simp)
        | some t =>
          obtain ⟨t0, ht0, hs⟩ := static_backward hrun1 ht
          have hk := (static_fields hs).1
          simp only [ht0, ← hk]
          cases hh : r.handlers t.kind with
          | none => rfl
          | some h =>
            simp only [↓reduceIte]
            cases hu : h.undoFn with
            | none => rfl
            | some f =>
              show f t _ = f t0 _
              rw [(hr t.kind h hh t t0 hs).2 f f hu hu]

end Overlord

namespace Snapstate

open Overlord

theorem taskSnapSetup_static {t u : Task} (h : t.static = u.static) :
    taskSnapSetup t = taskSnapSetup u := by
  simp only [taskSnapSetup, Overlord.Task.get, (static_fields h).2.2.2.2]

theorem opsHandler_static (d v : List String) (t u : Task) :
    (opsHandler d v).doFn t = (opsHandler d v).doFn u ∧
      ∀ (f g : Task → Data × FakeOps → Data × FakeOps),
        (opsHandler d v).undoFn = some f → (opsHandler d v).undoFn = some g → f t = g u := by
  refine ⟨rfl, ?_⟩
  intro f g hf hg
  simp only [opsHandler, Option.some.injEq] at hf hg
  subst hf
  subst hg
  rfl

theorem linkSnapHandler_static (t u : Task) (h : taskSnapSetup t = taskSnapSetup u) :
    linkSnapHandler.doFn t = linkSnapHandler.doFn u ∧
      ∀ (f g : Task → Data × FakeOps → Data × FakeOps),
        linkSnapHandler.undoFn = some f → linkSnapHandler.undoFn = some g → f t = g u := by
  constructor
  · funext dw
    simp only [linkSnapHandler, h]
  · intro f g hf hg
    simp only [linkSnapHandler, Option.some.injEq] at hf hg
    subst hf
    subst hg
    funext dw
    simp only [h]

theorem failingHandler_static (t u : Task) :
    failingHandler.doFn t = failingHandler.doFn u ∧
      ∀ (f g : Task → Data × FakeOps → Data × FakeOps),
        failingHandler.undoFn = some f → failingHandler.undoFn = some g → f t = g u := by
  refine ⟨rfl, ?_⟩
  intro f g hf
  simp [failingHandler] at hf

theorem installRunner_static : StaticHandlers installRunner := by
  intro kind h hk t u hs
  have hmem := mem_of_lookup _ _ _ hk
  have hsetup := taskSnapSetup_static hs
  simp only [handlerTable, List.mem_cons, Prod.mk.injEq, List.mem_singleton, List.not_mem_nil,
    or_false] at hmem
  rcases hmem with h1 | h1 | h1 | h1 | h1 | h1 | h1 | h1 | h1 | h1 | h1 | h1 | h1 | h1 | h1 |
    h1 | h1 | h1 <;> obtain ⟨-, hh⟩ := h1 <;> subst hh <;>
    first
    | exact opsHandler_static _ _ t u
    | exact linkSnapHandler_static t u hsetup
    | exact failingHandler_static t u

end Snapstate

namespace Snapstate

open Overlord

/-- The handlers of the install runner record their operations after those
already on record, whatever these are. -/
theorem installHandlers_appends (kind : String) (h : Handler FakeOps)
    (hk : installHandlers kind = some h) (t : Task) (dw : Data × FakeOps) :
    (h.doFn t dw).2 = dw.2 ++ (h.doFn t ([], [])).2 ∧
    ∀ f, h.undoFn = some f → (f t dw).2 = dw.2 ++ (f t ([], [])).2 := by
  have hmem := mem_of_lookup _ _ _ hk
  simp only [handlerTable, List.mem_cons, Prod.mk.injEq, List.mem_singleton, List.not_mem_nil,
    or_false] at hmem
  rcases hmem with h1 | h1 | h1 | h1 | h1 | h1 | h1 | h1 | h1 | h1 | h1 | h1 | h1 | h1 | h1 |
    h1 | h1 | h1 <;> obtain ⟨-, hh⟩ := h1 <;> subst hh <;>
    simp only [opsHandler, failingHandler, linkSnapHandler, Option.some.injEq, forall_eq',
      reduceCtorEq, false_implies, implies_true, and_true, List.nil_append, List.append_nil]
  cases taskSnapSetup t <;> simp

theorem applyEffect_world (tasks : List Task) (dw : Data × FakeOps) (p : Bool × Nat) :
    (applyEffect installRunner tasks dw p).2 = dw.2 ++
      match tasks[p.2]? with
      | some t => opsOf t p.1
      | none => [] := by
  unfold applyEffect opsOf
  cases tasks[p.2]? with
  | none => simp
  | some t =>
    simp only [installRunner]
    cases hh : installHandlers t.kind with
    | none => simp
    | some h =>
      have happ := installHandlers_appends t.kind h hh t dw
      cases hp : p.1 with
      | false => simpa using happ.1
      | true =>
        cases hu : h.undoFn with
        | none => simp [hu]
        | some f =>
          simp only [hu, ↓reduceIte]
          exact happ.2 f hu

theorem foldl_world (tasks : List Task) (effs : List (Bool × Nat)) :
    ∀ (dw : Data × FakeOps),
      (effs.foldl (applyEffect installRunner tasks) dw).2 = dw.2 ++
        (effs.map fun p =>
          match tasks[p.2]? with
          | some t => opsOf t p.1
          | none => []).flatten := by
  induction effs with
  | nil => intro dw; simp
  | cons p ps ih =>
    intro dw
    rw [List.foldl_cons, ih, applyEffect_world]
    simp [List.append_assoc]

theorem taskSnapSetup_probe (kind : String) : taskSnapSetup (probe kind) = some ⟨"snap", "1"⟩ :=
  rfl

/-- The operations a task records depend on its kind alone, when the
"link-snap" tasks work on a snap. -/
theorem opsOf_probe (t : Task) (hsetup : t.kind = "link-snap" → (taskSnapSetup t).isSome = true)
    (undo : Bool) : opsOf t undo = opsOf (probe t.kind) undo := by
  unfold opsOf
  show _ = match installHandlers t.kind with
    | some h => _
    | none => _
  cases hh : installHandlers t.kind with
  | none => rfl
  | some h =>
    have hmem := mem_of_lookup _ _ _ hh
    simp only [handlerTable, List.mem_cons, Prod.mk.injEq, List.mem_singleton, List.not_mem_nil,
      or_false] at hmem
    rcases hmem with h1 | h1 | h1 | h1 | h1 | h1 | h1 | h1 | h1 | h1 | h1 | h1 | h1 | h1 | h1 |
      h1 | h1 | h1 <;> obtain ⟨hkind, hh1⟩ := h1 <;> subst hh1 <;>
      simp only [opsHandler, failingHandler]
    obtain ⟨snapsup, hsn⟩ := Option.isSome_iff_exists.mp (hsetup hkind)
    simp only [linkSnapHandler, hsn, taskSnapSetup_probe]

/-- The operations of the first tasks of a store, by their kinds. -/
theorem ops_of_kinds (tasks : List Task) (kinds rest : List String)
    (hk : tasks.map (·.kind) = kinds ++ rest)
    (hsetup : ∀ (i : Nat) (t : Task), tasks[i]? = some t → t.kind = "link-snap" →
      (taskSnapSetup t).isSome = true) (undo : Bool) :
    ((List.range kinds.length).map fun i =>
      match tasks[i]? with
      | some t => opsOf t undo
      | none => []) = kinds.map fun k => opsOf (probe k) undo := by
  apply List.ext_getElem
  · simp
  · intro i h1 h2
    have hi : i < kinds.length := by simpa using h1
    simp only [List.getElem_map, List.getElem_range]
    have hki : (tasks.map (·.kind))[i]? = some kinds[i] := by
      rw [hk, List.getElem?_append_left hi, List.getElem?_eq_getElem hi]
    rw [List.getElem?_map] at hki
    cases ht : tasks[i]? with
    | none => simp [ht] at hki
    | some t =>
      simp only [ht, Option.map_some', Option.some.injEq] at hki
      simp only
      rw [opsOf_probe t (hsetup i t ht) undo, hki]

/-- The operations on record after a run of these effects: every task before
the last done in order, then undone in the reverse order. -/
theorem world_of_kinds (tasks : List Task) (kinds rest : List String)
    (hk : tasks.map (·.kind) = kinds ++ rest)
    (hsetup : ∀ (i : Nat) (t : Task), tasks[i]? = some t → t.kind = "link-snap" →
      (taskSnapSetup t).isSome = true) (dw : Data × FakeOps) :
    (((List.range kinds.length).map (Prod.mk false) ++
        (List.range kinds.length).reverse.map (Prod.mk true)).foldl
      (applyEffect installRunner tasks) dw).2 = dw.2 ++ runThroughOps kinds := by
  have h1 := ops_of_kinds tasks kinds rest hk hsetup false
  have h2 := ops_of_kinds tasks kinds rest hk hsetup true
  rw [foldl_world, List.map_append, List.flatten_append, List.map_map, List.map_map,
    List.map_reverse]
  unfold runThroughOps
  rw [List.map_reverse, ← h1, ← h2]
  rfl

theorem runThroughOps_install :
    runThroughOps (expectedDoInstallTasks {}) = expectedUndoRunThroughOps.drop 2 := by
  decide

end Snapstate

namespace Snapstate

open Overlord

theorem affectedBy_same_lane {f t : Task} {lane : Nat} (hc : t.change = f.change)
    (hf : f.Lanes = [lane]) (ht : t.Lanes = [lane]) : affectedBy f t = true := by
  simp [affectedBy, hc, hf, ht]

/-- The outcome of every execution that ends ready of an install TaskSet
followed by a task that fails. -/
theorem runThrough_outcome {o : Outcomes} {chg lane : Nat} {s0 : System FakeOps}
    (hnr : ∀ i after, o.doResult i ≠ .retry after) (hundo : ∀ i, o.undoResult i = none)
    (hwf : WellFormed installRunner chg s0.st) (hfresh : Fresh s0.st)
    (hkinds : s0.st.tasks.map (·.kind) = expectedDoInstallTasks {} ++ ["error-trigger"])
    (hchain : ∀ (i : Nat) (t : Task), s0.st.tasks[i + 1]? = some t → i ∈ t.waitTasks)
    (hlane : ∀ (i : Nat) (t : Task), s0.st.tasks[i]? = some t → t.Lanes = [lane])
    (hsetup : ∀ (i : Nat) (t : Task), s0.st.tasks[i]? = some t → t.kind = "link-snap" →
      (taskSnapSetup t).isSome = true)
    (hok : ∀ i, i < (expectedDoInstallTasks {}).length → o.doResult i = .ok)
    (hfail : ∃ msg, o.doResult (expectedDoInstallTasks {}).length = .error msg)
    (trace : List Event) (s : System FakeOps)
    (hrun : run installRunner s0 trace = some s) (hal : ∀ e ∈ trace, o.allows e)
    (hready : s.st.IsReady chg = true) :
    RunThrough chg s0.world s0.st trace s := by
  have hc : Chain (expectedDoInstallTasks {}).length s0.st := by
    refine ⟨?_, hchain, ?_⟩
    · have := congrArg List.length hkinds
      simpa using this
    · intro i j ti tj hti htj
      exact affectedBy_same_lane
        (by rw [hwf.change i ti hti, hwf.change j tj htj]) (hlane i ti hti) (hlane j tj htj)
  obtain ⟨hi, -, -, -⟩ := run_install hnr hundo hwf hfresh trace s hrun hal
  have hr := (isReady_iff hi.wf).mp hready
  have heff := chain_effects hc hfresh hundo hok hfail trace s hrun hal hr
  obtain ⟨hdo, hun⟩ := effects_orders heff
  have hworld : s.world = s0.world ++ expectedUndoRunThroughOps.drop 2 := by
    have h1 := congrArg Prod.snd (run_replay installRunner_static trace s hrun)
    simp only at h1
    rw [h1, heff, world_of_kinds s0.st.tasks _ _ hkinds hsetup, runThroughOps_install]
  obtain ⟨msg, hmsg⟩ := hfail
  obtain ⟨tf, htf⟩ := chain_get hc (Nat.lt_succ_self _)
  refine ⟨hdo, hun, ?_, hworld, ?_, ?_,
    transactional_outcome hnr hundo hwf hfresh hlane ⟨_, tf, msg, htf, hmsg⟩ trace s hrun hal
      hready⟩
  · rw [heff, hdo, hun]
  · rw [hworld, List.drop_left]
    decide
  · rw [hworld]
    have : expectedUndoRunThroughOps.drop 2 =
        (expectedUndoRunThroughOps.drop 2).dropLast ++ ["remove-snap-dir"] := by decide
    rw [this, ← List.append_assoc, List.getLast?_append]
    rfl

end Snapstate

namespace Snapstate

open Overlord

/-- C6: for the TaskSet of an install (every task waiting for the one before
it, all in one lane) followed by a task "error-trigger" that waits for its
last task, is in its lane and fails: in every execution that ends ready the
tasks of the install are done in order and then undone in the exact reverse
order; the backend operations are those the test expects, in which the setup,
copy and link operations ("setup-snap", "copy-data", "link-snap") are undone
in the exact reverse of the order in which they ran forward ("unlink-snap",
"undo-copy-snap-data", "undo-setup-snap"), the last operation being
"remove-snap-dir"; the change has an error and `snapstate.Get` answers the
no-state error for every snap that was absent before.  The sequential driver
does end ready, with this outcome. -/
theorem undo_run_through (o : Outcomes) (chg lane : Nat) (s0 : System FakeOps)
    (hnr : ∀ i after, o.doResult i ≠ .retry after) (hundo : ∀ i, o.undoResult i = none)
    (hwf : WellFormed installRunner chg s0.st) (hfresh : Fresh s0.st)
    (hkinds : s0.st.tasks.map (·.kind) = expectedDoInstallTasks {} ++ ["error-trigger"])
    (hchain : ∀ (i : Nat) (t : Task), s0.st.tasks[i + 1]? = some t → i ∈ t.waitTasks)
    (hlane : ∀ (i : Nat) (t : Task), s0.st.tasks[i]? = some t → t.Lanes = [lane])
    (hsetup : ∀ (i : Nat) (t : Task), s0.st.tasks[i]? = some t → t.kind = "link-snap" →
      (taskSnapSetup t).isSome = true)
    (hok : ∀ i, i < (expectedDoInstallTasks {}).length → o.doResult i = .ok)
    (hfail : ∃ msg, o.doResult (expectedDoInstallTasks {}).length = .error msg) :
    (∀ (trace : List Event) (s : System FakeOps),
      run installRunner s0 trace = some s → (∀ e ∈ trace, o.allows e) →
      s.st.IsReady chg = true → RunThrough chg s0.world s0.st trace s) ∧
    (settle installRunner o s0.st.measure s0).st.IsReady chg = true ∧
    RunThrough chg s0.world s0.st (settleTrace installRunner o s0.st.measure s0)
      (settle installRunner o s0.st.measure s0) := by
  obtain ⟨hrun, hal, hready⟩ := settle_install (c := chg) hnr hundo hwf hfresh
  exact ⟨fun trace s hr ha hrd =>
      runThrough_outcome hnr hundo hwf hfresh hkinds hchain hlane hsetup hok hfail trace s hr
        ha hrd,
    hready,
    runThrough_outcome hnr hundo hwf hfresh hkinds hchain hlane hsetup hok hfail _ _ hrun hal
      hready⟩

set_option maxRecDepth 100000 in
/-- Witness of C6: `TestInstallUndoRunThroughJustOneSnap`: the
sequential run of the install of "some-snap" with its "error-trigger" ends
ready, the fifteen tasks of the install are undone in the reverse of the
order in which they were done, the operations on record are exactly those the
test expects, with "setup-snap", "copy-data", "link-snap" undone in the exact
reverse order, and "some-snap" is not installed. -/
theorem undo_run_through_witness :
    (settle installRunner (failTriggers undoRunThrough.st) undoRunThrough.st.measure
      undoRunThrough).st.IsReady 0 = true ∧
    RunThrough 0 undoRunThrough.world undoRunThrough.st
      (settleTrace installRunner (failTriggers undoRunThrough.st) undoRunThrough.st.measure
        undoRunThrough)
      (settle installRunner (failTriggers undoRunThrough.st) undoRunThrough.st.measure
        undoRunThrough) ∧
    undoneOrder (settleTrace installRunner (failTriggers undoRunThrough.st)
      undoRunThrough.st.measure undoRunThrough) = [14, 13, 12, 11, 10, 9, 8, 7, 6, 5, 4, 3, 2, 1, 0] ∧
    (settle installRunner (failTriggers undoRunThrough.st) undoRunThrough.st.measure
      undoRunThrough).world = expectedUndoRunThroughOps ∧
    forwardOps expectedUndoRunThroughOps = ["setup-snap", "copy-data", "link-snap"] ∧
    undoOps expectedUndoRunThroughOps = ["unlink-snap", "undo-copy-snap-data", "undo-setup-snap"] ∧
    (settle installRunner (failTriggers undoRunThrough.st) undoRunThrough.st.measure
      undoRunThrough).st.Err 0 = some ["error out"] ∧
    isInstalled (settle installRunner (failTriggers undoRunThrough.st)
      undoRunThrough.st.measure undoRunThrough).st "some-snap" = false :=
  have h := undo_run_through (failTriggers undoRunThrough.st) 0 0 undoRunThrough
    (failTriggers_noRetry _) (fun _ => rfl)
    (wellFormed_of_check (by decide)) (fresh_of_check (by decide))
    (by decide)
    (fun i t ht => by
      have := allTasks_spec (s := undoRunThrough.st)
        (p := fun i t => i == 0 || t.waitTasks.contains (i - 1)) (by decide) (i + 1) t ht
      simpa using this)
    (fun i t ht => by
      have := allTasks_spec (s := undoRunThrough.st)
        (p := fun _ t => t.Lanes == [0]) (by decide) i t ht
      simpa using this)
    (fun i t ht hk => by
      have := allTasks_spec (s := undoRunThrough.st)
        (p := fun _ t => t.kind != "link-snap" || (taskSnapSetup t).isSome) (by decide) i t ht
      simpa [hk] using this)
    (by decide) ⟨"error out", by decide⟩
  ⟨h.2.1, h.2.2, by decide, by decide, by decide, by decide, by decide, by decide⟩

end Snapstate

namespace Ifacestate

theorem mapSet_fresh {β : Type} (m : GoMap β) (k : String) (v : β) (h : k ∉ mapKeys m) :
    mapSet m k v = m ++ [(k, v)] := by
  unfold mapSet
  have : (m.any fun e => e.1 == k) = false := by
    rw [Bool.eq_false_iff]
    intro hany
    rw [List.any_eq_true] at hany
    obtain ⟨e, he, hk⟩ := hany
    exact h (List.mem_map.2 ⟨e, he, by simpa using hk⟩)
  simp [this]

theorem foldl_mapSet {β γ : Type} (f : β → γ) (states : GoMap β) :
    ∀ acc : GoMap γ, (mapKeys acc ++ mapKeys states).Nodup →
      states.foldl (fun m e => mapSet m e.1 (f e.2)) acc
        = acc ++ states.map fun e => (e.1, f e.2) := by
  induction states with
  | nil => intro acc _; simp
  | cons e rest ih =>
    intro acc hnd
    have hfresh : e.1 ∉ mapKeys acc := by
      intro hmem
      have := (List.nodup_append.1 hnd).2.2
      exact this hmem (by simp [mapKeys])
    rw [List.foldl_cons, mapSet_fresh _ _ _ hfresh, ih]
    · simp
    · have : mapKeys (acc ++ [(e.1, f e.2)]) ++ mapKeys rest
          = mapKeys acc ++ mapKeys (e :: rest) := by simp [mapKeys]
      rw [this]; exact hnd

theorem mapGet_of_mem {β : Type} (m : GoMap β) (k : String) (v : β)
    (hnd : (mapKeys m).Nodup) (h : (k, v) ∈ m) : mapGet m k = some v := by
  induction m with
  | nil => simp at h
  | cons e rest ih =>
    have hnd2 : e.1 ∉ mapKeys rest ∧ (mapKeys rest).Nodup := by
      simpa [mapKeys] using hnd
    rcases List.mem_cons.1 h with h1 | h1
    · subst h1; simp [mapGet]
    · have hne : e.1 ≠ k := by
        intro heq
        exact hnd2.1 (List.mem_map.2 ⟨(k, v), h1, heq.symm⟩)
      have := ih hnd2.2 h1
      simpa [mapGet, List.find?_cons, hne] using this

theorem connectionStates_ok {A R E : Type} (env : Env A R E) (states : GoMap (connState A R))
    (hread : env.getConns = .ok states) (hkeys : (mapKeys states).Nodup) :
    ConnectionStates env = .ok (states.map fun e => (e.1, exported e.2)) := by
  unfold ConnectionStates
  rw [hread]
  have := foldl_mapSet (exported (A := A) (R := R)) states [] (by simpa using hkeys)
  simp only [List.nil_append] at this
  simp only [← this]
  rfl

theorem mapGet_isSome {β : Type} (m : GoMap β) (k : String) :
    (mapGet m k).isSome = true ↔ k ∈ mapKeys m := by
  unfold mapGet mapKeys
  rw [Option.isSome_map', List.find?_isSome]
  simp only [beq_iff_eq, List.mem_map]

end Ifacestate

namespace Ifacestate

/-- C19: `ConnectionState.Active` answers true exactly when the connection is
neither undesired nor removed by hotplug: for every `ConnectionState` c,
`c.Active() == (!c.Undesired && !c.HotplugGone)`, whatever the other fields
hold. -/
theorem active_iff_not_undesired_not_gone {A : Type} (c : ConnectionState A) :
    c.Active = (!c.Undesired && !c.HotplugGone) ∧
    (c.Active = true ↔ c.Undesired = false ∧ c.HotplugGone = false) ∧
    (∀ (auto byGadget : Bool) (iface : String) (a1 a2 a3 a4 : A),
      ConnectionState.Active
        { Auto := auto, ByGadget := byGadget, Interface := iface, Undesired := c.Undesired,
          StaticPlugAttrs := a1, DynamicPlugAttrs := a2, StaticSlotAttrs := a3,
          DynamicSlotAttrs := a4, HotplugGone := c.HotplugGone } = c.Active) := by
  refine ⟨?_, ?_, ?_⟩
  · unfold ConnectionState.Active
    cases c.Undesired <;> cases c.HotplugGone <;> rfl
  · unfold ConnectionState.Active
    cases c.Undesired <;> cases c.HotplugGone <;> simp
  · intros; rfl

/-- C20: when reading the stored connections succeeds, `ConnectionStates`
returns a map with exactly the keys of the stored map, in which the entry of
every stored connection carries the stored `Auto`, `ByGadget`, `Interface`,
`Undesired`, `HotplugGone` and the four attribute maps unchanged (inactive
connections are not left out); when reading fails it returns no map and the
error of the read. -/
theorem connectionStates_mirror_stored {A R E : Type} (env : Env A R E) :
    (∀ states : GoMap (connState A R), env.getConns = .ok states → (mapKeys states).Nodup →
      ∃ m, ConnectionStates env = .ok m ∧ mapKeys m = mapKeys states ∧
        ∀ cref cstate, (cref, cstate) ∈ states →
          ∃ c, mapGet m cref = some c ∧ c.Auto = cstate.Auto ∧ c.ByGadget = cstate.ByGadget ∧
            c.Interface = cstate.Interface ∧ c.Undesired = cstate.Undesired ∧
            c.HotplugGone = cstate.HotplugGone ∧
            c.StaticPlugAttrs = cstate.StaticPlugAttrs ∧
            c.DynamicPlugAttrs = cstate.DynamicPlugAttrs ∧
            c.StaticSlotAttrs = cstate.StaticSlotAttrs ∧
            c.DynamicSlotAttrs = cstate.DynamicSlotAttrs) ∧
    (∀ err, env.getConns = .error err → ConnectionStates env = .error err) := by
  refine ⟨fun states hread hkeys => ?_, fun err hread => ?_⟩
  · have hkeys2 : mapKeys (states.map fun e => (e.1, exported e.2)) = mapKeys states := by
      simp [mapKeys, Function.comp_def]
    refine ⟨_, connectionStates_ok env states hread hkeys, hkeys2, fun cref cstate hmem => ?_⟩
    refine ⟨exported cstate, mapGet_of_mem _ _ _ (by rw [hkeys2]; exact hkeys) ?_,
      rfl, rfl, rfl, rfl, rfl, rfl, rfl, rfl, rfl⟩
    exact List.mem_map.2 ⟨(cref, cstate), hmem, rfl⟩
  · unfold ConnectionStates
    rw [hread]

/-- Witness of C20: the manager of the examples stores one connection, which
`ConnectionStates` returns under its key; the manager whose state cannot be
read gets the error of the read. -/
theorem connectionStates_mirror_stored_witness :
    (∃ m, ConnectionStates exampleEnv = .ok m ∧
      mapKeys m = ["consumer:plug producer:slot"] ∧
      ∃ c, mapGet m "consumer:plug producer:slot" = some c ∧ c.Auto = true ∧
        c.Interface = "network" ∧ c.Undesired = false) ∧
    ConnectionStates unreadableEnv = .error "cannot read connections" :=
  have h := (connectionStates_mirror_stored exampleEnv).1 _ rfl (by decide)
  have h2 := (connectionStates_mirror_stored unreadableEnv).2 _ rfl
  match h with
  | ⟨m, hm, hk, hall⟩ =>
    match hall "consumer:plug producer:slot" _ (List.mem_singleton.2 rfl) with
    | ⟨c, hc, ha, _, hi, hu, _⟩ => ⟨⟨m, hm, hk, c, hc, ha, hi, hu⟩, h2⟩

end Ifacestate

namespace Ifacestate

theorem resolveWith_both {A R E : Type} (env : Env A R E) (l : Lookups E)
    (ps p ss s : String) (forget : Bool) (hp : p ≠ "") (hs : s ≠ "") :
    resolveWith env l ps p ss s forget =
      match l.connected (snapOrCore env ps) p (snapOrCore env ss) s with
      | .error err => .error (.other err)
      | .ok isConnected =>
        if !isConnected then
          if forget then .error (.cannotForget (snapOrCore env ps) p (snapOrCore env ss) s)
          else .error (.cannotDisconnect (snapOrCore env ps) p (snapOrCore env ss) s)
        else .ok [⟨⟨snapOrCore env ps, p⟩, ⟨snapOrCore env ss, s⟩⟩] := by
  unfold resolveWith snapOrCore
  simp only [hp, hs, ne_eq, not_false_eq_true, and_self, ↓reduceIte]

/-- C12: `ResolveDisconnect` called with both a plug name and a slot name
requires the two to be connected.  With P the plug `snap:name` and S the slot
`snap:name`, an omitted snap name standing for the core snap: if the
repository has the connection (with `forget`: if the connection id is stored
in the state) the result is exactly the one reference of P and S; if the
repository says not connected the result is no reference and the error
"cannot disconnect P from S, it is not connected", and with `forget`, if the
id is not stored, the error "cannot forget connection P from S, it was not
connected". -/
theorem resolveDisconnect_requires_connected {A R E : Type} (env : Env A R E)
    (plugSnapName plugName slotSnapName slotName : String)
    (hplug : plugName ≠ "") (hslot : slotName ≠ "") :
    (env.repoConnection ⟨⟨snapOrCore env plugSnapName, plugName⟩,
        ⟨snapOrCore env slotSnapName, slotName⟩⟩ = .connected →
      ResolveDisconnect env plugSnapName plugName slotSnapName slotName false
        = .ok [⟨⟨snapOrCore env plugSnapName, plugName⟩,
            ⟨snapOrCore env slotSnapName, slotName⟩⟩]) ∧
    (env.repoConnection ⟨⟨snapOrCore env plugSnapName, plugName⟩,
        ⟨snapOrCore env slotSnapName, slotName⟩⟩ = .notConnected →
      ResolveDisconnect env plugSnapName plugName slotSnapName slotName false
        = .error (.cannotDisconnect (snapOrCore env plugSnapName) plugName
            (snapOrCore env slotSnapName) slotName)) ∧
    (∀ conns, env.getConns = .ok conns →
      env.ID ⟨⟨snapOrCore env plugSnapName, plugName⟩,
        ⟨snapOrCore env slotSnapName, slotName⟩⟩ ∈ mapKeys conns →
      ResolveDisconnect env plugSnapName plugName slotSnapName slotName true
        = .ok [⟨⟨snapOrCore env plugSnapName, plugName⟩,
            ⟨snapOrCore env slotSnapName, slotName⟩⟩]) ∧
    (∀ conns, env.getConns = .ok conns →
      env.ID ⟨⟨snapOrCore env plugSnapName, plugName⟩,
        ⟨snapOrCore env slotSnapName, slotName⟩⟩ ∉ mapKeys conns →
      ResolveDisconnect env plugSnapName plugName slotSnapName slotName true
        = .error (.cannotForget (snapOrCore env plugSnapName) plugName
            (snapOrCore env slotSnapName) slotName)) ∧
    (∀ render : E → String,
      (ResolveError.cannotDisconnect (snapOrCore env plugSnapName) plugName
          (snapOrCore env slotSnapName) slotName).Error render
        = "cannot disconnect " ++ snapOrCore env plugSnapName ++ ":" ++ plugName ++ " from "
            ++ snapOrCore env slotSnapName ++ ":" ++ slotName ++ ", it is not connected" ∧
      (ResolveError.cannotForget (snapOrCore env plugSnapName) plugName
          (snapOrCore env slotSnapName) slotName).Error render
        = "cannot forget connection " ++ snapOrCore env plugSnapName ++ ":" ++ plugName
            ++ " from " ++ snapOrCore env slotSnapName ++ ":" ++ slotName
            ++ ", it was not connected") := by
  refine ⟨fun h => ?_, fun h => ?_, fun conns hread hmem => ?_, fun conns hread hmem => ?_,
    fun _ => ⟨rfl, rfl⟩⟩
  · simp only [ResolveDisconnect, Bool.false_eq_true, ↓reduceIte]
    rw [resolveWith_both env _ _ _ _ _ _ hplug hslot]
    simp [repoLookups, h]
  · simp only [ResolveDisconnect, Bool.false_eq_true, ↓reduceIte]
    rw [resolveWith_both env _ _ _ _ _ _ hplug hslot]
    simp [repoLookups, h]
  · simp only [ResolveDisconnect, ↓reduceIte, hread]
    rw [resolveWith_both env _ _ _ _ _ _ hplug hslot]
    have : (mapGet conns (env.ID ⟨⟨snapOrCore env plugSnapName, plugName⟩,
        ⟨snapOrCore env slotSnapName, slotName⟩⟩)).isSome = true := by
      rw [mapGet_isSome]; exact hmem
    simp [storedLookups, this]
  · simp only [ResolveDisconnect, ↓reduceIte, hread]
    rw [resolveWith_both env _ _ _ _ _ _ hplug hslot]
    have : (mapGet conns (env.ID ⟨⟨snapOrCore env plugSnapName, plugName⟩,
        ⟨snapOrCore env slotSnapName, slotName⟩⟩)).isSome = false := by
      rw [Bool.eq_false_iff, ne_eq, mapGet_isSome]; exact hmem
    simp [storedLookups, this]

set_option maxRecDepth 100000 in
/-- Witness of C12: in the manager of the examples "consumer:plug" and
"producer:slot" are connected and `ResolveDisconnect` answers their one
reference, with and without `forget`; "plug" and "slot" given without snap
names are the core snap's, which are not connected, and the errors read as
the claim says. -/
theorem resolveDisconnect_requires_connected_witness :
    ResolveDisconnect exampleEnv "consumer" "plug" "producer" "slot" false
      = .ok [⟨⟨"consumer", "plug"⟩, ⟨"producer", "slot"⟩⟩] ∧
    ResolveDisconnect exampleEnv "consumer" "plug" "producer" "slot" true
      = .ok [⟨⟨"consumer", "plug"⟩, ⟨"producer", "slot"⟩⟩] ∧
    ResolveDisconnect exampleEnv "" "plug" "" "slot" false
      = .error (.cannotDisconnect "core" "plug" "core" "slot") ∧
    ResolveDisconnect exampleEnv "" "plug" "" "slot" true
      = .error (.cannotForget "core" "plug" "core" "slot") ∧
    (ResolveError.cannotDisconnect "core" "plug" "core" "slot" : ResolveError String).Error id
      = "cannot disconnect core:plug from core:slot, it is not connected" ∧
    (ResolveError.cannotForget "core" "plug" "core" "slot" : ResolveError String).Error id
      = "cannot forget connection core:plug from core:slot, it was not connected" :=
  have h1 := resolveDisconnect_requires_connected exampleEnv "consumer" "plug" "producer" "slot"
    (by decide) (by decide)
  have h2 := resolveDisconnect_requires_connected exampleEnv "" "plug" "" "slot"
    (by decide) (by decide)
  ⟨h1.1 (by decide), h1.2.2.1 _ rfl (by decide), h2.2.1 (by decide),
    h2.2.2.2.1 _ rfl (by decide), by decide, by decide⟩

end Ifacestate

namespace Ifacestate

theorem collectRefs_spec {β E : Type} (parse : String → Except E ConnRef)
    (snapName name : String) (conns : GoMap β)
    (hparse : ∀ connID ∈ mapKeys conns, ∃ cref, parse connID = .ok cref) :
    ∀ acc : List ConnRef, ∃ refs, collectRefs parse snapName name conns acc = .ok refs ∧
      ∀ cref, cref ∈ refs ↔ cref ∈ acc ∨ ∃ connID ∈ mapKeys conns, parse connID = .ok cref ∧
        (cref.PlugRef = ⟨snapName, name⟩ ∨ cref.SlotRef = ⟨snapName, name⟩) := by
  induction conns with
  | nil => intro acc; exact ⟨acc, rfl, fun cref => by simp [mapKeys]⟩
  | cons e rest ih =>
    intro acc
    obtain ⟨connID, v⟩ := e
    obtain ⟨c0, hc0⟩ := hparse connID (by simp [mapKeys])
    have hrest : ∀ connID ∈ mapKeys rest, ∃ cref, parse connID = .ok cref :=
      fun i hi => hparse i (by simp only [mapKeys, List.map_cons, List.mem_cons]; exact Or.inr hi)
    simp only [collectRefs, hc0]
    obtain ⟨refs, hrefs, hmem⟩ := ih hrest
      (if c0.SlotRef.Snap = snapName ∧ c0.SlotRef.Name = name then
        (if c0.PlugRef.Snap = snapName ∧ c0.PlugRef.Name = name then acc ++ [c0] else acc) ++ [c0]
       else (if c0.PlugRef.Snap = snapName ∧ c0.PlugRef.Name = name then acc ++ [c0] else acc))
    refine ⟨refs, hrefs, fun cref => ?_⟩
    rw [hmem]
    have hplug : (c0.PlugRef.Snap = snapName ∧ c0.PlugRef.Name = name)
        ↔ c0.PlugRef = ⟨snapName, name⟩ := by
      cases c0.PlugRef; simp
    have hslot : (c0.SlotRef.Snap = snapName ∧ c0.SlotRef.Name = name)
        ↔ c0.SlotRef = ⟨snapName, name⟩ := by
      cases c0.SlotRef; simp
    simp only [hplug, hslot, mapKeys, List.map_cons, List.mem_cons, exists_eq_or_imp]
    constructor
    · rintro (h | h)
      · by_cases h1 : c0.SlotRef = ⟨snapName, name⟩ <;> by_cases h2 : c0.PlugRef = ⟨snapName, name⟩
          <;> simp only [h1, h2, ↓reduceIte, List.mem_append, List.mem_singleton] at h
        · rcases h with (h | h) | h
          · exact Or.inl h
          · subst h; exact Or.inr (Or.inl ⟨hc0, Or.inl h2⟩)
          · subst h; exact Or.inr (Or.inl ⟨hc0, Or.inl h2⟩)
        · rcases h with h | h
          · exact Or.inl h
          · subst h; exact Or.inr (Or.inl ⟨hc0, Or.inr h1⟩)
        · rcases h with h | h
          · exact Or.inl h
          · subst h; exact Or.inr (Or.inl ⟨hc0, Or.inl h2⟩)
        · exact Or.inl h
      · exact Or.inr (Or.inr h)
    · rintro (h | ⟨hp, hm⟩ | h)
      · left
        by_cases h1 : c0.SlotRef = ⟨snapName, name⟩ <;> by_cases h2 : c0.PlugRef = ⟨snapName, name⟩
          <;> simp [h1, h2, h]
      · have hc : c0 = cref := by
          rw [hc0] at hp; injection hp
        subst hc
        left
        rcases hm with hm | hm
        · by_cases h1 : c0.SlotRef = ⟨snapName, name⟩ <;> simp [h1, hm]
        · simp [hm]
      · exact Or.inr h

/-- C13: `ResolveDisconnect` in the single-name form with `forget`: when the
stored connections can be read and every stored id parses, the name given
through the first pair of arguments and the same name given through the second
pair get the same list, without error; a reference is in the list exactly
when it is a stored connection whose plug reference or slot reference is the
given (snap, name), an omitted snap name standing for the core snap; the list
is empty when no stored connection matches. -/
theorem resolveDisconnect_single_name {A R E : Type} (env : Env A R E)
    (snapName name : String) (conns : GoMap (connState A R)) (hname : name ≠ "")
    (hread : env.getConns = .ok conns)
    (hparse : ∀ connID ∈ mapKeys conns, ∃ cref, env.ParseConnRef connID = .ok cref) :
    ∃ refs, ResolveDisconnect env snapName name "" "" true = .ok refs ∧
      ResolveDisconnect env "" "" snapName name true = .ok refs ∧
      (∀ cref, cref ∈ refs ↔ ∃ connID ∈ mapKeys conns, env.ParseConnRef connID = .ok cref ∧
        (cref.PlugRef = ⟨snapOrCore env snapName, name⟩ ∨
          cref.SlotRef = ⟨snapOrCore env snapName, name⟩)) ∧
      ((∀ connID ∈ mapKeys conns, ∀ cref, env.ParseConnRef connID = .ok cref →
          cref.PlugRef ≠ ⟨snapOrCore env snapName, name⟩ ∧
          cref.SlotRef ≠ ⟨snapOrCore env snapName, name⟩) → refs = []) := by
  obtain ⟨refs, hrefs, hmem⟩ := collectRefs_spec env.ParseConnRef (snapOrCore env snapName) name
    conns hparse []
  have hmem2 : ∀ cref, cref ∈ refs ↔ ∃ connID ∈ mapKeys conns,
      env.ParseConnRef connID = .ok cref ∧
        (cref.PlugRef = ⟨snapOrCore env snapName, name⟩ ∨
          cref.SlotRef = ⟨snapOrCore env snapName, name⟩) := by
    intro cref; rw [hmem]; simp
  refine ⟨refs, ?_, ?_, hmem2, fun hnone => ?_⟩
  · simp only [ResolveDisconnect, ↓reduceIte, hread, resolveWith]
    simp only [hname, ne_eq, not_false_eq_true, not_true_eq_false, and_false, and_self,
      ↓reduceIte, storedLookups]
    unfold snapOrCore at hrefs
    rw [hrefs]; rfl
  · simp only [ResolveDisconnect, ↓reduceIte, hread, resolveWith]
    simp only [hname, ne_eq, not_false_eq_true, not_true_eq_false, and_false, false_and,
      and_self, ↓reduceIte, storedLookups]
    unfold snapOrCore at hrefs
    rw [hrefs]; rfl
  · rw [List.eq_nil_iff_forall_not_mem]
    intro cref hc
    obtain ⟨connID, hid, hp, hm⟩ := (hmem2 cref).1 hc
    have := hnone connID hid cref hp
    rcases hm with hm | hm
    · exact this.1 hm
    · exact this.2 hm

set_option maxRecDepth 100000 in
/-- Witness of C13: in the manager of the examples "consumer:plug" given
through either pair gets the one stored connection of that plug, and "plug"
of the core snap, which no stored connection has, gets the empty list. -/
theorem resolveDisconnect_single_name_witness :
    ResolveDisconnect exampleEnv "consumer" "plug" "" "" true
      = .ok [⟨⟨"consumer", "plug"⟩, ⟨"producer", "slot"⟩⟩] ∧
    ResolveDisconnect exampleEnv "" "" "consumer" "plug" true
      = .ok [⟨⟨"consumer", "plug"⟩, ⟨"producer", "slot"⟩⟩] ∧
    ResolveDisconnect exampleEnv "" "plug" "" "" true = .ok [] ∧
    ∃ refs, ResolveDisconnect exampleEnv "producer" "slot" "" "" true = .ok refs ∧
      ResolveDisconnect exampleEnv "" "" "producer" "slot" true = .ok refs ∧
      ∀ cref, cref ∈ refs ↔ ∃ connID ∈ mapKeys [("consumer:plug producer:slot", ())],
        exampleEnv.ParseConnRef connID = .ok cref ∧
          (cref.PlugRef = ⟨"producer", "slot"⟩ ∨ cref.SlotRef = ⟨"producer", "slot"⟩) :=
  have h := resolveDisconnect_single_name exampleEnv "producer" "slot" _ (by decide) rfl
    (fun connID hid => ⟨⟨⟨"consumer", "plug"⟩, ⟨"producer", "slot"⟩⟩, by
      have : connID = "consumer:plug producer:slot" := by simpa [mapKeys] using hid
      subst this; rfl⟩)
  match h with
  | ⟨refs, h1, h2, h3, _⟩ => ⟨rfl, rfl, rfl, refs, h1, h2, h3⟩

end Ifacestate

namespace Ifacestate

theorem handOn_ne_allowedForms {E α : Type} (r : Except E α) :
    handOn r ≠ .error .allowedForms := by
  cases r <;> simp [handOn]

theorem resolveWith_allowedForms {A R E : Type} (env : Env A R E) (l : Lookups E)
    (ps p ss s : String) (forget : Bool) :
    resolveWith env l ps p ss s forget = .error .allowedForms ↔
      ((p = "" ∧ s = "") ∨ (p ≠ "" ∧ s = "" ∧ ss ≠ "") ∨ (p = "" ∧ s ≠ "" ∧ ps ≠ "")) := by
  unfold resolveWith
  by_cases hp : p = "" <;> by_cases hs : s = "" <;> by_cases hss : ss = ""
    <;> by_cases hps : ps = ""
    <;> simp only [hp, hs, hss, hps, ne_eq, not_true_eq_false, not_false_eq_true, and_self,
      and_false, false_and, and_true, true_and, ↓reduceIte, or_false, false_or, or_true, true_or,
      iff_true, iff_false]
    <;> first
      | exact handOn_ne_allowedForms _
      | (split
         · simp
         · split <;> [split; skip] <;> simp)

theorem resolveWith_core {A R E : Type} (env : Env A R E) (l : Lookups E) (p s : String)
    (forget : Bool) :
    ((p = "" ↔ s = "") → resolveWith env l "" p "" s forget
      = resolveWith env l env.SystemSnapName p env.SystemSnapName s forget) ∧
    resolveWith env l "" p "" "" forget = resolveWith env l env.SystemSnapName p "" "" forget ∧
    resolveWith env l "" "" "" s forget = resolveWith env l "" "" env.SystemSnapName s forget := by
  unfold resolveWith
  refine ⟨fun h => ?_, ?_, ?_⟩
  · by_cases hp : p = ""
    · have hs : s = "" := h.1 hp
      simp [hp, hs]
    · have hs : s ≠ "" := fun hs => hp (h.2 hs)
      by_cases hc : env.SystemSnapName = "" <;> simp [hp, hs, hc]
  · by_cases hp : p = "" <;> by_cases hc : env.SystemSnapName = "" <;> simp [hp, hc]
  · by_cases hs : s = "" <;> by_cases hc : env.SystemSnapName = "" <;> simp [hs, hc]

/-- C14: in both forms of `ResolveDisconnect` an omitted snap name stands for
the core snap.  In the form with both names, for all plug and slot names p, s
that are given (and also when both are empty) and every forget flag,
`ResolveDisconnect("", p, "", s)` gives the same result as
`ResolveDisconnect(core, p, core, s)`; in the form with a single name, for all
p and s, `ResolveDisconnect("", p, "", "")` gives the same as
`ResolveDisconnect(core, p, "", "")` and `ResolveDisconnect("", "", "", s)`
the same as `ResolveDisconnect("", "", core, s)`, core being
`SystemSnapName()`. -/
theorem resolveDisconnect_omitted_snap_is_core {A R E : Type} (env : Env A R E)
    (p s : String) (forget : Bool) :
    ((p = "" ↔ s = "") → ResolveDisconnect env "" p "" s forget
      = ResolveDisconnect env env.SystemSnapName p env.SystemSnapName s forget) ∧
    ResolveDisconnect env "" p "" "" forget
      = ResolveDisconnect env env.SystemSnapName p "" "" forget ∧
    ResolveDisconnect env "" "" "" s forget
      = ResolveDisconnect env "" "" env.SystemSnapName s forget := by
  unfold ResolveDisconnect
  cases forget
  · simp only [Bool.false_eq_true, ↓reduceIte]
    exact resolveWith_core env _ p s false
  · simp only [↓reduceIte]
    cases hread : env.getConns with
    | error err => exact ⟨fun _ => rfl, rfl, rfl⟩
    | ok conns => exact resolveWith_core env _ p s true

set_option maxRecDepth 100000 in
/-- Witness of C14: in the manager of the examples, "plug" and
"slot" without snap names resolve as those of "core". -/
theorem resolveDisconnect_omitted_snap_is_core_witness :
    ResolveDisconnect exampleEnv "" "plug" "" "slot" true
      = ResolveDisconnect exampleEnv "core" "plug" "core" "slot" true ∧
    ResolveDisconnect exampleEnv "" "plug" "" "slot" true
      = .error (.cannotForget "core" "plug" "core" "slot") ∧
    ResolveDisconnect exampleEnv "" "plug" "" "" true
      = ResolveDisconnect exampleEnv "core" "plug" "" "" true ∧
    ResolveDisconnect exampleEnv "" "" "" "slot" true
      = ResolveDisconnect exampleEnv "" "" "core" "slot" true :=
  have h := resolveDisconnect_omitted_snap_is_core exampleEnv "plug" "slot" true
  ⟨h.1 (by decide), rfl, h.2.1, h.2.2⟩

/-- C15 (as stated, refuted): with `forget` set and a state that cannot be
read, a call with no plug name and no slot name gets the error of the read,
not the error "allowed forms are ...". -/
theorem resolveDisconnect_forms_counterexample :
    ResolveDisconnect unreadableEnv "" "" "" "" true = .error (.other "cannot read connections") ∧
    ResolveDisconnect unreadableEnv "" "" "" "" true ≠ .error .allowedForms := by
  refine ⟨rfl, fun h => ?_⟩
  have h2 : ResolveDisconnect unreadableEnv "" "" "" "" true
      = .error (.other "cannot read connections") := rfl
  rw [h2] at h
  cases h

/-- C15 (amended): `ResolveDisconnect` returns the error "allowed forms are
<snap>:<plug> <snap>:<slot> or <snap>:<plug or slot>" (and no references) only
when the plug name and the slot name are both empty, or only the plug name is
given together with a slot snap name, or only the slot name is given together
with a plug snap name, never for another combination of arguments; for these
combinations it does return that error unless `forget` is set and the stored
connections cannot be read, in which case it returns the error of the read,
whatever the names. -/
theorem resolveDisconnect_allowed_forms {A R E : Type} (env : Env A R E)
    (plugSnapName plugName slotSnapName slotName : String) (forget : Bool) :
    (ResolveDisconnect env plugSnapName plugName slotSnapName slotName forget
        = .error .allowedForms →
      ((plugName = "" ∧ slotName = "") ∨ (plugName ≠ "" ∧ slotName = "" ∧ slotSnapName ≠ "") ∨
        (plugName = "" ∧ slotName ≠ "" ∧ plugSnapName ≠ ""))) ∧
    ((forget = true → ∃ conns, env.getConns = .ok conns) →
      ((plugName = "" ∧ slotName = "") ∨ (plugName ≠ "" ∧ slotName = "" ∧ slotSnapName ≠ "") ∨
        (plugName = "" ∧ slotName ≠ "" ∧ plugSnapName ≠ "")) →
      ResolveDisconnect env plugSnapName plugName slotSnapName slotName forget
        = .error .allowedForms) ∧
    (∀ err, forget = true → env.getConns = .error err →
      ResolveDisconnect env plugSnapName plugName slotSnapName slotName forget
        = .error (.other err)) := by
  unfold ResolveDisconnect
  cases forget
  · simp only [Bool.false_eq_true, ↓reduceIte, false_implies, true_implies, implies_true,
      and_true]
    exact ⟨(resolveWith_allowedForms env _ _ _ _ _ _).1, (resolveWith_allowedForms env _ _ _ _ _ _).2⟩
  · simp only [↓reduceIte, true_implies]
    cases hread : env.getConns with
    | error err =>
      refine ⟨fun h => ?_, fun h => ?_, fun e he => ?_⟩
      · cases h
      · obtain ⟨conns, hc⟩ := h; cases hc
      · cases he; rfl
    | ok conns =>
      refine ⟨(resolveWith_allowedForms env _ _ _ _ _ _).1,
        fun _ => (resolveWith_allowedForms env _ _ _ _ _ _).2, fun e he => by cases he⟩

set_option maxRecDepth 100000 in
/-- Witness of C15 (amended): in the manager of the examples the three
malformed combinations get the error, with `forget` as well, and a well-formed
call does not. -/
theorem resolveDisconnect_allowed_forms_witness :
    ResolveDisconnect exampleEnv "consumer" "" "producer" "" false = .error .allowedForms ∧
    ResolveDisconnect exampleEnv "consumer" "plug" "producer" "" true = .error .allowedForms ∧
    ResolveDisconnect exampleEnv "consumer" "" "producer" "slot" false = .error .allowedForms ∧
    ResolveDisconnect exampleEnv "consumer" "plug" "" "" false
      = .ok [⟨⟨"consumer", "plug"⟩, ⟨"producer", "slot"⟩⟩] :=
  ⟨(resolveDisconnect_allowed_forms exampleEnv "consumer" "" "producer" "" false).2.1
      (fun h => by cases h) (Or.inl ⟨rfl, rfl⟩),
    (resolveDisconnect_allowed_forms exampleEnv "consumer" "plug" "producer" "" true).2.1
      (fun _ => ⟨_, rfl⟩) (Or.inr (Or.inl ⟨by decide, rfl, by decide⟩)),
    (resolveDisconnect_allowed_forms exampleEnv "consumer" "" "producer" "slot" false).2.1
      (fun h => by cases h) (Or.inr (Or.inr ⟨rfl, by decide, by decide⟩)),
    rfl⟩

end Ifacestate

namespace Fdestate

theorem mem_splits {α : Type} (l : List α) (pre : List α) (e : α) (post : List α) :
    l = pre ++ e :: post → (pre, e, post) ∈ splits l := by
  induction l generalizing pre with
  | nil => intro h; cases pre <;> simp at h
  | cons x l ih =>
    intro h
    cases pre with
    | nil =>
      simp only [List.nil_append, List.cons.injEq] at h
      obtain ⟨rfl, rfl⟩ := h
      simp [splits]
    | cons y pre =>
      simp only [List.cons_append, List.cons.injEq] at h
      obtain ⟨rfl, h2⟩ := h
      simp only [splits, List.mem_cons, List.mem_map]
      exact Or.inr ⟨(pre, e, post), ih pre h2, rfl⟩

theorem pattern_of_check (calls : List Call) (h : patternCheck calls = true) :
    UnlockRelockPattern calls := by
  unfold patternCheck at h
  rw [List.all_eq_true] at h
  refine ⟨fun pre post heq => ?_, fun pre role containerRole post heq => ?_⟩
  · have := h _ (mem_splits _ pre _ post heq)
    simpa [and_assoc] using this
  · have := h _ (mem_splits _ pre _ post heq)
    simpa [and_assoc] using this

theorem callsIn_ret {PBC RM M X Err α : Type} (r : Except Err α) :
    (Calls.ret r : Calls (Event PBC RM M X) Err α).CallsIn [[]] := by
  intro before; simp [callsOf, Calls.ret]

theorem callsIn_call {PBC RM M X Err α : Type} (ev : Event PBC RM M X)
    (answer : List (Event PBC RM M X) → Except Err α) (c : Call) (h : ev.call = c) :
    (Calls.call ev answer).CallsIn [[c]] := by
  intro before; simp [callsOf, Calls.call, h]

theorem callsIn_sealKeyModelParams {PBC RM M X Err α : Type} (pbc : PBC) (roleToBlName : RM)
    (answer : List (Event PBC RM M X) → Except Err α) :
    (Calls.call (.sealKeyModelParams pbc roleToBlName) answer).CallsIn
      [[.SealKeyModelParams]] :=
  callsIn_call _ _ _ rfl

theorem callsIn_unlock {PBC RM M X Err β : Type}
    {f : Unit → Calls (Event PBC RM M X) Err β} {T : List (List Call)}
    (hf : ∀ a, (f a).CallsIn T) :
    ((Calls.call .unlock fun _ => .ok ()).andThen f).CallsIn (T.map fun t => .Unlock :: t) := by
  intro before
  have h2 := hf () (before ++ [.unlock])
  unfold callsOf at h2 ⊢
  simp only [Calls.andThen, Calls.call, List.map_append, List.map_cons, List.map_nil,
    List.mem_map, Event.call]
  exact ⟨_, h2, rfl⟩

theorem callsIn_build {PBC RM M X Err α : Type} (modelParams : List (SealKeyModelParams M X))
    (answer : List (Event PBC RM M X) → Except Err α) :
    (Calls.call (.buildPCRProtectionProfile modelParams) answer).CallsIn
      [[.BuildPCRProtectionProfile]] :=
  callsIn_call _ _ _ rfl

theorem callsIn_update {PBC RM M X Err α : Type} (role containerRole : String)
    (parameters : SealingParameters M) (answer : List (Event PBC RM M X) → Except Err α) :
    (Calls.call (.update role containerRole parameters) answer).CallsIn
      [[.Update role containerRole]] :=
  callsIn_call _ _ _ rfl

theorem callsIn_andThen {PBC RM M X Err α β : Type} {x : Calls (Event PBC RM M X) Err α}
    {f : α → Calls (Event PBC RM M X) Err β} {S T : List (List Call)}
    (hx : x.CallsIn S) (hf : ∀ a, (f a).CallsIn T) : (x.andThen f).CallsIn (seqCalls S T) := by
  intro before
  have h1 := hx before
  unfold callsOf at h1 ⊢
  unfold Calls.andThen seqCalls
  rcases hxb : x before with ⟨evs, r⟩
  rw [hxb] at h1
  cases r with
  | error err => exact List.mem_append_left _ h1
  | ok a =>
    have h2 := hf a (before ++ evs)
    unfold callsOf at h2
    simp only [List.map_append, List.mem_append, List.mem_flatMap, List.mem_map]
    exact Or.inr ⟨_, h1, _, h2, rfl⟩

theorem callsIn_deferring {PBC RM M X Err α : Type} {x : Calls (Event PBC RM M X) Err α}
    {S : List (List Call)} (hx : x.CallsIn S) :
    (Calls.deferring .relock x).CallsIn (S.map fun s => s ++ [.relock]) := by
  intro before
  have h1 := hx before
  unfold callsOf at h1 ⊢
  simp only [Calls.deferring, List.map_append, List.map_cons, List.map_nil, List.mem_map]
  exact ⟨_, h1, rfl⟩

theorem callsIn_ite {PBC RM M X Err α : Type} {x y : Calls (Event PBC RM M X) Err α}
    {S T : List (List Call)} (c : Prop) [Decidable c] (hx : x.CallsIn S) (hy : y.CallsIn T) :
    (if c then x else y).CallsIn (S ++ T) := by
  intro before
  split
  · exact List.mem_append_left _ (hx before)
  · exact List.mem_append_right _ (hy before)

theorem updateRun_callsIn {BC PBC RM M X E : Type} (env : Env BC PBC RM M X E)
    (pbcRunOnly pbcWithRecovery : PBC) (sigDbxUpdate : List Nat) (roleToBlName : RM) :
    ∃ S, (updateRunProtectionProfile env pbcRunOnly pbcWithRecovery sigDbxUpdate
      roleToBlName).CallsIn S ∧ ∀ calls ∈ S, patternCheck calls = true := by
  apply Exists.intro
  constructor
  · unfold updateRunProtectionProfile
    exact callsIn_andThen (callsIn_sealKeyModelParams _ _ _) fun modelParams0 =>
      callsIn_andThen (callsIn_sealKeyModelParams _ _ _) fun modelParamsRunOnly0 =>
      callsIn_ite _ (callsIn_ret _)
        (callsIn_andThen
          (callsIn_unlock fun _ =>
            callsIn_deferring
              (callsIn_andThen (callsIn_build _ _) fun _ =>
                callsIn_andThen (callsIn_build _ _) fun _ => callsIn_ret _))
          fun profiles =>
          callsIn_ite _ (callsIn_ret _)
            (callsIn_andThen (callsIn_update _ _ _ _) fun _ =>
              callsIn_andThen (callsIn_update _ _ _ _) fun _ => callsIn_ret _))
  · decide

end Fdestate

namespace Fdestate

theorem updateFallback_callsIn {BC PBC RM M X E : Type} (env : Env BC PBC RM M X E)
    (pbc : PBC) (sigDbxUpdate : List Nat) (roleToBlName : RM) :
    ∃ S, (updateFallbackProtectionProfile env pbc sigDbxUpdate roleToBlName).CallsIn S ∧
      ∀ calls ∈ S, patternCheck calls = true := by
  apply Exists.intro
  constructor
  · unfold updateFallbackProtectionProfile
    exact callsIn_andThen (callsIn_sealKeyModelParams _ _ _) fun modelParams0 =>
      callsIn_ite _ (callsIn_ret _)
        (callsIn_andThen
          (callsIn_unlock fun _ =>
            callsIn_deferring
              (callsIn_andThen (callsIn_build _ _) fun _ => callsIn_ret _))
          fun pcrProfile =>
          callsIn_ite _ (callsIn_ret _)
            (callsIn_andThen (callsIn_update _ _ _ _) fun _ => callsIn_ret _))
  · decide

/-- C16: `updateRunProtectionProfile` and `updateFallbackProtectionProfile`
follow the unlock/relock pattern, whatever was called before and whatever the
collaborators answer (a failing build included): at every call of
`secbootBuildPCRProtectionProfile` the lock is not held, `manager.Unlock` was
called exactly once before it and is not called again, and the relock function
is called exactly once, after it; at every call of `manager.Update` the
relock function has been called and the lock is held. -/
theorem unlock_relock_pattern {BC PBC RM M X E : Type} (env : Env BC PBC RM M X E)
    (pbcRunOnly pbcWithRecovery pbc : PBC) (sigDbxUpdate : List Nat) (roleToBlName : RM)
    (before : List (Event PBC RM M X)) :
    UnlockRelockPattern
      (callsOf (updateRunProtectionProfile env pbcRunOnly pbcWithRecovery sigDbxUpdate
        roleToBlName) before) ∧
    UnlockRelockPattern
      (callsOf (updateFallbackProtectionProfile env pbc sigDbxUpdate roleToBlName) before) := by
  obtain ⟨S, hS, hcheck⟩ := updateRun_callsIn env pbcRunOnly pbcWithRecovery sigDbxUpdate
    roleToBlName
  obtain ⟨T, hT, hcheck2⟩ := updateFallback_callsIn env pbc sigDbxUpdate roleToBlName
  exact ⟨pattern_of_check _ (hcheck _ (hS before)), pattern_of_check _ (hcheck2 _ (hT before))⟩

/-- Examples for C16: with collaborators that succeed the calls of
`updateRunProtectionProfile` are the two preparations, `Unlock`, the two
builds, the relock and the two updates; when the second build fails the
function returns its error after `Unlock`, the two builds and the relock,
without an update. -/
theorem unlock_relock_examples :
    callsOf (updateRunProtectionProfile (exampleEnv none) ["run-chain"]
        ["run-chain", "recovery-chain"] [] ()) []
      = [.SealKeyModelParams, .SealKeyModelParams, .Unlock, .BuildPCRProtectionProfile,
          .BuildPCRProtectionProfile, .relock, .Update "run+recover" "all",
          .Update "run" "all"] ∧
    (updateRunProtectionProfile (exampleEnv none) ["run-chain"]
        ["run-chain", "recovery-chain"] [] () []).2 = .ok () ∧
    callsOf (updateRunProtectionProfile failingBuildEnv ["run-chain"]
        ["run-chain", "recovery-chain"] [] ()) []
      = [.SealKeyModelParams, .SealKeyModelParams, .Unlock, .BuildPCRProtectionProfile,
          .BuildPCRProtectionProfile, .relock] ∧
    (updateRunProtectionProfile failingBuildEnv ["run-chain"]
        ["run-chain", "recovery-chain"] [] () []).2 = .error (.other "cannot build profile") ∧
    callsOf (updateFallbackProtectionProfile failingBuildEnv ["recovery-chain"] [] ())
        [.buildPCRProtectionProfile []]
      = [.SealKeyModelParams, .Unlock, .BuildPCRProtectionProfile, .relock] := by
  refine ⟨by decide, rfl, by decide, rfl, by decide⟩

end Fdestate

namespace Fdestate

theorem okCalls_ret {PBC RM M X Err α : Type} (r : Except Err α) :
    (Calls.ret r : Calls (Event PBC RM M X) Err α).OkCallsIn [[]] := by
  intro before b _; simp [callsOf, Calls.ret]

theorem okCalls_ret_error {PBC RM M X Err α : Type} (err : Err) :
    (Calls.ret (.error err) : Calls (Event PBC RM M X) Err α).OkCallsIn [] := by
  intro before b h; simp [Calls.ret] at h

theorem okCalls_call {PBC RM M X Err α : Type} (ev : Event PBC RM M X)
    (answer : List (Event PBC RM M X) → Except Err α) (c : Call) (h : ev.call = c) :
    (Calls.call ev answer).OkCallsIn [[c]] := by
  intro before b _; simp [callsOf, Calls.call, h]

theorem okCalls_isResealNeeded {PBC RM M X Err α : Type} (pbc : PBC) (file : String)
    (expectReseal : Bool) (answer : List (Event PBC RM M X) → Except Err α) :
    (Calls.call (.isResealNeeded pbc file expectReseal) answer).OkCallsIn
      [[.IsResealNeeded file]] :=
  okCalls_call _ _ _ rfl

theorem okCalls_sealKeyModelParams {PBC RM M X Err α : Type} (pbc : PBC) (roleToBlName : RM)
    (answer : List (Event PBC RM M X) → Except Err α) :
    (Calls.call (.sealKeyModelParams pbc roleToBlName) answer).OkCallsIn
      [[.SealKeyModelParams]] :=
  okCalls_call _ _ _ rfl

theorem okCalls_unlock {PBC RM M X Err α : Type}
    (answer : List (Event PBC RM M X) → Except Err α) :
    (Calls.call .unlock answer).OkCallsIn [[.Unlock]] :=
  okCalls_call _ _ _ rfl

theorem okCalls_build {PBC RM M X Err α : Type} (modelParams : List (SealKeyModelParams M X))
    (answer : List (Event PBC RM M X) → Except Err α) :
    (Calls.call (.buildPCRProtectionProfile modelParams) answer).OkCallsIn
      [[.BuildPCRProtectionProfile]] :=
  okCalls_call _ _ _ rfl

theorem okCalls_update {PBC RM M X Err α : Type} (role containerRole : String)
    (parameters : SealingParameters M) (answer : List (Event PBC RM M X) → Except Err α) :
    (Calls.call (.update role containerRole parameters) answer).OkCallsIn
      [[.Update role containerRole]] :=
  okCalls_call _ _ _ rfl

theorem okCalls_writeBootChains {PBC RM M X Err α : Type} (pbc : PBC) (path : String)
    (count : Int) (answer : List (Event PBC RM M X) → Except Err α) :
    (Calls.call (.writeBootChains pbc path count) answer).OkCallsIn
      [[.WriteBootChains path]] :=
  okCalls_call _ _ _ rfl

theorem okCalls_get {PBC RM M X Err α : Type} (role containerRole : String)
    (answer : List (Event PBC RM M X) → Except Err α) :
    (Calls.call (.get role containerRole) answer).OkCallsIn [[.Get role containerRole]] :=
  okCalls_call _ _ _ rfl

theorem okCalls_resealKeys {PBC RM M X Err α : Type} (params : ResealKeysParams)
    (answer : List (Event PBC RM M X) → Except Err α) :
    (Calls.call (.resealKeys params) answer).OkCallsIn [[.ResealKeys]] :=
  okCalls_call _ _ _ rfl

theorem okCalls_andThen {PBC RM M X Err α β : Type} {x : Calls (Event PBC RM M X) Err α}
    {f : α → Calls (Event PBC RM M X) Err β} {S T : List (List Call)}
    (hx : x.OkCallsIn S) (hf : ∀ a, (f a).OkCallsIn T) :
    (x.andThen f).OkCallsIn (thenCalls S T) := by
  intro before b hok
  unfold callsOf
  unfold Calls.andThen at hok ⊢
  have h1 := hx before
  unfold callsOf at h1
  rcases hxb : x before with ⟨evs, r⟩
  rw [hxb] at h1 hok
  cases r with
  | error err => simp at hok
  | ok a =>
    have h2 := hf a (before ++ evs) b hok
    unfold callsOf at h2
    simp only [thenCalls, List.map_append, List.mem_flatMap, List.mem_map]
    exact ⟨_, h1 a rfl, _, h2, rfl⟩

theorem okCalls_deferring {PBC RM M X Err α : Type} {x : Calls (Event PBC RM M X) Err α}
    {S : List (List Call)} (hx : x.OkCallsIn S) :
    (Calls.deferring .relock x).OkCallsIn (S.map fun s => s ++ [.relock]) := by
  intro before b hok
  have h1 := hx before b hok
  unfold callsOf at h1 ⊢
  simp only [Calls.deferring, List.map_append, List.map_cons, List.map_nil, List.mem_map]
  exact ⟨_, h1, rfl⟩

theorem okCalls_ite {PBC RM M X Err α : Type} {x y : Calls (Event PBC RM M X) Err α}
    {S T : List (List Call)} (c : Prop) [Decidable c] (hx : x.OkCallsIn S)
    (hy : y.OkCallsIn T) : (if c then x else y).OkCallsIn (S ++ T) := by
  intro before b hok
  split at hok
  · rw [if_pos ‹c›]; exact List.mem_append_left _ (hx before b hok)
  · rw [if_neg ‹¬c›]; exact List.mem_append_right _ (hy before b hok)

theorem okCalls_ite_true {PBC RM M X Err α : Type} {x y : Calls (Event PBC RM M X) Err α}
    {S : List (List Call)} {c : Prop} [Decidable c] (hc : c) (hx : x.OkCallsIn S) :
    (if c then x else y).OkCallsIn S := by
  rw [if_pos hc]; exact hx

theorem okCalls_mono {PBC RM M X Err α : Type} {x : Calls (Event PBC RM M X) Err α}
    {S T : List (List Call)} (hx : x.OkCallsIn S) (hsub : ∀ c ∈ S, c ∈ T) :
    x.OkCallsIn T :=
  fun before b hok => hsub _ (hx before b hok)

theorem okCalls_ite_false {PBC RM M X Err α : Type} {x y : Calls (Event PBC RM M X) Err α}
    {T : List (List Call)} {c : Prop} [Decidable c] (hc : ¬c) (hy : y.OkCallsIn T) :
    (if c then x else y).OkCallsIn T := by
  rw [if_neg hc]; exact hy

theorem okCalls_callThen {PBC RM M X Err α β : Type} {ev : Event PBC RM M X}
    {answer : List (Event PBC RM M X) → Except Err α}
    {f : α → Calls (Event PBC RM M X) Err β} {T : List (List Call)} (c : Call)
    (P : α → Prop) (hc : ev.call = c) (hans : ∀ before a, answer before = .ok a → P a)
    (hf : ∀ a, P a → (f a).OkCallsIn T) :
    ((Calls.call ev answer).andThen f).OkCallsIn (T.map fun t => c :: t) := by
  intro before b hok
  unfold callsOf
  simp only [Calls.andThen, Calls.call] at hok ⊢
  cases hab : answer before with
  | error err => rw [hab] at hok; simp at hok
  | ok a =>
    rw [hab] at hok
    simp only at hok ⊢
    have h2 := hf a (hans before a hab) (before ++ [ev]) b hok
    unfold callsOf at h2
    simp only [List.map_append, List.map_cons, List.map_nil, List.mem_map, hc]
    exact ⟨_, h2, rfl⟩

theorem checked_ok {E Err α : Type} {wrap : E → Err} {r : Except E α} {a : α}
    (h : checked wrap r = .ok a) : r = .ok a := by
  cases r with
  | error err => simp [checked] at h
  | ok v => simpa [checked] using h

theorem updateRun_okCalls {BC PBC RM M X E : Type} (env : Env BC PBC RM M X E)
    (pbcRunOnly pbcWithRecovery : PBC) (sigDbxUpdate : List Nat) (roleToBlName : RM) :
    (updateRunProtectionProfile env pbcRunOnly pbcWithRecovery sigDbxUpdate
      roleToBlName).OkCallsIn
      [[.SealKeyModelParams, .SealKeyModelParams, .Unlock, .BuildPCRProtectionProfile,
        .BuildPCRProtectionProfile, .relock, .Update "run+recover" "all",
        .Update "run" "all"]] := by
  unfold updateRunProtectionProfile
  exact okCalls_andThen (okCalls_sealKeyModelParams _ _ _) fun modelParams0 =>
    okCalls_andThen (okCalls_sealKeyModelParams _ _ _) fun modelParamsRunOnly0 =>
    okCalls_ite _ (okCalls_ret_error _)
      (okCalls_andThen
        (okCalls_andThen (okCalls_unlock _) fun _ =>
          okCalls_deferring
            (okCalls_andThen (okCalls_build _ _) fun _ =>
              okCalls_andThen (okCalls_build _ _) fun _ => okCalls_ret _))
        fun profiles =>
        okCalls_ite _ (okCalls_ret_error _)
          (okCalls_andThen (okCalls_update _ _ _ _) fun _ =>
            okCalls_andThen (okCalls_update _ _ _ _) fun _ => okCalls_ret _))

theorem updateFallback_okCalls {BC PBC RM M X E : Type} (env : Env BC PBC RM M X E)
    (pbc : PBC) (sigDbxUpdate : List Nat) (roleToBlName : RM) :
    (updateFallbackProtectionProfile env pbc sigDbxUpdate roleToBlName).OkCallsIn
      [[.SealKeyModelParams, .Unlock, .BuildPCRProtectionProfile, .relock,
        .Update "recover" "system-save"]] := by
  unfold updateFallbackProtectionProfile
  exact okCalls_andThen (okCalls_sealKeyModelParams _ _ _) fun modelParams0 =>
    okCalls_ite _ (okCalls_ret_error _)
      (okCalls_andThen
        (okCalls_andThen (okCalls_unlock _) fun _ =>
          okCalls_deferring
            (okCalls_andThen (okCalls_build _ _) fun _ => okCalls_ret _))
        fun pcrProfile =>
        okCalls_ite _ (okCalls_ret_error _)
          (okCalls_andThen (okCalls_update _ _ _ _) fun _ => okCalls_ret _))

end Fdestate

namespace Fdestate

theorem recalculateTPM_forced_okCalls {BC PBC RM M X E : Type} (env : Env BC PBC RM M X E)
    (rootdir : String) (inputs : resealInputs BC RM) (expectReseal : Bool) :
    (recalculateParamatersTPM env rootdir inputs
      { ExpectReseal := expectReseal, Force := true }).OkCallsIn
      [[.IsResealNeeded (env.BootChainsFileUnder rootdir), .SealKeyModelParams,
        .SealKeyModelParams, .Unlock, .BuildPCRProtectionProfile, .BuildPCRProtectionProfile,
        .relock, .Update "run+recover" "all", .Update "run" "all",
        .WriteBootChains (env.BootChainsFileUnder rootdir),
        .IsResealNeeded (env.RecoveryBootChainsFileUnder rootdir), .SealKeyModelParams,
        .Unlock, .BuildPCRProtectionProfile, .relock, .Update "recover" "system-save",
        .WriteBootChains (env.RecoveryBootChainsFileUnder rootdir)]] := by
  unfold recalculateParamatersTPM
  exact okCalls_andThen (okCalls_isResealNeeded _ _ _ _) fun answer =>
    okCalls_andThen
      (okCalls_ite_true (by simp)
        (okCalls_andThen (updateRun_okCalls env _ _ _ _) fun _ =>
          okCalls_writeBootChains _ _ _ _))
      fun _ =>
      okCalls_andThen (okCalls_isResealNeeded _ _ _ _) fun fallbackAnswer =>
        okCalls_andThen
          (okCalls_ite_true (by simp)
            (okCalls_andThen (updateFallback_okCalls env _ _ _) fun _ =>
              okCalls_writeBootChains _ _ _ _))
          fun _ => okCalls_ret _

theorem doReseal_tpm_okCalls {BC PBC RM M X E : Type} (env : Env BC PBC RM M X E)
    (method : SealingMethod) (rootdir : String)
    (hmethod : method = .TPM ∨ method = .LegacyTPM) :
    (doReseal env method rootdir).OkCallsIn
      [[.Get "run+recover" "all", .Get "recover" "system-save", .ResealKeys, .ResealKeys],
       [.Get "run+recover" "all", .Get "recover" "system-save", .ResealKeys],
       [.Get "run+recover" "all", .Get "recover" "system-save", .ResealKeys],
       [.Get "run+recover" "all", .Get "recover" "system-save"]] := by
  unfold doReseal
  rcases hmethod with rfl | rfl <;> simp only []
  all_goals
    refine okCalls_andThen (okCalls_get _ _ _) fun runParams =>
      okCalls_andThen (okCalls_get _ _ _) fun recoveryParams =>
        okCalls_andThen (S := [[.ResealKeys], []]) ?_ fun _ =>
          okCalls_andThen (S := [[.ResealKeys], []]) ?_ fun _ => okCalls_ret _
  all_goals
    first
      | (cases runParams
         · exact okCalls_mono (okCalls_ret _) (by simp)
         · exact okCalls_mono (okCalls_resealKeys _ _) (by simp))
      | (cases recoveryParams
         · exact okCalls_mono (okCalls_ret _) (by simp)
         · exact okCalls_mono (okCalls_resealKeys _ _) (by simp))

theorem forced_reseal_okCalls {BC PBC RM M X E : Type} (env : Env BC PBC RM M X E)
    (method : SealingMethod) (rootdir : String) (params : ResealKeyForBootChainsParams BC RM)
    (dbUpdate : List Nat) (hmethod : method = .TPM ∨ method = .LegacyTPM) :
    (ResealKeysForSignaturesDBUpdate env method rootdir params dbUpdate).OkCallsIn
      (thenCalls
        [[.IsResealNeeded (env.BootChainsFileUnder rootdir), .SealKeyModelParams,
          .SealKeyModelParams, .Unlock, .BuildPCRProtectionProfile,
          .BuildPCRProtectionProfile, .relock, .Update "run+recover" "all",
          .Update "run" "all", .WriteBootChains (env.BootChainsFileUnder rootdir),
          .IsResealNeeded (env.RecoveryBootChainsFileUnder rootdir), .SealKeyModelParams,
          .Unlock, .BuildPCRProtectionProfile, .relock, .Update "recover" "system-save",
          .WriteBootChains (env.RecoveryBootChainsFileUnder rootdir)]]
        [[.Get "run+recover" "all", .Get "recover" "system-save", .ResealKeys, .ResealKeys],
         [.Get "run+recover" "all", .Get "recover" "system-save", .ResealKeys],
         [.Get "run+recover" "all", .Get "recover" "system-save", .ResealKeys],
         [.Get "run+recover" "all", .Get "recover" "system-save"]]) := by
  unfold ResealKeysForSignaturesDBUpdate resealKeys
  have hd := doReseal_tpm_okCalls env method rootdir hmethod
  rcases hmethod with rfl | rfl
  · exact okCalls_andThen (recalculateTPM_forced_okCalls env rootdir _ true) fun _ => hd
  · exact okCalls_andThen (recalculateTPM_forced_okCalls env rootdir _ true) fun _ => hd

/-- C17: `ResealKeysForSignaturesDBUpdate` forces a reseal.  With a TPM
sealing method, whenever it returns without error (no step has returned one),
and whatever `boot.IsResealNeeded` has answered, its calls are, in order: for
the run keys the recomputation of the PCR profiles and `manager.Update` for
"run+recover"/"all" and "run"/"all", then `boot.WriteBootChains` of the
boot-chains file; for the fallback keys the recomputation and `manager.Update`
for "recover"/"system-save", then `boot.WriteBootChains` of the recovery
boot-chains file; then those of `doReseal`, which reads the stored parameters
of both roles and calls `secbootResealKeys` for each role that has some. -/
theorem signaturesDBUpdate_forces_reseal {BC PBC RM M X E : Type} (env : Env BC PBC RM M X E)
    (method : SealingMethod) (rootdir : String) (params : ResealKeyForBootChainsParams BC RM)
    (dbUpdate : List Nat) (before : List (Event PBC RM M X))
    (hmethod : method = .TPM ∨ method = .LegacyTPM)
    (hok : (ResealKeysForSignaturesDBUpdate env method rootdir params dbUpdate before).2
      = .ok ()) :
    ∃ n, n ≤ 2 ∧
      callsOf (ResealKeysForSignaturesDBUpdate env method rootdir params dbUpdate) before
        = fullResealCalls (env.BootChainsFileUnder rootdir)
            (env.RecoveryBootChainsFileUnder rootdir) ++ List.replicate n .ResealKeys := by
  have h := forced_reseal_okCalls env method rootdir params dbUpdate hmethod before () hok
  simp only [thenCalls, List.flatMap_cons, List.flatMap_nil, List.map_cons, List.map_nil,
    List.append_nil, List.mem_cons, List.mem_singleton, List.not_mem_nil, or_false] at h
  rcases h with h | h | h | h
  · exact ⟨2, le_refl _, by rw [h]; rfl⟩
  · exact ⟨1, by omega, by rw [h]; rfl⟩
  · exact ⟨1, by omega, by rw [h]; rfl⟩
  · exact ⟨0, by omega, by rw [h]; rfl⟩

set_option maxRecDepth 100000 in
/-- Witness of C17: in the system of the examples `boot.IsResealNeeded`
answers that no reseal is needed, for both chains, and every step succeeds;
`ResealKeysForSignaturesDBUpdate` recomputes and stores the parameters,
rewrites both files and reseals both sets of keys. -/
theorem signaturesDBUpdate_forces_reseal_witness :
    (ResealKeysForSignaturesDBUpdate (exampleEnv none) .TPM "/root" exampleParams [1] []).2
      = .ok () ∧
    callsOf (ResealKeysForSignaturesDBUpdate (exampleEnv none) .TPM "/root" exampleParams [1]) []
      = fullResealCalls "/root/boot-chains" "/root/recovery-boot-chains"
          ++ [.ResealKeys, .ResealKeys] ∧
    ∃ n, n ≤ 2 ∧
      callsOf (ResealKeysForSignaturesDBUpdate (exampleEnv none) .TPM "/root" exampleParams [1])
          []
        = fullResealCalls ((exampleEnv none).BootChainsFileUnder "/root")
            ((exampleEnv none).RecoveryBootChainsFileUnder "/root")
          ++ List.replicate n .ResealKeys :=
  ⟨rfl, by decide,
    signaturesDBUpdate_forces_reseal (exampleEnv none) .TPM "/root" exampleParams [1] []
      (Or.inl rfl) rfl⟩

end Fdestate

namespace Fdestate

theorem recalculateTPM_unchanged_okCalls {BC PBC RM M X E : Type} (env : Env BC PBC RM M X E)
    (rootdir : String) (inputs : resealInputs BC RM) (expectReseal : Bool)
    (hunchanged : ∀ h pbc file a,
      env.IsResealNeeded h pbc file expectReseal = .ok a → a.1 = false) :
    (recalculateParamatersTPM env rootdir inputs { ExpectReseal := expectReseal }).OkCallsIn
      [[.IsResealNeeded (env.BootChainsFileUnder rootdir),
        .IsResealNeeded (env.RecoveryBootChainsFileUnder rootdir)]] := by
  unfold recalculateParamatersTPM
  exact okCalls_callThen _ (fun a => a.1 = false) rfl
    (fun h a ha => hunchanged _ _ _ _ (checked_ok ha)) fun answer hanswer =>
    okCalls_andThen (okCalls_ite_false (by simp [hanswer]) (okCalls_ret _)) fun _ =>
      okCalls_callThen _ (fun a => a.1 = false) rfl
        (fun h a ha => hunchanged _ _ _ _ (checked_ok ha)) fun fallbackAnswer hfallback =>
        okCalls_andThen (okCalls_ite_false (by simp [hfallback]) (okCalls_ret _)) fun _ =>
          okCalls_ret _

theorem doReseal_stored_okCalls {BC PBC RM M X E : Type} (env : Env BC PBC RM M X E)
    (method : SealingMethod) (rootdir : String)
    (hmethod : method = .TPM ∨ method = .LegacyTPM)
    (hstored : ∀ h a, env.Get h "run+recover" "all" = .ok a → a.isSome = true) :
    (doReseal env method rootdir).OkCallsIn
      [[.Get "run+recover" "all", .Get "recover" "system-save", .ResealKeys, .ResealKeys],
       [.Get "run+recover" "all", .Get "recover" "system-save", .ResealKeys]] := by
  unfold doReseal
  rcases hmethod with rfl | rfl <;> simp only []
  all_goals
    refine okCalls_callThen _ (fun a => a.isSome = true) rfl
      (fun h a ha => hstored _ _ (checked_ok ha)) fun runParams hrun =>
      okCalls_andThen (okCalls_get _ _ _) fun recoveryParams =>
        okCalls_andThen (S := [[.ResealKeys]]) ?_ fun _ =>
          okCalls_andThen (S := [[.ResealKeys], []]) ?_ fun _ => okCalls_ret _
  all_goals
    first
      | (cases runParams
         · simp at hrun
         · exact okCalls_resealKeys _ _)
      | (cases recoveryParams
         · exact okCalls_mono (okCalls_ret _) (by simp)
         · exact okCalls_mono (okCalls_resealKeys _ _) (by simp))

/-- On the way of C18: with a TPM sealing method, when `boot.IsResealNeeded`
reports that no reseal is needed whenever it is asked, `ResealKeyForBootChains`
updates no sealing parameters and writes no boot-chains file, but it goes on to
`doReseal`; when the manager has parameters for the run keys, `doReseal` calls
`secbootResealKeys` with them.  So says every run that returns without error. -/
theorem unchanged_chains_reseal_anyway {BC PBC RM M X E : Type} (env : Env BC PBC RM M X E)
    (method : SealingMethod) (rootdir : String) (params : ResealKeyForBootChainsParams BC RM)
    (expectReseal : Bool) (before : List (Event PBC RM M X))
    (hmethod : method = .TPM ∨ method = .LegacyTPM)
    (hunchanged : ∀ h pbc file a,
      env.IsResealNeeded h pbc file expectReseal = .ok a → a.1 = false)
    (hstored : ∀ h a, env.Get h "run+recover" "all" = .ok a → a.isSome = true)
    (hok : (ResealKeyForBootChains env method rootdir params expectReseal before).2 = .ok ()) :
    ∃ tail, (tail = [] ∨ tail = [.ResealKeys]) ∧
      callsOf (ResealKeyForBootChains env method rootdir params expectReseal) before
        = [.IsResealNeeded (env.BootChainsFileUnder rootdir),
            .IsResealNeeded (env.RecoveryBootChainsFileUnder rootdir),
            .Get "run+recover" "all", .Get "recover" "system-save", .ResealKeys] ++ tail := by
  have hd := doReseal_stored_okCalls env method rootdir hmethod hstored
  have h : (ResealKeyForBootChains env method rootdir params expectReseal).OkCallsIn
      (thenCalls
        [[.IsResealNeeded (env.BootChainsFileUnder rootdir),
          .IsResealNeeded (env.RecoveryBootChainsFileUnder rootdir)]]
        [[.Get "run+recover" "all", .Get "recover" "system-save", .ResealKeys, .ResealKeys],
         [.Get "run+recover" "all", .Get "recover" "system-save", .ResealKeys]]) := by
    unfold ResealKeyForBootChains resealKeys
    rcases hmethod with rfl | rfl
    · exact okCalls_andThen
        (recalculateTPM_unchanged_okCalls env rootdir _ expectReseal hunchanged) fun _ => hd
    · exact okCalls_andThen
        (recalculateTPM_unchanged_okCalls env rootdir _ expectReseal hunchanged) fun _ => hd
  have h2 := h before () hok
  simp only [thenCalls, List.flatMap_cons, List.flatMap_nil, List.map_cons, List.map_nil,
    List.append_nil, List.mem_cons, List.mem_singleton, List.not_mem_nil, or_false] at h2
  rcases h2 with h2 | h2
  · exact ⟨[.ResealKeys], Or.inr rfl, by rw [h2]; rfl⟩
  · exact ⟨[], Or.inl rfl, by rw [h2]; rfl⟩

set_option maxRecDepth 100000 in
/-- C18 (the code at the failing input): TPM sealing method, boot chains
unchanged (`boot.IsResealNeeded` answers false for the run and for the
recovery boot chains), a manager that has stored sealing parameters.
`ResealKeyForBootChains` returns without error, calls neither `manager.Update`
nor `boot.WriteBootChains`, and calls `secbootResealKeys` twice, with the
stored parameters. -/
theorem unchanged_chains_reseal_at_failing_input :
    (ResealKeyForBootChains (exampleEnv (some storedParams)) .TPM "/root" exampleParams false
      []).2 = .ok () ∧
    callsOf (ResealKeyForBootChains (exampleEnv (some storedParams)) .TPM "/root" exampleParams
        false) []
      = [.IsResealNeeded "/root/boot-chains", .IsResealNeeded "/root/recovery-boot-chains",
          .Get "run+recover" "all", .Get "recover" "system-save", .ResealKeys, .ResealKeys] ∧
    (ResealKeyForBootChains (exampleEnv (some storedParams)) .TPM "/root" exampleParams false
      []).1.drop 4
      = [.resealKeys
          { PCRProfile := [7]
            Keys := runKeys (exampleEnv (some storedParams))
            TPMPolicyAuthKeyFile := "/root/save/tpm-policy-auth-key" },
         .resealKeys
          { PCRProfile := [7]
            Keys := recoveryKeys (exampleEnv (some storedParams))
            TPMPolicyAuthKeyFile := "/root/save/tpm-policy-auth-key" }] := by
  refine ⟨rfl, by decide, rfl⟩

end Fdestate

namespace Snapstate

open Overlord

theorem addInstallTask_fold (snapsup : SnapSetup) (lanes : List Nat) (kinds : List String) :
    ∀ acc : State × TaskSet,
      ∃ new : List Task,
        (kinds.foldl (addInstallTask snapsup lanes) acc).1.tasks = acc.1.tasks ++ new ∧
        new.length = kinds.length ∧ (∀ t ∈ new, t.lanes = lanes) ∧
        (kinds.foldl (addInstallTask snapsup lanes) acc).2
          = acc.2 ++ List.range' acc.1.tasks.length kinds.length ∧
        (kinds.foldl (addInstallTask snapsup lanes) acc).1.lastLane = acc.1.lastLane := by
  induction kinds with
  | nil => intro acc; exact ⟨[], by simp⟩
  | cons k rest ih =>
    intro acc
    obtain ⟨new, h1, h2, h3, h4, h5⟩ := ih (addInstallTask snapsup lanes acc k)
    have hadd : ∃ t : Task, (addInstallTask snapsup lanes acc k).1.tasks = acc.1.tasks ++ [t] ∧
        t.lanes = lanes ∧
        (addInstallTask snapsup lanes acc k).2 = acc.2 ++ [acc.1.tasks.length] ∧
        (addInstallTask snapsup lanes acc k).1.lastLane = acc.1.lastLane :=
      ⟨_, rfl, rfl, rfl, rfl⟩
    obtain ⟨t0, ht0, hl0, hts0, hlast0⟩ := hadd
    simp only [List.foldl_cons]
    refine ⟨t0 :: new, ?_, ?_, ?_, ?_, ?_⟩
    · rw [h1, ht0]; simp
    · simp [h2]
    · intro t ht
      rcases List.mem_cons.1 ht with rfl | ht
      · exact hl0
      · exact h3 t ht
    · rw [h4, hts0, ht0]; simp [List.range'_succ]
    · rw [h5, hlast0]

theorem doInstall_lanes (st : State) (snapsup : SnapSetup) (lane : Nat) (o : InstallOpts) :
    (∃ new, (doInstall st snapsup [lane] o).1.tasks = st.tasks ++ new) ∧
    (doInstall st snapsup [lane] o).1.lastLane = st.lastLane ∧
    (doInstall st snapsup [lane] o).2 ≠ [] ∧
    LanesAt (doInstall st snapsup [lane] o).1 (doInstall st snapsup [lane] o).2 lane := by
  obtain ⟨new, h1, h2, h3, h4, h5⟩ :=
    addInstallTask_fold snapsup [lane] (expectedDoInstallTasks o) (st, [])
  have hne : (expectedDoInstallTasks o).length ≠ 0 := by
    simp [expectedDoInstallTasks]
  refine ⟨⟨new, h1⟩, h5, ?_, ?_⟩
  · unfold doInstall
    rw [h4]
    intro h
    have := congrArg List.length h
    simp at this
    exact hne (by simp [this])
  · intro id hid
    unfold doInstall at hid ⊢
    rw [h4] at hid
    simp only [List.nil_append, List.mem_range'_1] at hid
    rw [h1]
    have hlt : id - st.tasks.length < new.length := by omega
    refine ⟨new[id - st.tasks.length], ?_, ?_⟩
    · rw [List.getElem?_append_right hid.1, List.getElem?_eq_getElem hlt]
    · have := h3 _ (List.getElem_mem hlt)
      simp [Task.Lanes, this]

theorem lanesAt_extend {st st2 : State} {ts : TaskSet} {lane : Nat} (new : List Task)
    (h : st2.tasks = st.tasks ++ new) (hl : LanesAt st ts lane) : LanesAt st2 ts lane := by
  intro id hid
  obtain ⟨t, ht, hlanes⟩ := hl id hid
  refine ⟨t, ?_, hlanes⟩
  rw [h]
  have hlt : id < st.tasks.length := by
    by_contra hge
    rw [List.getElem?_eq_none (by omega)] at ht
    cases ht
  rw [List.getElem?_append_left hlt]; exact ht

theorem installTaskSets_separate (env : Env) (fromFile : Bool) (names : List String) :
    ∀ st : State,
      (installTaskSets env fromFile none st names).2.length = names.length ∧
      (∃ new, (installTaskSets env fromFile none st names).1.tasks = st.tasks ++ new) ∧
      (∀ ts ∈ (installTaskSets env fromFile none st names).2, ts ≠ []) ∧
      ∀ i ts, (installTaskSets env fromFile none st names).2[i]? = some ts →
        LanesAt (installTaskSets env fromFile none st names).1 ts (st.lastLane + i + 1) := by
  induction names with
  | nil => intro st; simp [installTaskSets]
  | cons name rest ih =>
    intro st
    obtain ⟨⟨new1, hnew1⟩, hlast, hne, hlanes⟩ :=
      doInstall_lanes st.NewLane.1 ⟨name, revisionOf env name fromFile⟩ st.NewLane.2
        { localSnap := fromFile }
    obtain ⟨hlen, ⟨new2, hnew2⟩, hne2, hrest⟩ :=
      ih (doInstall st.NewLane.1 ⟨name, revisionOf env name fromFile⟩ [st.NewLane.2]
        { localSnap := fromFile }).1
    simp only [installTaskSets]
    refine ⟨by simp [hlen], ⟨new1 ++ new2, ?_⟩, ?_, ?_⟩
    · rw [hnew2, hnew1]; simp [State.NewLane]
    · intro ts hts
      rcases List.mem_cons.1 hts with rfl | hts
      · exact hne
      · exact hne2 ts hts
    · intro i ts hi
      cases i with
      | zero =>
        simp only [List.getElem?_cons_zero, Option.some.injEq] at hi
        subst hi
        have := lanesAt_extend new2 hnew2 hlanes
        simpa [State.NewLane] using this
      | succ j =>
        simp only [List.getElem?_cons_succ] at hi
        have := hrest j ts hi
        rw [hlast] at this
        have h2 : st.NewLane.1.lastLane + j + 1 = st.lastLane + (j + 1) + 1 := by
          simp [State.NewLane]; omega
        rw [h2] at this
        exact this

theorem installTaskSets_shared (env : Env) (fromFile : Bool) (lane : Nat) (names : List String) :
    ∀ st : State,
      (installTaskSets env fromFile (some lane) st names).2.length = names.length ∧
      (∃ new, (installTaskSets env fromFile (some lane) st names).1.tasks = st.tasks ++ new) ∧
      (∀ ts ∈ (installTaskSets env fromFile (some lane) st names).2, ts ≠ []) ∧
      ∀ ts ∈ (installTaskSets env fromFile (some lane) st names).2,
        LanesAt (installTaskSets env fromFile (some lane) st names).1 ts lane := by
  induction names with
  | nil => intro st; simp [installTaskSets]
  | cons name rest ih =>
    intro st
    obtain ⟨⟨new1, hnew1⟩, hlast, hne, hlanes⟩ :=
      doInstall_lanes st ⟨name, revisionOf env name fromFile⟩ lane { localSnap := fromFile }
    obtain ⟨hlen, ⟨new2, hnew2⟩, hne2, hrest⟩ :=
      ih (doInstall st ⟨name, revisionOf env name fromFile⟩ [lane] { localSnap := fromFile }).1
    simp only [installTaskSets]
    refine ⟨by simp [hlen], ⟨new1 ++ new2, ?_⟩, ?_, ?_⟩
    · rw [hnew2, hnew1]; simp
    · intro ts hts
      rcases List.mem_cons.1 hts with rfl | hts
      · exact hne
      · exact hne2 ts hts
    · intro ts hts
      rcases List.mem_cons.1 hts with rfl | hts
      · exact lanesAt_extend new2 hnew2 hlanes
      · exact hrest ts hts

theorem installManyFrom_ok {env : Env} {st : State} {shared : Option Nat} {names : List String}
    {fromFile : Bool} {x : List String × List TaskSet}
    (h : (installManyFrom env st shared names fromFile).2 = .ok x) :
    (installManyFrom env st shared names fromFile).1
      = (installTaskSets env fromFile shared st names).1 ∧
    x.2 = (installTaskSets env fromFile shared st names).2 := by
  unfold installManyFrom at h ⊢
  split at h
  · cases h
  · split at h
    · cases h
    · split at h
      · cases h
      · simp only [Except.ok.injEq] at h
        subst h
        exact ⟨rfl, rfl⟩

end Snapstate

namespace Snapstate

open Overlord

set_option maxRecDepth 100000 in
/-- C11 (as stated, refuted): on the state of
`TestInstallManyTransactionalWithLane` after `s.state.NewLane()`, where one
lane is allocated already, `InstallMany` of "one" and "two" without a
transaction flag puts every task of the first TaskSet in lane 2 and every task
of the second in lane 3: the tasks of the TaskSet number 0 are not in lane
0 + 1. -/
theorem installMany_lane_counterexample :
    (taskSetsOf (InstallMany testEnv oneLaneState ["one", "two"] {})).map
        (fun ts => (taskSetLanes (InstallMany testEnv oneLaneState ["one", "two"] {}).1 ts).dedup)
      = [[[2]], [[3]]] ∧
    ∃ ts, (taskSetsOf (InstallMany testEnv oneLaneState ["one", "two"] {}))[0]? = some ts ∧
      ¬ LanesAt (InstallMany testEnv oneLaneState ["one", "two"] {}).1 ts (0 + 1) := by
  refine ⟨by decide, _, rfl, fun h => ?_⟩
  obtain ⟨t, ht, hl⟩ := h 0 (by decide)
  have h2 : ((InstallMany testEnv oneLaneState ["one", "two"] {}).1.tasks[0]?).map Task.Lanes
      = some [2] := by decide
  rw [ht] at h2
  simp only [Option.map_some', Option.some.injEq] at h2
  rw [hl] at h2
  revert h2
  decide

/-- C11 (amended): when `InstallMany` succeeds on a state in which L lanes
have been allocated, it returns one non-empty TaskSet per snap; without the
all-snaps transaction every task of the i-th TaskSet (counting from 0) is in
exactly the one lane L + i + 1 (lane i + 1 on a state without lanes, as in
`TestInstallMany`), so the tasks of different snaps never share a lane; with
Transaction set to all-snaps every task of every TaskSet is in exactly one and
the same lane, the lane given in `Flags.Lane` when one is given and the fresh
lane L + 1 otherwise. -/
theorem installMany_lanes (env : Env) (st : State) (names : List String) (flags : Flags)
    (installed : List String) (tss : List TaskSet)
    (h : (InstallMany env st names flags).2 = .ok (installed, tss)) :
    tss.length = names.length ∧ (∀ ts ∈ tss, ts ≠ []) ∧
    (flags.transaction ≠ .allSnaps → ∀ i ts, tss[i]? = some ts →
      LanesAt (InstallMany env st names flags).1 ts (st.lastLane + i + 1)) ∧
    (flags.transaction = .allSnaps → ∀ ts ∈ tss,
      LanesAt (InstallMany env st names flags).1 ts
        (if flags.lane ≠ 0 then flags.lane else st.lastLane + 1)) := by
  unfold InstallMany installMany at h ⊢
  by_cases htr : flags.transaction = .allSnaps
  · simp only [htr, ne_eq, not_true_eq_false, decide_False, Bool.and_false, Bool.false_eq_true,
      ↓reduceIte] at h ⊢
    by_cases hlane : flags.lane = 0
    · simp only [transactionLane, htr, hlane, ne_eq, not_true_eq_false, ↓reduceIte] at h ⊢
      obtain ⟨h1, h2⟩ := installManyFrom_ok h
      obtain ⟨hlen, _, hne, hall⟩ :=
        installTaskSets_shared env false st.NewLane.2 names st.NewLane.1
      simp only at h2
      rw [h1, h2]
      exact ⟨hlen, hne, fun hcon => hcon.elim, fun _ => hall⟩
    · simp only [transactionLane, htr, hlane, ne_eq, not_false_eq_true, ↓reduceIte] at h ⊢
      obtain ⟨h1, h2⟩ := installManyFrom_ok h
      obtain ⟨hlen, _, hne, hall⟩ := installTaskSets_shared env false flags.lane names st
      simp only at h2
      rw [h1, h2]
      exact ⟨hlen, hne, fun hcon => hcon.elim, fun _ => hall⟩
  · have hlane : flags.lane = 0 := by
      by_contra hl
      simp [hl, htr] at h
    simp only [transactionLane, htr, hlane, ne_eq, not_true_eq_false, decide_False,
      Bool.false_and, Bool.false_eq_true, ↓reduceIte, not_false_eq_true] at h ⊢
    obtain ⟨h1, h2⟩ := installManyFrom_ok h
    obtain ⟨hlen, _, hne, hall⟩ := installTaskSets_separate env false names st
    simp only at h2
    rw [h1, h2]
    exact ⟨hlen, hne, fun _ => hall, fun hcon => absurd hcon (by simp)⟩

set_option maxRecDepth 100000 in
/-- Witness of C11 (amended): on the state the tests start from, where no lane
is allocated, `InstallMany` of "one" and "two" succeeds and the tasks of the
i-th TaskSet are in lane i + 1 (`TestInstallMany`); with all-snaps all tasks
are in lane 1 (`TestInstallManyTransactionally`), and after `NewLane()` with
that lane in `Flags.Lane` in that lane (`TestInstallManyTransactionalWithLane`). -/
theorem installMany_lanes_witness :
    (∀ i ts, (taskSetsOf (InstallMany testEnv seededState ["one", "two"] {}))[i]? = some ts →
      LanesAt (InstallMany testEnv seededState ["one", "two"] {}).1 ts (0 + i + 1)) ∧
    (taskSetsOf (InstallMany testEnv seededState ["one", "two"] {})).map
        (fun ts => (taskSetLanes (InstallMany testEnv seededState ["one", "two"] {}).1 ts).dedup)
      = [[[1]], [[2]]] ∧
    (taskSetsOf (InstallMany testEnv seededState ["one", "two"] { transaction := .allSnaps })).map
        (fun ts => (taskSetLanes (InstallMany testEnv seededState ["one", "two"]
          { transaction := .allSnaps }).1 ts).dedup)
      = [[[1]], [[1]]] ∧
    (taskSetsOf (InstallMany testEnv oneLaneState ["one", "two"]
        { transaction := .allSnaps, lane := 1 })).map
        (fun ts => (taskSetLanes (InstallMany testEnv oneLaneState ["one", "two"]
          { transaction := .allSnaps, lane := 1 }).1 ts).dedup)
      = [[[1]], [[1]]] :=
  ⟨(installMany_lanes testEnv seededState ["one", "two"] {} _ _ rfl).2.2.1 (by decide),
    by decide, by decide, by decide⟩

end Snapstate

/-! ### Ensure and the udev monitor -/

namespace Ifacestate

theorem ensure_of_monitor {E : Type} (m : InterfaceManager E) (c : EnsureCall E)
    (h : m.udevMon.isSome = true) : Ensure m c = (m, ⟨false, none⟩) := by
  unfold Ensure
  by_cases h1 : m.preseed = true
  · simp [h1]
  · by_cases h2 : m.udevMonitorDisabled = true
    · simp [h1, h2]
    · simp [h1, h2, h]

theorem ensure_before_timeout {E : Type} (m : InterfaceManager E) (c : EnsureCall E)
    (h : c.now ≤ m.udevRetryTimeout) : Ensure m c = (m, ⟨false, none⟩) := by
  unfold Ensure
  have h5 : ¬ m.udevRetryTimeout < c.now := Nat.not_lt.mpr h
  simp only [h5, if_false, ite_self]

theorem ensureCalls_idle {E : Type} (m : InterfaceManager E) (cs : List (EnsureCall E))
    (h : ∀ c ∈ cs, Ensure m c = (m, ⟨false, none⟩)) :
    ensureCalls m cs = (m, cs.map fun _ => ⟨false, none⟩) := by
  induction cs with
  | nil => rfl
  | cons c cs ih =>
    have hc := h c (List.mem_cons_self _ _)
    have ih1 := ih fun d hd => h d (List.mem_cons_of_mem _ hd)
    simp only [ensureCalls, hc, ih1, List.map_cons]

theorem ensure_attempts {E : Type} (m : InterfaceManager E) (c : EnsureCall E)
    (hp : m.preseed = false) (hd : m.udevMonitorDisabled = false) (hm : m.udevMon = none)
    (hs : c.systemSnapPresent = true) (ht : m.udevRetryTimeout < c.now) :
    (Ensure m c).2.initCalled = true := by
  unfold Ensure
  simp only [hp, hd, hm, hs, ht, Option.isSome_none, Bool.not_true, if_true, if_false,
    Bool.false_eq_true]
  split <;> rfl

theorem initUDevMonitor_failed {E : Type} (m : InterfaceManager E) (mon : UDevMonitor E)
    (err : E) (hf : (initUDevMonitor m mon).2 = some err) :
    initUDevMonitor m mon = (m, some err) := by
  unfold initUDevMonitor at hf ⊢
  cases hc : mon.Connect with
  | some e => simp only [hc] at hf ⊢; rw [hf]
  | none =>
    cases hr : mon.Run with
    | some e => simp only [hc, hr] at hf ⊢; rw [hf]
    | none => simp [hc, hr] at hf

theorem ensure_failed {E : Type} (m : InterfaceManager E) (c : EnsureCall E) (err : E)
    (ha : (Ensure m c).2.initCalled = true) (hf : (initUDevMonitor m c.mon).2 = some err) :
    Ensure m c = ({ m with udevRetryTimeout := c.now + udevInitRetryTimeout }, ⟨true, some err⟩) ∧
      m.preseed = false ∧ m.udevMonitorDisabled = false ∧ m.udevMon = none := by
  have hinit := initUDevMonitor_failed m c.mon err hf
  unfold Ensure at ha ⊢
  by_cases h1 : m.preseed = true
  · simp [h1] at ha
  by_cases h2 : m.udevMonitorDisabled = true
  · simp [h1, h2] at ha
  by_cases h3 : m.udevMon.isSome = true
  · simp [h1, h2, h3] at ha
  by_cases h4 : (!c.systemSnapPresent) = true
  · simp [h1, h2, h3, h4] at ha
  by_cases h5 : m.udevRetryTimeout < c.now
  · have h1f : m.preseed = false := by simpa using h1
    have h2f : m.udevMonitorDisabled = false := by simpa using h2
    have h3f : m.udevMon = none := by simpa using h3
    have h4f : c.systemSnapPresent = true := by simpa using h4
    refine ⟨?_, h1f, h2f, h3f⟩
    simp only [h1f, h2f, h3f, h4f, h5, hinit, Option.isSome_none, Bool.not_true, if_true,
      if_false, Bool.false_eq_true]
  · simp [h1, h2, h3, h4, h5] at ha

theorem ensure_succeeded {E : Type} (m : InterfaceManager E) (c : EnsureCall E)
    (h : (Ensure m c).2 = ⟨true, none⟩) : (Ensure m c).1.udevMon.isSome = true := by
  unfold Ensure at h ⊢
  by_cases h1 : m.preseed = true
  · simp [h1] at h
  by_cases h2 : m.udevMonitorDisabled = true
  · simp [h1, h2] at h
  by_cases h3 : m.udevMon.isSome = true
  · simp [h1, h2, h3] at h
  by_cases h4 : (!c.systemSnapPresent) = true
  · simp [h1, h2, h3, h4] at h
  by_cases h5 : m.udevRetryTimeout < c.now
  · simp only [h1, h2, h3, h4, h5, if_true, if_false] at h ⊢
    unfold initUDevMonitor at h ⊢
    cases hc : c.mon.Connect with
    | some e => simp [hc] at h
    | none =>
      cases hr : c.mon.Run with
      | some e => simp [hc, hr] at h
      | none => simp [hc, hr]
  · simp [h1, h2, h3, h4, h5] at h

end Ifacestate

namespace Ifacestate

/-- C21: `InterfaceManager.Ensure` retries the udev monitor initialisation every
5 minutes.  The retry interval is five minutes.  On the manager that `Manager`
returns with preseeding off, the first `Ensure` call that finds a system snap
and a clock reading after the zero time calls `initUDevMonitor`.  When a call
at time `c.now` calls `initUDevMonitor` and that fails with `err`, `Ensure`
returns `err`; later calls at times not after `c.now` plus five minutes all
return nil without calling it, and the next call after `c.now` plus five
minutes that finds a system snap calls it again.  Once a call of
`initUDevMonitor` returned nil, no later `Ensure` call calls it and all return
nil. -/
theorem ensure_retries_udev_monitor {E : Type} :
    udevInitRetryTimeout = 5 * 60 * 1000000000 ∧
    (∀ c : EnsureCall E, c.systemSnapPresent = true → 0 < c.now →
      (Ensure (Manager E false) c).2.initCalled = true) ∧
    (∀ (m : InterfaceManager E) (c : EnsureCall E) (err : E),
      (Ensure m c).2.initCalled = true → (initUDevMonitor m c.mon).2 = some err →
      (Ensure m c).2.err = some err ∧
      ∀ cs : List (EnsureCall E), (∀ d ∈ cs, d.now ≤ c.now + udevInitRetryTimeout) →
        (ensureCalls (Ensure m c).1 cs).2 = cs.map (fun _ => ⟨false, none⟩) ∧
        ∀ d : EnsureCall E, d.systemSnapPresent = true →
          c.now + udevInitRetryTimeout < d.now →
          (Ensure (ensureCalls (Ensure m c).1 cs).1 d).2.initCalled = true) ∧
    (∀ (m : InterfaceManager E) (c : EnsureCall E), (Ensure m c).2 = ⟨true, none⟩ →
      ∀ cs : List (EnsureCall E),
        (ensureCalls (Ensure m c).1 cs).2 = cs.map (fun _ => ⟨false, none⟩)) := by
  refine ⟨by decide, ?_, ?_, ?_⟩
  · intro c hs ht
    exact ensure_attempts (Manager E false) c rfl rfl rfl hs ht
  · intro m c err ha hf
    obtain ⟨he, hp, hd, hm⟩ := ensure_failed m c err ha hf
    refine ⟨by rw [he], ?_⟩
    intro cs hcs
    have hidle : ensureCalls (Ensure m c).1 cs = ((Ensure m c).1, cs.map fun _ => ⟨false, none⟩) :=
      ensureCalls_idle _ cs fun d hd =>
        ensure_before_timeout _ d (by rw [he]; exact hcs d hd)
    refine ⟨by rw [hidle], ?_⟩
    intro d hs ht
    rw [hidle, he]
    exact ensure_attempts _ d hp hd hm hs ht
  · intro m c h cs
    have hmon := ensure_succeeded m c h
    have hidle : ensureCalls (Ensure m c).1 cs = ((Ensure m c).1, cs.map fun _ => ⟨false, none⟩) :=
      ensureCalls_idle _ cs fun d _ => ensure_of_monitor _ d hmon
    rw [hidle]

/-- C21 at work: the first call, at time 1000, fails to connect and returns the
error; the calls at 2000 and at 1000 plus five minutes return nil without an
attempt; the call one nanosecond later attempts again, and succeeds; the two
calls after that return nil without an attempt. -/
theorem ensure_retries_udev_monitor_witness :
    (Ensure (Manager String false) ⟨true, 1000, failingMonitor⟩).2.initCalled = true ∧
    (Ensure (Manager String false) ⟨true, 1000, failingMonitor⟩).2.err = some "cannot connect" ∧
    (ensureCalls (Ensure (Manager String false) ⟨true, 1000, failingMonitor⟩).1
      [⟨true, 2000, goodMonitor⟩, ⟨true, 300000001000, goodMonitor⟩]).2
        = [⟨false, none⟩, ⟨false, none⟩] ∧
    (Ensure (ensureCalls (Ensure (Manager String false) ⟨true, 1000, failingMonitor⟩).1
      [⟨true, 2000, goodMonitor⟩, ⟨true, 300000001000, goodMonitor⟩]).1
        ⟨true, 300000001001, goodMonitor⟩).2.initCalled = true ∧
    (ensureCalls (Ensure (Manager String false) ⟨true, 300000001001, goodMonitor⟩).1
      [⟨true, 300000001002, goodMonitor⟩, ⟨true, 900000000000, failingMonitor⟩]).2
        = [⟨false, none⟩, ⟨false, none⟩] :=
  have first := (ensure_retries_udev_monitor (E := String)).2.1
    ⟨true, 1000, failingMonitor⟩ rfl (by decide)
  have failed := (ensure_retries_udev_monitor (E := String)).2.2.1 (Manager String false)
    ⟨true, 1000, failingMonitor⟩ "cannot connect" first rfl
  have later := failed.2 [⟨true, 2000, goodMonitor⟩, ⟨true, 300000001000, goodMonitor⟩]
    (by
      intro d hd
      simp only [List.mem_cons, List.mem_singleton, List.not_mem_nil, or_false] at hd
      rcases hd with rfl | rfl <;> decide)
  have succeeded := (ensure_retries_udev_monitor (E := String)).2.2.2 (Manager String false)
    ⟨true, 300000001001, goodMonitor⟩ rfl
    [⟨true, 300000001002, goodMonitor⟩, ⟨true, 900000000000, failingMonitor⟩]
  ⟨first, failed.1, later.1, later.2 ⟨true, 300000001001, goodMonitor⟩ rfl (by decide), succeeded⟩

end Ifacestate

end Snapd
